import Mathlib

/-!
# FitTrack nutrition controller and goal wizard

A shallow embedding of `server/controllers/nutritionController.js` and of the
step logic of `client/src/components/goals/GoalWizard.jsx`.

* A `Date` is its time value: integer milliseconds since 1970-01-01T00:00Z.
  The calendar getters and `Date.UTC` follow the ECMAScript day and year
  arithmetic (`Day`, `DayFromYear`, `YearFromTime`, `MonthFromTime`,
  `DateFromTime`, `MakeDay`), including the rule of `Date.UTC` that a year
  argument between 0 and 99 stands for 1900 + year. A date in a request is a
  valid date. The bound of 8.64e15 milliseconds on time values is modelled where
  the code derives one date from another by adding to it (`updateWaterIntake`);
  the clock reading `now` is a natural number.
* The document store is the list of stored logs in insertion order.
  `findById` and `findOne` return the first matching document, `save` replaces
  the document with the same `_id`, `create` appends. The Mongoose schema is not
  among the sources: persistence stores a document as it is handed over, and
  the `ObjectId` given to a new document is an input of the operation. Route
  parameters are well-formed `ObjectId` values.
* A request body is a record of optional fields; JavaScript truthiness is
  modelled per field type (the empty string and the number 0 are falsy, every
  array is truthy).
-/

namespace FitTrack

/-! ## Time values and the UTC calendar -/

/-- Milliseconds per day. -/
def msPerDay : Int := 86400000

/-- ECMAScript `Day(t)`: the day number of a time value, `floor(t / msPerDay)`. -/
def Day (t : Int) : Int := t / msPerDay

/-- ECMAScript `DaysInYear(y)`. -/
def DaysInYear (y : Int) : Int :=
  if y % 4 ≠ 0 then 365
  else if y % 100 ≠ 0 then 366
  else if y % 400 ≠ 0 then 365
  else 366

/-- ECMAScript `InLeapYear`, as the number 0 or 1. -/
def InLeapYear (y : Int) : Int := if DaysInYear y = 366 then 1 else 0

/-- ECMAScript `DayFromYear(y)`: the day number of the first day of year `y`. -/
def DayFromYear (y : Int) : Int :=
  365 * (y - 1970) + (y - 1969) / 4 - (y - 1901) / 100 + (y - 1601) / 400

/-- ECMAScript `YearFromTime`, on day numbers: the largest `y` with
`DayFromYear y ≤ d`. It is computed from the estimate `1970 + 400 d / 146097`
(146097 days are 400 years), which is off by at most one year. -/
def YearFromDay (d : Int) : Int :=
  let y := 1970 + (400 * d) / 146097
  if DayFromYear (y + 1) ≤ d then y + 1
  else if DayFromYear y ≤ d then y
  else y - 1

/-- ECMAScript `DayWithinYear`. -/
def DayWithinYear (d : Int) : Int := d - DayFromYear (YearFromDay d)

/-- The table of ECMAScript `MonthFromTime`: the month (0 is January) of day
`w` of a year with leap flag `leap`. -/
def monthOfYearDay (w leap : Int) : Int :=
  if w < 31 then 0
  else if w < 59 + leap then 1
  else if w < 90 + leap then 2
  else if w < 120 + leap then 3
  else if w < 151 + leap then 4
  else if w < 181 + leap then 5
  else if w < 212 + leap then 6
  else if w < 243 + leap then 7
  else if w < 273 + leap then 8
  else if w < 304 + leap then 9
  else if w < 334 + leap then 10
  else 11

/-- The table of ECMAScript `DateFromTime`: the day of the month (from 1) of day
`w` of a year with leap flag `leap`, given its month `m`. -/
def dateOfYearDay (m w leap : Int) : Int :=
  if m = 0 then w + 1
  else if m = 1 then w - 30
  else if m = 2 then w - 58 - leap
  else if m = 3 then w - 89 - leap
  else if m = 4 then w - 119 - leap
  else if m = 5 then w - 150 - leap
  else if m = 6 then w - 180 - leap
  else if m = 7 then w - 211 - leap
  else if m = 8 then w - 242 - leap
  else if m = 9 then w - 272 - leap
  else if m = 10 then w - 303 - leap
  else w - 333 - leap

/-- ECMAScript `MonthFromTime`, on day numbers. -/
def MonthFromDay (d : Int) : Int :=
  monthOfYearDay (DayWithinYear d) (InLeapYear (YearFromDay d))

/-- ECMAScript `DateFromTime`, on day numbers. -/
def DateFromDay (d : Int) : Int :=
  dateOfYearDay (MonthFromDay d) (DayWithinYear d) (InLeapYear (YearFromDay d))

/-- `Date.prototype.getUTCFullYear`. -/
def getUTCFullYear (t : Int) : Int := YearFromDay (Day t)

/-- `Date.prototype.getUTCMonth`. -/
def getUTCMonth (t : Int) : Int := MonthFromDay (Day t)

/-- `Date.prototype.getUTCDate`. -/
def getUTCDate (t : Int) : Int := DateFromDay (Day t)

/-- Day number, within a year with leap flag `leap`, of the first day of month
`m` (0 is January). -/
def monthStart (m leap : Int) : Int :=
  if m = 0 then 0
  else if m = 1 then 31
  else if m = 2 then 59 + leap
  else if m = 3 then 90 + leap
  else if m = 4 then 120 + leap
  else if m = 5 then 151 + leap
  else if m = 6 then 181 + leap
  else if m = 7 then 212 + leap
  else if m = 8 then 243 + leap
  else if m = 9 then 273 + leap
  else if m = 10 then 304 + leap
  else 334 + leap

/-- ECMAScript `MakeDay(year, month, date)`: the day number of the first day of
month `month mod 12` of year `year + floor(month / 12)`, plus `date - 1`. -/
def MakeDay (year month date : Int) : Int :=
  let ym := year + month / 12
  let mn := month % 12
  DayFromYear ym + monthStart mn (InLeapYear ym) + date - 1

/-- `Date.UTC(year, month, date)`: a year from 0 to 99 is read as 1900 + year;
the result is midnight of the day `MakeDay` gives. -/
def DateUTC (year month date : Int) : Int :=
  let yr := if 0 ≤ year ∧ year ≤ 99 then 1900 + year else year
  MakeDay yr month date * msPerDay

/-- The expression
`new Date(Date.UTC(d.getUTCFullYear(), d.getUTCMonth(), d.getUTCDate()))`
of `createNutritionLog`, for the date `d` with time value `t`. -/
def startOfDayUTC (t : Int) : Int :=
  DateUTC (getUTCFullYear t) (getUTCMonth t) (getUTCDate t)

/-- UTC midnight of the calendar day of `t`, in the words of the specification:
the time of day is discarded. -/
def utcMidnight (t : Int) : Int := Day t * msPerDay

/-! ## Data model -/

/-- An `ObjectId`; two ids are equal when their string forms are. -/
abbrev ObjectId := Nat

/-- A food item of a meal. -/
structure Food where
  name : String
  calories : Int
  protein : Int
  carbs : Int
  fat : Int
deriving DecidableEq

/-- A meal sub-document of a nutrition log. -/
structure Meal where
  _id : ObjectId
  type : String
  time : Int
  foods : List Food
  notes : String
deriving DecidableEq

/-- A stored nutrition log document. -/
structure NutritionLog where
  _id : ObjectId
  userId : ObjectId
  date : Int
  meals : List Meal
  waterIntake : Int
  notes : String
deriving DecidableEq

/-- The collection of nutrition logs, in insertion order. -/
abbrev Store := List NutritionLog

/-! ## Requests and responses -/

/-- A date in a JSON body: a non-empty date string that `new Date` reads as the
given time value, or a number of milliseconds. -/
inductive DateArg where
  | text (time : Int)
  | number (time : Int)
deriving DecidableEq

/-- The time value of `new Date(d)`. -/
def DateArg.time : DateArg → Int
  | .text t => t
  | .number t => t

/-- JavaScript truthiness of the raw value: a non-empty string is truthy, a
number is truthy unless it is 0. -/
def DateArg.truthy : DateArg → Bool
  | .text _ => true
  | .number t => t ≠ 0

/-- The `foods` value of a raw meal body: an array of food items, or some value
that is not an array (with its truthiness). -/
inductive FoodsArg where
  | array (foods : List Food)
  | other (truthy : Bool)
deriving DecidableEq

/-- Body of `POST /api/nutrition/logs` and `PUT /api/nutrition/logs/:id`;
`none` is `undefined`. -/
structure LogBody where
  date : Option DateArg
  meals : Option (List Meal)
  waterIntake : Option Int
  notes : Option String
deriving DecidableEq

/-- Body of `POST /api/nutrition/logs/:id/meals`. -/
structure MealBody where
  type : Option String
  time : Option DateArg
  foods : Option FoodsArg
  notes : Option String
deriving DecidableEq

/-- Body of `PUT /api/nutrition/logs/:id/meals/:mealId`, with `foods` at the
type of the stored field. -/
structure MealUpdateBody where
  type : Option String
  time : Option DateArg
  foods : Option (List Food)
  notes : Option String
deriving DecidableEq

/-- Body of `PATCH /api/nutrition/water`. -/
structure WaterBody where
  date : Option DateArg
  amount : Option Int
deriving DecidableEq

/-- The error codes of the response envelope. -/
inductive ErrorCode where
  | SERVER_ERROR
  | LOG_NOT_FOUND
  | MEAL_NOT_FOUND
  | FORBIDDEN
  | FUTURE_DATE
  | LOG_EXISTS
  | INVALID_DATA
deriving DecidableEq

/-- The plain object `newMeal` built by `addMeal` (it has no `_id`). -/
structure NewMeal where
  type : String
  time : Int
  foods : List Food
  notes : String
deriving DecidableEq

/-- The `data` member of a response. -/
inductive Data where
  | log (l : NutritionLog)
  | newMeal (m : NewMeal)
  | meal (m : Meal)
deriving DecidableEq

/-- A response: HTTP status and the JSON envelope (`error.code`,
`error.existingLogId`, `data`, `nutritionLog`). -/
structure Response where
  status : Nat
  success : Bool
  error : Option ErrorCode
  existingLogId : Option ObjectId
  data : Option Data
  nutritionLog : Option NutritionLog
deriving DecidableEq

/-- The answer `res.status(status).json` gives for an error with `code`. -/
def Response.failure (status : Nat) (code : ErrorCode) : Response :=
  { status := status, success := false, error := some code, existingLogId := none,
    data := none, nutritionLog := none }

/-- A successful answer. -/
def Response.ok (status : Nat) (data : Option Data) (log : Option NutritionLog) : Response :=
  { status := status, success := true, error := none, existingLogId := none,
    data := data, nutritionLog := log }

/-- The log a response carries, in `data` or in `nutritionLog`. -/
def Response.carriesLog (r : Response) : Bool :=
  r.data.isSome || r.nutritionLog.isSome

/-! ## JavaScript truthiness of body fields -/

/-- The expression `x || d` for an optional number `x`: 0 and `undefined` give `d`. -/
def numberOr (x : Option Int) (d : Int) : Int :=
  match x with
  | some n => if n ≠ 0 then n else d
  | none => d

/-- The expression `x || d` for an optional string `x`: the empty string and
`undefined` give `d`. -/
def stringOr (x : Option String) (d : String) : String :=
  match x with
  | some v => if v ≠ "" then v else d
  | none => d

/-- The expression `x || d` for an optional array `x`: only `undefined` gives `d`. -/
def arrayOr {α : Type} (x : Option (List α)) (d : List α) : List α :=
  match x with
  | some v => v
  | none => d

/-- Truthiness of an optional string: `undefined` and the empty string are falsy. -/
def truthyString : Option String → Bool
  | none => false
  | some x => x ≠ ""

/-- Truthiness of a raw `foods` value: every array is truthy. -/
def truthyFoods : Option FoodsArg → Bool
  | none => false
  | some (.array _) => true
  | some (.other b) => b

/-- `Array.isArray(foods)`. -/
def isArray : Option FoodsArg → Bool
  | some (.array _) => true
  | _ => false

/-- The food items of a raw `foods` value that is an array. -/
def foodsOf : Option FoodsArg → List Food
  | some (.array fs) => fs
  | _ => []

/-! ## Store access -/

/-- `NutritionLog.findById(id)`. -/
def findById (s : Store) (id : ObjectId) : Option NutritionLog :=
  s.find? (fun l => l._id = id)

/-- `NutritionLog.findOne` with a user and a date range `$gte lo`, `$lt hi`. -/
def findOne (s : Store) (user : ObjectId) (lo hi : Int) : Option NutritionLog :=
  s.find? (fun l => l.userId = user ∧ lo ≤ l.date ∧ l.date < hi)

/-- `nutritionLog.save()`: the stored document with the same `_id` is replaced. -/
def save (s : Store) (l : NutritionLog) : Store :=
  s.map (fun x => if x._id = l._id then l else x)

/-- `nutritionLog.deleteOne()`. -/
def deleteOne (s : Store) (l : NutritionLog) : Store :=
  s.filter (fun x => x._id ≠ l._id)

/-- The checks every operation on a log by id starts with: 404 when no log has
the id, 403 when its `userId` is not the requester; otherwise the log. -/
def lookupOwned (s : Store) (user id : ObjectId) : Except Response NutritionLog :=
  match findById s id with
  | none => .error (Response.failure 404 .LOG_NOT_FOUND)
  | some l =>
    if l.userId ≠ user then .error (Response.failure 403 .FORBIDDEN)
    else .ok l

/-! ## The controller operations

Each operation takes the authenticated user (`req.user._id`), the route
parameters and the body, and maps the store to a response and a new store. -/

/-- `getNutritionLog`. -/
def getNutritionLog (user id : ObjectId) (s : Store) : Response × Store :=
  match lookupOwned s user id with
  | .error r => (r, s)
  | .ok l => (Response.ok 200 (some (.log l)) none, s)

/-- `createNutritionLog`, at clock reading `now`, with `newId` the id given to
a created document. A missing `date` makes `new Date(date)` an invalid date,
which the query rejects: the catch block answers 500. -/
def createNutritionLog (now : Nat) (newId user : ObjectId) (body : LogBody) (s : Store) :
    Response × Store :=
  match body.date with
  | none => (Response.failure 500 .SERVER_ERROR, s)
  | some date =>
    let logDateUTC := startOfDayUTC date.time
    let todayUTC := startOfDayUTC now
    if logDateUTC > todayUTC then
      (Response.failure 400 .FUTURE_DATE, s)
    else
      match findOne s user logDateUTC (logDateUTC + 24 * 60 * 60 * 1000) with
      | some existingLog =>
        ({ Response.failure 400 .LOG_EXISTS with existingLogId := some existingLog._id }, s)
      | none =>
        let nutritionLog : NutritionLog :=
          { _id := newId
            userId := user
            date := logDateUTC
            meals := arrayOr body.meals []
            waterIntake := numberOr body.waterIntake 0
            notes := stringOr body.notes "" }
        (Response.ok 201 (some (.log nutritionLog)) none, s ++ [nutritionLog])

/-- The field updates of `updateNutritionLog`: `if (date)`, `if (meals)`,
`if (waterIntake !== undefined)`, `if (notes !== undefined)`. -/
def applyLogUpdate (body : LogBody) (l : NutritionLog) : NutritionLog :=
  let l := match body.date with
    | some date => if date.truthy then { l with date := date.time } else l
    | none => l
  let l := match body.meals with
    | some ms => { l with meals := ms }
    | none => l
  let l := match body.waterIntake with
    | some w => { l with waterIntake := w }
    | none => l
  let l := match body.notes with
    | some n => { l with notes := n }
    | none => l
  l

/-- `updateNutritionLog`. -/
def updateNutritionLog (user id : ObjectId) (body : LogBody) (s : Store) : Response × Store :=
  match lookupOwned s user id with
  | .error r => (r, s)
  | .ok l =>
    let l := applyLogUpdate body l
    (Response.ok 200 (some (.log l)) none, save s l)

/-- `deleteNutritionLog`. -/
def deleteNutritionLog (user id : ObjectId) (s : Store) : Response × Store :=
  match lookupOwned s user id with
  | .error r => (r, s)
  | .ok l => (Response.ok 200 none none, deleteOne s l)

/-- `addMeal`, at clock reading `now`, with `newId` the id given to the pushed
meal sub-document. Past the guard `type` is a non-empty string and `foods` a
non-empty array. -/
def addMeal (now : Nat) (newId user id : ObjectId) (body : MealBody) (s : Store) :
    Response × Store :=
  if !truthyString body.type || !truthyFoods body.foods || !isArray body.foods
      || (foodsOf body.foods).length = 0 then
    (Response.failure 400 .INVALID_DATA, s)
  else
    match lookupOwned s user id with
    | .error r => (r, s)
    | .ok l =>
      let newMeal : NewMeal :=
        { type := stringOr body.type ""
          time := match body.time with
            | some time => if time.truthy then time.time else now
            | none => now
          foods := foodsOf body.foods
          notes := stringOr body.notes "" }
      let pushed : Meal :=
        { _id := newId, type := newMeal.type, time := newMeal.time, foods := newMeal.foods,
          notes := newMeal.notes }
      let l := { l with meals := l.meals ++ [pushed] }
      (Response.ok 201 (some (.newMeal newMeal)) (some l), save s l)

/-- The field updates `updateMeal` applies to the meal it found. -/
def applyMealUpdate (body : MealUpdateBody) (m : Meal) : Meal :=
  let m := match body.type with
    | some type => if type ≠ "" then { m with type := type } else m
    | none => m
  let m := match body.time with
    | some time => if time.truthy then { m with time := time.time } else m
    | none => m
  let m := match body.foods with
    | some fs => { m with foods := fs }
    | none => m
  let m := match body.notes with
    | some n => { m with notes := n }
    | none => m
  m

/-- `updateMeal`. -/
def updateMeal (user id mealId : ObjectId) (body : MealUpdateBody) (s : Store) :
    Response × Store :=
  match lookupOwned s user id with
  | .error r => (r, s)
  | .ok l =>
    match l.meals.findIdx? (fun meal => meal._id = mealId) with
    | none => (Response.failure 404 .MEAL_NOT_FOUND, s)
    | some mealIndex =>
      let l := { l with meals := l.meals.modify (applyMealUpdate body) mealIndex }
      (Response.ok 200 ((l.meals.get? mealIndex).map Data.meal) (some l), save s l)

/-- `deleteMeal`. -/
def deleteMeal (user id mealId : ObjectId) (s : Store) : Response × Store :=
  match lookupOwned s user id with
  | .error r => (r, s)
  | .ok l =>
    match l.meals.findIdx? (fun meal => meal._id = mealId) with
    | none => (Response.failure 404 .MEAL_NOT_FOUND, s)
    | some mealIndex =>
      let l := { l with meals := l.meals.eraseIdx mealIndex }
      (Response.ok 200 none (some l), save s l)

/-- `setHours(0, 0, 0, 0)` on a date with time value `t`, for a server whose
local time is `tz` milliseconds ahead of UTC: local midnight of the local day. -/
def setHoursZero (tz : Int) (t : Int) : Int :=
  Day (t + tz) * msPerDay - tz

/-- The largest time value of a `Date`: 8.64e15 milliseconds either side of the
epoch. -/
def maxTime : Int := 8640000000000000

/-- Whether a time value is within the range of `Date` (ECMAScript `TimeClip`);
outside it the `Date` is an Invalid Date. -/
def validTime (t : Int) : Bool :=
  decide (-maxTime ≤ t) && decide (t ≤ maxTime)

/-- `updateWaterIntake`, at clock reading `now` on a server `tz` milliseconds
ahead of UTC, with `newId` the id given to a created document (whose `notes`,
which the call does not set, are empty). When `targetDate` after `setHours`, or
the upper bound `new Date(targetDate.getTime() + 24h)`, is an Invalid Date, the
query is rejected and the catch block answers 500. -/
def updateWaterIntake (tz : Int) (now : Nat) (newId user : ObjectId) (body : WaterBody)
    (s : Store) : Response × Store :=
  match body.amount with
  | none => (Response.failure 400 .INVALID_DATA, s)
  | some amount =>
    let targetDate := setHoursZero tz
      (match body.date with
        | some date => if date.truthy then date.time else now
        | none => now)
    if !validTime targetDate || !validTime (targetDate + 24 * 60 * 60 * 1000) then
      (Response.failure 500 .SERVER_ERROR, s)
    else
      match findOne s user targetDate (targetDate + 24 * 60 * 60 * 1000) with
      | none =>
        let nutritionLog : NutritionLog :=
          { _id := newId, userId := user, date := targetDate, meals := [],
            waterIntake := amount, notes := "" }
        (Response.ok 200 (some (.log nutritionLog)) none, s ++ [nutritionLog])
      | some l =>
        let l := { l with waterIntake := amount }
        (Response.ok 200 (some (.log l)) none, save s l)

/-! ## Sequences of calls and the one-log-per-day property -/

/-- One call of `createNutritionLog`: the clock reading, the id the store gives
a created document, the authenticated user and the body. -/
structure CreateCall where
  now : Nat
  newId : ObjectId
  user : ObjectId
  body : LogBody

/-- The store after a sequence of `createNutritionLog` calls. -/
def runCreates (calls : List CreateCall) (s : Store) : Store :=
  calls.foldl (fun st c => (createNutritionLog c.now c.newId c.user c.body st).2) s

/-- The logs of `user` whose date lies on UTC calendar day `day`. -/
def logsOn (s : Store) (user : ObjectId) (day : Int) : List NutritionLog :=
  s.filter (fun l => l.userId = user ∧ Day l.date = day)

/-- Every user has at most one log on any UTC calendar day. -/
def OnePerDay (s : Store) : Prop :=
  ∀ user day, (logsOn s user day).length ≤ 1

/-! ## Listing and statistics

The query parameters of `GET /api/nutrition/logs` and `GET /api/nutrition/stats`
arrive as strings. The derived totals a stored log carries (`totalCalories`,
`totalProtein`, `totalCarbs`, `totalFat`) are written by the model layer, which
is not among the sources: the statistics take them as a function `totals` of
the stored log. Numbers are exact: rounding to double precision is not modelled. -/

/-- The `startDate` and `endDate` query parameters: `none` is a parameter that
is absent or empty (falsy), `some t` a date string that `new Date` reads as `t`. -/
structure DateRange where
  startDate : Option Int
  endDate : Option Int
deriving DecidableEq

/-- The filter `{ userId: req.user._id, date: { $gte: startDate, $lte: endDate } }`,
each bound present only when its parameter is truthy. -/
def matchesQuery (user : ObjectId) (r : DateRange) (l : NutritionLog) : Bool :=
  decide (l.userId = user)
    && (match r.startDate with
        | some a => decide (a ≤ l.date)
        | none => true)
    && (match r.endDate with
        | some b => decide (l.date ≤ b)
        | none => true)

/-- A numeric query parameter (`page`, `limit`): absent, or the decimal
numeral of a natural number. -/
inductive QueryNumber where
  | absent
  | text (n : Nat)
deriving DecidableEq

/-- A JavaScript value that is a number or a string. -/
inductive JsValue where
  | number (n : Int)
  | text (s : String)
deriving DecidableEq

/-- The number a parameter stands for in `-`, `*`, `/`, `<` and `parseInt`,
with `d` the default of the destructuring (`page = 1`, `limit = 10`). -/
def QueryNumber.value (q : QueryNumber) (d : Nat) : Nat :=
  match q with
  | .absent => d
  | .text n => n

/-- The value of the parameter itself: the default number, or the string. -/
def QueryNumber.raw (q : QueryNumber) (d : Nat) : JsValue :=
  match q with
  | .absent => .number d
  | .text n => .text (toString n)

/-- The expression `q + 1`: addition for the default number, concatenation for
a string. -/
def QueryNumber.plusOne (q : QueryNumber) (d : Nat) : JsValue :=
  match q with
  | .absent => .number (d + 1)
  | .text n => .text (toString n ++ "1")

/-- Query of `getNutritionLogs`. -/
structure ListQuery where
  range : DateRange
  page : QueryNumber
  limit : QueryNumber
deriving DecidableEq

/-- A `next` or `prev` page descriptor. -/
structure PageRef where
  page : JsValue
  limit : JsValue
deriving DecidableEq

/-- The `pagination` member of the list response; `pages` is `none` for the
`null` that JSON gives for the result of a division by 0. -/
structure Pagination where
  next : Option PageRef
  prev : Option PageRef
  total : Nat
  pages : Option Int
  page : Int
  limit : Int
deriving DecidableEq

/-- The response of `getNutritionLogs`; `pagination` is absent from the error
response. -/
structure ListResponse where
  status : Nat
  success : Bool
  error : Option ErrorCode
  count : Nat
  pagination : Option Pagination
  data : List NutritionLog
deriving DecidableEq

/-- `getNutritionLogs`: the requester's logs in the date range, newest first,
one page of them, with the pagination descriptors. A `limit` of 0 means no limit
to the store; a negative `skip` (page 0) is rejected by the store and the catch
block answers 500. -/
def getNutritionLogs (user : ObjectId) (q : ListQuery) (s : Store) : ListResponse :=
  let page := q.page.value 1
  let limit := q.limit.value 10
  let startIndex : Int := ((page : Int) - 1) * limit
  let endIndex : Int := (page : Int) * limit
  let matched := s.filter (matchesQuery user q.range)
  let total := matched.length
  if startIndex < 0 then
    { status := 500, success := false, error := some .SERVER_ERROR, count := 0,
      pagination := none, data := [] }
  else
    let sorted := matched.insertionSort (fun a b => b.date ≤ a.date)
    let skipped := sorted.drop startIndex.toNat
    let nutritionLogs := if limit = 0 then skipped else skipped.take limit
    { status := 200
      success := true
      error := none
      count := nutritionLogs.length
      pagination := some
        { next := if endIndex < total then
              some { page := q.page.plusOne 1, limit := q.limit.raw 10 }
            else none
          prev := if startIndex > 0 then
              some { page := .number ((page : Int) - 1), limit := q.limit.raw 10 }
            else none
          total := total
          pages := if limit = 0 then none else some ⌈(total : ℚ) / (limit : ℚ)⌉
          page := page
          limit := limit }
      data := nutritionLogs }

/-- The derived totals stored with a log. -/
structure Totals where
  totalCalories : Int
  totalProtein : Int
  totalCarbs : Int
  totalFat : Int
deriving DecidableEq

/-- The single group of the `dailyAverages` aggregation. -/
structure DailyAverages where
  avgCalories : ℚ
  avgProtein : ℚ
  avgCarbs : ℚ
  avgFat : ℚ
  avgWaterIntake : ℚ
deriving DecidableEq

/-- An entry of `caloriesTrend`. -/
structure TrendPoint where
  date : String
  calories : Int
deriving DecidableEq

/-- The single group of the `macroDistribution` aggregation. -/
structure MacroDistribution where
  protein : Int
  carbs : Int
  fat : Int
deriving DecidableEq

/-- An entry of `mealTypeDistribution`: the group key `_id` is the meal type. -/
structure MealTypeCount where
  _id : String
  count : Nat
  avgCalories : ℚ
deriving DecidableEq

/-- The `data` member of the statistics response; `none` is `null`. -/
structure StatsData where
  dailyAverages : Option DailyAverages
  caloriesTrend : List TrendPoint
  macroDistribution : Option MacroDistribution
  mealTypeDistribution : List MealTypeCount
deriving DecidableEq

/-- The response of `getNutritionStats`. -/
structure StatsResponse where
  status : Nat
  success : Bool
  error : Option ErrorCode
  data : Option StatsData
deriving DecidableEq

/-- The accumulator `$avg` over the values of a non-empty group. -/
def avg (xs : List Int) : ℚ := (xs.sum : ℚ) / (xs.length : ℚ)

/-- The decimal digit of `n` in the place of the units. -/
def digitChar (n : Nat) : Char := Char.ofNat (48 + n % 10)

/-- A number below 100 in two digits, zero padded. -/
def pad2 (n : Nat) : String := String.mk [digitChar (n / 10), digitChar n]

/-- A number below 10000 in four digits, zero padded. -/
def pad4 (n : Nat) : String :=
  String.mk [digitChar (n / 1000), digitChar (n / 100), digitChar (n / 10), digitChar n]

/-- Whether `$dateToString` can print the date: the operator raises an error
for a year outside 0 to 9999. -/
def printableYear (t : Int) : Bool :=
  decide (0 ≤ getUTCFullYear t) && decide (getUTCFullYear t ≤ 9999)

/-- `$dateToString` with format `%Y-%m-%d` (in UTC) on a printable date. -/
def dateToString (t : Int) : String :=
  pad4 (getUTCFullYear t).toNat ++ "-" ++ pad2 (getUTCMonth t + 1).toNat ++ "-"
    ++ pad2 (getUTCDate t).toNat

/-- The `dailyAverages` pipeline: `$group` with `_id: null` gives one group
when there are documents and none otherwise. -/
def dailyAveragesPipeline (totals : NutritionLog → Totals) (docs : List NutritionLog) :
    List DailyAverages :=
  if docs.isEmpty then []
  else
    [{ avgCalories := avg (docs.map fun l => (totals l).totalCalories)
       avgProtein := avg (docs.map fun l => (totals l).totalProtein)
       avgCarbs := avg (docs.map fun l => (totals l).totalCarbs)
       avgFat := avg (docs.map fun l => (totals l).totalFat)
       avgWaterIntake := avg (docs.map fun l => l.waterIntake) }]

/-- The `caloriesTrend` pipeline: `$sort` by ascending date, then `$project`. -/
def caloriesTrendPipeline (totals : NutritionLog → Totals) (docs : List NutritionLog) :
    List TrendPoint :=
  (docs.insertionSort (fun a b => a.date ≤ b.date)).map fun l =>
    { date := dateToString l.date, calories := (totals l).totalCalories }

/-- The `macroDistribution` pipeline. -/
def macroDistributionPipeline (totals : NutritionLog → Totals) (docs : List NutritionLog) :
    List MacroDistribution :=
  if docs.isEmpty then []
  else
    [{ protein := (docs.map fun l => (totals l).totalProtein).sum
       carbs := (docs.map fun l => (totals l).totalCarbs).sum
       fat := (docs.map fun l => (totals l).totalFat).sum }]

/-- The expression `{ $sum: '$meals.foods.calories' }` on an unwound meal. -/
def mealCalories (m : Meal) : Int := (m.foods.map fun f => f.calories).sum

/-- The stage `$unwind: '$meals'`: one document per meal, in order. -/
def unwindMeals (docs : List NutritionLog) : List Meal :=
  docs.flatMap fun l => l.meals

/-- The stage `$group` by `$meals.type` with a count and the average of the
calories of the meals. -/
def groupByMealType (meals : List Meal) : List MealTypeCount :=
  (meals.map fun m => m.type).dedup.map fun t =>
    { _id := t
      count := (meals.filter fun m => m.type = t).length
      avgCalories := avg ((meals.filter fun m => m.type = t).map mealCalories) }

/-- The `mealTypeDistribution` pipeline: `$unwind`, `$group`, `$sort` by
descending count. -/
def mealTypeDistributionPipeline (docs : List NutritionLog) : List MealTypeCount :=
  (groupByMealType (unwindMeals docs)).insertionSort (fun a b => b.count ≤ a.count)

/-- `getNutritionStats`. The four aggregations run over the requester's logs
in the date range; when `$dateToString` raises its error on one of them the
catch block answers 500. -/
def getNutritionStats (totals : NutritionLog → Totals) (user : ObjectId) (r : DateRange)
    (s : Store) : StatsResponse :=
  let docs := s.filter (matchesQuery user r)
  if docs.all (fun l => printableYear l.date) then
    { status := 200
      success := true
      error := none
      data := some
        { dailyAverages := (dailyAveragesPipeline totals docs).head?
          caloriesTrend := caloriesTrendPipeline totals docs
          macroDistribution := (macroDistributionPipeline totals docs).head?
          mealTypeDistribution := mealTypeDistributionPipeline docs } }
  else
    { status := 500, success := false, error := some .SERVER_ERROR, data := none }

/-! ## Goal wizard

The client component `GoalWizard.jsx`. The form library is outside the
sources: `trigger` on a list of fields is modelled as the conjunction of the
rules those fields are registered with (`required`, `min`, `pattern`,
`validate`), a rule other than `required` and `validate` being skipped on an
empty value. Field values are strings. A number is an IEEE double, given by its
exact rational value, or `NaN` or an infinity; the sign of zero is not kept.
`parseFloat` and the conversion `+value` that the library makes for `min` follow
the ECMAScript grammar of numeric strings (white space, sign, `Infinity`,
digits, point, exponent part; for `+value` also the `0x`, `0o` and `0b`
literals), and the mathematical value of a literal is rounded to the nearest
double, ties to the even significand. -/

/-- The values of the form. -/
structure GoalForm where
  type : String
  targetValue : String
  currentValue : String
  unit : String
  targetDate : String
  status : String
deriving DecidableEq

/-- The state of the wizard: `step`, `loading` and the form values. -/
structure Wizard where
  step : Int
  loading : Bool
  form : GoalForm
deriving DecidableEq

/-- The `defaultValues` of the form. -/
def defaultValues : GoalForm :=
  { type := "", targetValue := "", currentValue := "", unit := "", targetDate := "",
    status := "active" }

/-- The wizard when it opens: step 1, not loading, default values. -/
def initialWizard : Wizard :=
  { step := 1, loading := false, form := defaultValues }

/-- The number written by a list of decimal digits. -/
def natOfDigits (ds : List Char) : Nat :=
  ds.foldl (fun n c => 10 * n + (c.toNat - 48)) 0

/-- The pattern `/^[0-9]*\.?[0-9]+$/` of `targetValue`. -/
def targetPattern (s : String) : Bool :=
  match s.toList.dropWhile Char.isDigit with
  | [] => !s.toList.isEmpty
  | c :: b => c = '.' && !b.isEmpty && b.all Char.isDigit

/-- The pattern `/^[0-9]*\.?[0-9]*$/` of `currentValue`. -/
def currentPattern (s : String) : Bool :=
  match s.toList.dropWhile Char.isDigit with
  | [] => true
  | c :: b => c = '.' && b.all Char.isDigit

/-- A JavaScript number: an IEEE double given by its exact rational value,
`NaN`, or an infinity. The sign of zero is not kept. -/
inductive JsNumber where
  | nan
  | negInf
  | finite (value : ℚ)
  | posInf
deriving DecidableEq

/-- Unary minus. -/
def JsNumber.neg : JsNumber → JsNumber
  | .nan => .nan
  | .negInf => .posInf
  | .finite v => .finite (-v)
  | .posInf => .negInf

/-- The comparison `x < y`: false when either side is `NaN`. -/
def JsNumber.lt : JsNumber → JsNumber → Bool
  | .nan, _ => false
  | _, .nan => false
  | .negInf, .negInf => false
  | .negInf, _ => true
  | .finite _, .negInf => false
  | .finite a, .finite b => decide (a < b)
  | .finite _, .posInf => true
  | .posInf, _ => false

/-- The comparison `x <= y`: false when either side is `NaN`. -/
def JsNumber.le : JsNumber → JsNumber → Bool
  | .nan, _ => false
  | _, .nan => false
  | .negInf, _ => true
  | .finite _, .negInf => false
  | .finite a, .finite b => decide (a ≤ b)
  | .finite _, .posInf => true
  | .posInf, .posInf => true
  | .posInf, _ => false

/-- The power `2 ^ e` for an integer `e`. -/
def twoPow (e : Int) : ℚ :=
  if 0 ≤ e then ((2 ^ e.toNat : ℕ) : ℚ) else 1 / ((2 ^ (-e).toNat : ℕ) : ℚ)

/-- The power `10 ^ e` for an integer `e`. -/
def tenPow (e : Int) : ℚ :=
  if 0 ≤ e then ((10 ^ e.toNat : ℕ) : ℚ) else 1 / ((10 ^ (-e).toNat : ℕ) : ℚ)

/-- The number of binary digits of `n`, computed in at most `fuel` halvings. -/
def bitLength : Nat → Nat → Nat
  | 0, _ => 0
  | fuel + 1, n => if n = 0 then 0 else bitLength fuel (n / 2) + 1

/-- The integer `e` with `2 ^ e ≤ q < 2 ^ (e + 1)`, for a positive `q`. -/
def floorLog2 (q : ℚ) : Int :=
  let e : Int := (bitLength q.num.natAbs q.num.natAbs : Int) - (bitLength q.den q.den : Int)
  if twoPow e ≤ q then e else e - 1

/-- The integer nearest to `q`, the even one of two equally near. -/
def roundHalfEven (q : ℚ) : Int :=
  let f := ⌊q⌋
  if q - f < 1 / 2 then f
  else if 1 / 2 < q - f then f + 1
  else if f % 2 = 0 then f else f + 1

/-- The double nearest to a magnitude `q ≥ 0`, ties to the even significand: a
multiple of `2 ^ (e - 52)` where `2 ^ e ≤ q < 2 ^ (e + 1)` and `e` is at least
-1022 (below that the doubles are subnormal); `none` when the result is
`2 ^ 1024`, which is Infinity. -/
def roundMagnitude (q : ℚ) : Option ℚ :=
  if q = 0 then some 0
  else
    let e := max (floorLog2 q) (-1022)
    let ulp := twoPow (e - 52)
    let r := (roundHalfEven (q / ulp) : ℚ) * ulp
    if r < twoPow 1024 then some r else none

/-- The Number value of a mathematical value: the nearest double. -/
def toDouble (q : ℚ) : JsNumber :=
  if q < 0 then
    match roundMagnitude (-q) with
    | some r => .finite (-r)
    | none => .negInf
  else
    match roundMagnitude q with
    | some r => .finite r
    | none => .posInf

/-- The white space and line terminators that the string-to-number conversions
strip (`StrWhiteSpaceChar`). -/
def isStrWhiteSpaceChar (c : Char) : Bool :=
  decide (c.toNat = 9 ∨ c.toNat = 10 ∨ c.toNat = 11 ∨ c.toNat = 12 ∨ c.toNat = 13
    ∨ c.toNat = 32 ∨ c.toNat = 160 ∨ c.toNat = 5760 ∨ (8192 ≤ c.toNat ∧ c.toNat ≤ 8202)
    ∨ c.toNat = 8232 ∨ c.toNat = 8233 ∨ c.toNat = 8239 ∨ c.toNat = 8287 ∨ c.toNat = 12288
    ∨ c.toNat = 65279)

/-- The `ExponentPart` at the head of `cs`, if there is one (`e` or `E`, an
optional sign, digits): its value and the characters after it. -/
def exponentPart (cs : List Char) : Option (Int × List Char) :=
  match cs with
  | [] => none
  | c :: r =>
    if c = 'e' ∨ c = 'E' then
      match r with
      | [] => none
      | d :: r2 =>
        if d = '+' ∨ d = '-' then
          if (r2.takeWhile Char.isDigit).isEmpty then none
          else some ((if d = '-' then -1 else 1) * (natOfDigits (r2.takeWhile Char.isDigit) : Int),
            r2.dropWhile Char.isDigit)
        else if (r.takeWhile Char.isDigit).isEmpty then none
        else some ((natOfDigits (r.takeWhile Char.isDigit) : Int), r.dropWhile Char.isDigit)
    else none

/-- The mathematical value of the digits `a`, a point and the digits `b`. -/
def mantissa (a b : List Char) : ℚ :=
  (natOfDigits a : ℚ) + (natOfDigits b : ℚ) / ((10 ^ b.length : ℕ) : ℚ)

/-- The Number value of the digits `a.b` with the exponent part at the head of
`rest`, if there is one, and the characters after the literal. -/
def scaled (a b rest : List Char) : JsNumber × List Char :=
  match exponentPart rest with
  | some (e, rest2) => (toDouble (mantissa a b * tenPow e), rest2)
  | none => (toDouble (mantissa a b), rest)

/-- The longest `StrUnsignedDecimalLiteral` at the head of `cs` (`Infinity`,
or digits with an optional point and an optional exponent part, with a digit
before or after the point): its Number value and the characters after it. -/
def strUnsignedDecimalLiteral (cs : List Char) : Option (JsNumber × List Char) :=
  if cs.take 8 = "Infinity".toList then some (.posInf, cs.drop 8)
  else
    let a := cs.takeWhile Char.isDigit
    match cs.dropWhile Char.isDigit with
    | [] => if a.isEmpty then none else some (scaled a [] [])
    | c :: r =>
      if c = '.' then
        let b := r.takeWhile Char.isDigit
        if a.isEmpty && b.isEmpty then none
        else some (scaled a b (r.dropWhile Char.isDigit))
      else if a.isEmpty then none else some (scaled a [] (c :: r))

/-- The longest `StrDecimalLiteral` at the head of `cs`: an optional sign and
an unsigned literal. -/
def strDecimalLiteral (cs : List Char) : Option (JsNumber × List Char) :=
  match cs with
  | [] => none
  | c :: r =>
    if c = '+' then strUnsignedDecimalLiteral r
    else if c = '-' then (strUnsignedDecimalLiteral r).map fun p => (p.1.neg, p.2)
    else strUnsignedDecimalLiteral cs

/-- `parseFloat`: leading white space is skipped and the longest decimal
literal at the head is read; `NaN` when there is none. -/
def parseFloat (s : String) : JsNumber :=
  match strDecimalLiteral (s.toList.dropWhile isStrWhiteSpaceChar) with
  | some (v, _) => v
  | none => .nan

/-- The value of a digit in a hexadecimal, octal or binary literal; 16 for a
character that is no digit. -/
def digitValue (c : Char) : Nat :=
  if c.isDigit then c.toNat - 48
  else if 'a' ≤ c ∧ c ≤ 'f' then c.toNat - 87
  else if 'A' ≤ c ∧ c ≤ 'F' then c.toNat - 55
  else 16

/-- The Number value of a string that is a `NonDecimalIntegerLiteral` (`0x`,
`0o` or `0b` and digits of that base); `NaN` for any other string. -/
def nonDecimalIntegerLiteral (cs : List Char) : JsNumber :=
  match cs with
  | z :: x :: d :: ds =>
    let base : Nat :=
      if x = 'x' ∨ x = 'X' then 16 else if x = 'o' ∨ x = 'O' then 8
      else if x = 'b' ∨ x = 'B' then 2 else 0
    if z = '0' ∧ (d :: ds).all (fun c => decide (digitValue c < base)) then
      toDouble ((d :: ds).foldl (fun n c => base * n + digitValue c) 0 : ℕ)
    else .nan
  | _ => .nan

/-- The number the library compares with `min`, `+value`: white space is
stripped at both ends; the empty string is 0; otherwise the whole string has to
be a decimal literal or a hexadecimal, octal or binary literal. -/
def toNumber (s : String) : JsNumber :=
  let cs := ((s.toList.dropWhile isStrWhiteSpaceChar).reverse.dropWhile
    isStrWhiteSpaceChar).reverse
  if cs.isEmpty then .finite 0
  else
    match strDecimalLiteral cs with
    | some (v, []) => v
    | _ => nonDecimalIntegerLiteral cs

/-- The rule `min: { value: m }`: skipped on an empty value, and a value that is
`NaN` is not below the minimum. -/
def minRule (m : JsNumber) (s : String) : Bool :=
  decide (s = "") || !(toNumber s).lt m

/-- The rule of the hidden `type` input: `required`. -/
def typeRule (f : GoalForm) : Bool := decide (f.type ≠ "")

/-- The rules of `targetValue`: `required`, `min` 0.1 (the double nearest to
1/10), the pattern. -/
def targetValueRule (f : GoalForm) : Bool :=
  decide (f.targetValue ≠ "")
    && minRule (toDouble (1 / 10)) f.targetValue
    && (decide (f.targetValue = "") || targetPattern f.targetValue)

/-- The rule of `unit`: `required`. -/
def unitRule (f : GoalForm) : Bool := decide (f.unit ≠ "")

/-- The `validate` function of `currentValue`: when both values are non-empty,
`parseFloat(value) <= parseFloat(watchTargetValue)`, which is false when either
is `NaN`. -/
def validateCurrentValue (f : GoalForm) : Bool :=
  if f.currentValue ≠ "" ∧ f.targetValue ≠ "" then
    (parseFloat f.currentValue).le (parseFloat f.targetValue)
  else true

/-- The rules of `currentValue`: `min` 0, the pattern, `validate`. -/
def currentValueRule (f : GoalForm) : Bool :=
  minRule (.finite 0) f.currentValue
    && (decide (f.currentValue = "") || currentPattern f.currentValue)
    && validateCurrentValue f

/-- `trigger(fields)`: whether the rules of all the fields hold. -/
def trigger (rules : List (GoalForm → Bool)) (f : GoalForm) : Bool :=
  rules.all fun rule => rule f

/-- `nextStep`: the new state and the error toast, if any. -/
def nextStep (w : Wizard) : Wizard × Option String :=
  if w.step = 1 then
    if !trigger [typeRule] w.form then (w, some "Please select a goal type")
    else ({ w with step := w.step + 1 }, none)
  else if w.step = 2 then
    if !trigger [targetValueRule, unitRule, currentValueRule] w.form then (w, none)
    else ({ w with step := w.step + 1 }, none)
  else ({ w with step := w.step + 1 }, none)

/-- `prevStep`. -/
def prevStep (w : Wizard) : Wizard := { w with step := w.step - 1 }

/-- The object `goalData` posted to `/api/goals`. -/
structure GoalData where
  type : String
  targetValue : JsNumber
  currentValue : JsNumber
  unit : String
  targetDate : String
  status : String
deriving DecidableEq

/-- The `goalData` that `onFormSubmit` builds from the form data. -/
def goalDataOf (data : GoalForm) : GoalData :=
  { type := data.type
    targetValue := parseFloat data.targetValue
    currentValue := if data.currentValue ≠ "" then parseFloat data.currentValue else .finite 0
    unit := data.unit
    targetDate := data.targetDate
    status := data.status }

/-- `onFormSubmit` on the form data, with the outcome of the post: the state
afterwards (`loading` is set and, in `finally`, cleared), the goal posted, and
whether `onGoalCreated` is called. -/
def onFormSubmit (postSucceeds : Bool) (data : GoalForm) (w : Wizard) :
    Wizard × GoalData × Bool :=
  ({ w with loading := false }, goalDataOf data, postSucceeds)

/-! ### The default unit, the controls of the wizard and the date rule

The unit effect depends on `watchType`: it runs after a render in which the
watched type differs from the one of the render before (the first render has
the empty type, on which the effect does nothing). A control can be used only
in the step that renders it. The browser's local time is a constant `tz`
milliseconds ahead of UTC, and its clock reads `now`. -/

/-- The `switch (watchType)` of the unit effect. -/
def defaultUnit (watchType : String) : String :=
  if watchType = "weight" then "kg"
  else if watchType = "strength" then "lbs"
  else if watchType = "endurance" then "min"
  else if watchType = "habit" then "sessions"
  else if watchType = "nutrition" then "calories"
  else if watchType = "custom" then ""
  else ""

/-- The body of the unit effect: `if (watchType) { ...; setValue('unit',
defaultUnit) }`. -/
def unitEffectBody (w : Wizard) : Wizard :=
  if w.form.type ≠ "" then
    { w with form := { w.form with unit := defaultUnit w.form.type } }
  else w

/-- The unit effect after a render, `prevType` being the watched type of the
render before: the body runs only when the dependency `watchType` changed. -/
def unitEffect (prevType : String) (w : Wizard) : Wizard :=
  if w.form.type = prevType then w else unitEffectBody w

/-- A click on a type card, `setValue('type', t)`, with the render and the
effect that follow. -/
def selectType (t : String) (w : Wizard) : Wizard :=
  unitEffect w.form.type { w with form := { w.form with type := t } }

/-- The user's input in the `unit` field. -/
def inputUnit (v : String) (w : Wizard) : Wizard :=
  { w with form := { w.form with unit := v } }

/-- The user's input in the `targetValue` field. -/
def inputTargetValue (v : String) (w : Wizard) : Wizard :=
  { w with form := { w.form with targetValue := v } }

/-- The user's input in the `currentValue` field. -/
def inputCurrentValue (v : String) (w : Wizard) : Wizard :=
  { w with form := { w.form with currentValue := v } }

/-- The user's input in the `targetDate` field. -/
def inputTargetDate (v : String) (w : Wizard) : Wizard :=
  { w with form := { w.form with targetDate := v } }

/-- What the user can do with the wizard. `submit valid postSucceeds` is a click
on "Create Goal": `valid` is the outcome of the validation `handleSubmit` runs
before it calls `onFormSubmit`, `postSucceeds` the outcome of the post. -/
inductive Action where
  | selectType (t : String)
  | inputTargetValue (v : String)
  | inputUnit (v : String)
  | inputCurrentValue (v : String)
  | inputTargetDate (v : String)
  | next
  | back
  | submit (valid postSucceeds : Bool)
deriving DecidableEq

/-- Whether the control of an action is rendered and enabled: the type cards in
step 1, the detail fields in step 2, the date field in step 3, "Next" while
`step < 4` and "Create Goal" (disabled while loading) otherwise, "Back" while
`step > 1`. -/
def offered (a : Action) (w : Wizard) : Bool :=
  match a with
  | .selectType _ => decide (w.step = 1)
  | .inputTargetValue _ => decide (w.step = 2)
  | .inputUnit _ => decide (w.step = 2)
  | .inputCurrentValue _ => decide (w.step = 2)
  | .inputTargetDate _ => decide (w.step = 3)
  | .next => decide (w.step < 4)
  | .back => decide (w.step > 1)
  | .submit _ _ => !decide (w.step < 4) && !w.loading

/-- The state after an action; an action whose control is not offered does
nothing. -/
def perform (a : Action) (w : Wizard) : Wizard :=
  if offered a w then
    match a with
    | .selectType t => selectType t w
    | .inputTargetValue v => inputTargetValue v w
    | .inputUnit v => inputUnit v w
    | .inputCurrentValue v => inputCurrentValue v w
    | .inputTargetDate v => inputTargetDate v w
    | .next => (nextStep w).1
    | .back => prevStep w
    | .submit valid postSucceeds =>
      if valid then (onFormSubmit postSucceeds w.form w).1 else w
  else w

/-- The state after a sequence of actions. -/
def run (actions : List Action) (w : Wizard) : Wizard :=
  actions.foldl (fun w a => perform a w) w

/-- An action that is neither an input in the `unit` field nor the selection of
a type other than `type`. -/
def keepsUnit (type : String) (a : Action) : Bool :=
  match a with
  | .inputUnit _ => false
  | .selectType t => decide (t = type)
  | _ => true

/-- `new Date(value)` for the value of a date input, `YYYY-MM-DD`: midnight UTC
of that date (a date-only string is read as UTC, and the year as written);
`none` is an invalid date. -/
def parseDateInput (value : String) : Option Int :=
  match value.toList with
  | [y1, y2, y3, y4, s1, m1, m2, s2, d1, d2] =>
    if [y1, y2, y3, y4, m1, m2, d1, d2].all Char.isDigit && s1 = '-' && s2 = '-' then
      let year : Int := natOfDigits [y1, y2, y3, y4]
      let month : Int := natOfDigits [m1, m2]
      let date : Int := natOfDigits [d1, d2]
      if 1 ≤ month ∧ month ≤ 12 ∧ 1 ≤ date ∧ date ≤ 31 then
        some (MakeDay year (month - 1) date * msPerDay)
      else none
    else none
  | _ => none

/-- The `validate` function of `targetDate`: the error message, if any. A
comparison with an invalid date is false. -/
def validateTargetDate (tz : Int) (now : Nat) (value : String) : Option String :=
  let selectedDate := parseDateInput value
  let today := setHoursZero tz now
  match selectedDate with
  | some t => if t ≥ today then none else some "Target date cannot be in the past"
  | none => some "Target date cannot be in the past"

/-- The rules of `targetDate`: `required`, then `validate`; the error message,
if any. -/
def targetDateRule (tz : Int) (now : Nat) (f : GoalForm) : Option String :=
  if f.targetDate = "" then some "Target date is required"
  else validateTargetDate tz now f.targetDate

/-- Every meal of a log has a type and a non-empty foods list: what `addMeal`
requires of the meal it is given. -/
def mealsComplete (l : NutritionLog) : Bool :=
  l.meals.all fun m => decide (m.type ≠ "") && !m.foods.isEmpty

/-! ## Sample data -/

/-- A log without meals, water or notes. -/
def emptyLog (id user : ObjectId) (date : Int) : NutritionLog :=
  { _id := id, userId := user, date := date, meals := [], waterIntake := 0, notes := "" }

/-- A food item of 500 calories. -/
def rice : Food :=
  { name := "rice", calories := 500, protein := 10, carbs := 100, fat := 2 }

/-! ### Facts about the calendar -/

theorem DayFromYear_YearFromDay_le (d : Int) : DayFromYear (YearFromDay d) ≤ d := by
  unfold YearFromDay
  simp only
  split_ifs with h1 h2
  · exact h1
  · exact h2
  · unfold DayFromYear at *
    omega

theorem lt_DayFromYear_YearFromDay_succ (d : Int) :
    d < DayFromYear (YearFromDay d + 1) := by
  unfold YearFromDay
  simp only
  split_ifs with h1 h2
  · unfold DayFromYear at *
    omega
  · omega
  · have : (1970 + 400 * d / 146097 - 1 + 1 : Int) = 1970 + 400 * d / 146097 := by ring
    rw [this]
    omega

theorem monthOfYearDay_range (w leap : Int) :
    0 ≤ monthOfYearDay w leap ∧ monthOfYearDay w leap ≤ 11 := by
  unfold monthOfYearDay
  omega

theorem dateOfYearDay_eq (w leap : Int) :
    dateOfYearDay (monthOfYearDay w leap) w leap
      = w - monthStart (monthOfYearDay w leap) leap + 1 := by
  unfold dateOfYearDay monthStart monthOfYearDay
  omega

/-- Reading the year, month and day of a day number and rebuilding the day
number from them gives the day number back. -/
theorem MakeDay_fields (d : Int) :
    MakeDay (YearFromDay d) (MonthFromDay d) (DateFromDay d) = d := by
  have hm : 0 ≤ MonthFromDay d ∧ MonthFromDay d ≤ 11 := monthOfYearDay_range _ _
  have hd : DateFromDay d
      = DayWithinYear d - monthStart (MonthFromDay d) (InLeapYear (YearFromDay d)) + 1 :=
    dateOfYearDay_eq _ _
  have h12 : MonthFromDay d / 12 = 0 := by omega
  have hmod : MonthFromDay d % 12 = MonthFromDay d := by omega
  unfold MakeDay
  simp only [h12, hmod, add_zero, hd]
  unfold DayWithinYear
  omega

theorem YearFromDay_ge_of_nonneg (d : Int) (h : 0 ≤ d) : 1970 ≤ YearFromDay d := by
  have hb : 0 ≤ 400 * d / 146097 := by omega
  unfold YearFromDay
  simp only
  split_ifs with h1 h2
  · omega
  · omega
  · by_contra hlt
    have h0 : 400 * d / 146097 = 0 := by omega
    rw [h0] at h2
    have : DayFromYear (1970 + 0) = 0 := by decide
    omega

/-- Outside the years 0 to 99 the date normalisation of `createNutritionLog`
is UTC midnight of the same day. -/
theorem startOfDayUTC_eq_utcMidnight (t : Int)
    (h : ¬ (0 ≤ getUTCFullYear t ∧ getUTCFullYear t ≤ 99)) :
    startOfDayUTC t = utcMidnight t := by
  unfold startOfDayUTC DateUTC utcMidnight
  simp only [h, if_false]
  unfold getUTCFullYear getUTCMonth getUTCDate
  rw [MakeDay_fields]

theorem startOfDayUTC_of_nonneg (t : Int) (h : 0 ≤ t) : startOfDayUTC t = utcMidnight t := by
  apply startOfDayUTC_eq_utcMidnight
  have hd : 0 ≤ Day t := by unfold Day msPerDay; omega
  have := YearFromDay_ge_of_nonneg (Day t) hd
  unfold getUTCFullYear
  omega

/-- The normalised date is always the first instant of some UTC day. -/
theorem utcMidnight_startOfDayUTC (t : Int) : utcMidnight (startOfDayUTC t) = startOfDayUTC t := by
  unfold startOfDayUTC DateUTC utcMidnight Day msPerDay
  simp only
  omega

theorem utcMidnight_le (t : Int) : utcMidnight t ≤ t ∧ t < utcMidnight t + msPerDay := by
  unfold utcMidnight Day msPerDay
  omega

/-! ## Facts about the store -/

theorem findById_save (s : Store) (l l' : NutritionLog) (h : findById s l'._id = some l) :
    findById (save s l') l'._id = some l' := by
  unfold findById save at *
  induction s with
  | nil => simp at h
  | cons x xs ih =>
    by_cases hx : x._id = l'._id
    · simp [List.find?, hx]
    · simp only [List.map_cons, hx, if_false]
      rw [List.find?_cons_of_neg _ (by simpa using hx)] at h ⊢
      exact ih h

theorem findById_save_of_ne (s : Store) (l' : NutritionLog) (id : ObjectId) (h : id ≠ l'._id) :
    findById (save s l') id = findById s id := by
  unfold findById save
  induction s with
  | nil => rfl
  | cons x xs ih =>
    by_cases hx : x._id = l'._id
    · have hne : ¬ x._id = id := fun e => h (e.symm.trans hx)
      have hne' : ¬ l'._id = id := fun e => h e.symm
      simp only [List.map_cons, hx, if_true]
      rw [List.find?_cons_of_neg _ (by simpa using hne'),
        List.find?_cons_of_neg _ (by simpa using hne)]
      simpa [hx] using ih
    · simp only [List.map_cons, hx, if_false]
      by_cases hid : x._id = id
      · rw [List.find?_cons_of_pos _ (by simpa using hid),
          List.find?_cons_of_pos _ (by simpa using hid)]
      · rw [List.find?_cons_of_neg _ (by simpa using hid),
          List.find?_cons_of_neg _ (by simpa using hid)]
        exact ih

theorem findById_id (s : Store) (id : ObjectId) (l : NutritionLog) (h : findById s id = some l) :
    l._id = id := by
  unfold findById at h
  simpa using List.find?_some h

theorem findById_mem (s : Store) (id : ObjectId) (l : NutritionLog) (h : findById s id = some l) :
    l ∈ s := by
  unfold findById at h
  exact List.mem_of_find?_eq_some h

theorem lookupOwned_of_owner (s : Store) (user id : ObjectId) (l : NutritionLog)
    (h : findById s id = some l) (ho : l.userId = user) : lookupOwned s user id = .ok l := by
  unfold lookupOwned
  simp [h, ho]

theorem Day_utcMidnight_lt (a b : Int) (h : Day a < Day b) : utcMidnight a < utcMidnight b := by
  unfold utcMidnight msPerDay
  omega

theorem mem_window_of_Day_eq (lo d : Int) (hlo : utcMidnight lo = lo) (h : Day d = Day lo) :
    lo ≤ d ∧ d < lo + 24 * 60 * 60 * 1000 := by
  have hd := utcMidnight_le d
  unfold utcMidnight at hlo hd
  rw [h, hlo] at hd
  unfold msPerDay at hd
  omega

theorem Day_eq_of_mem_window (lo d : Int) (hlo : utcMidnight lo = lo)
    (h : lo ≤ d ∧ d < lo + 24 * 60 * 60 * 1000) : Day d = Day lo := by
  unfold utcMidnight Day msPerDay at *
  omega

/-! ## createNutritionLog -/

/-- C1: for every store, user and requested date whose UTC calendar day is
strictly after the current UTC calendar day, `createNutritionLog` answers 400
with code FUTURE_DATE and leaves the store unchanged. -/
theorem createNutritionLog_future_date (now : Nat) (newId user : ObjectId) (body : LogBody)
    (s : Store) (date : DateArg) (hdate : body.date = some date)
    (hfuture : Day now < Day date.time) :
    createNutritionLog now newId user body s = (Response.failure 400 .FUTURE_DATE, s) := by
  have hnow : (0 : Int) ≤ now := Int.natCast_nonneg now
  have hdaynow : 0 ≤ Day now := by unfold Day msPerDay; omega
  have htime : 0 ≤ date.time := by
    unfold Day msPerDay at hfuture hdaynow
    omega
  have hlt : startOfDayUTC now < startOfDayUTC date.time := by
    rw [startOfDayUTC_of_nonneg _ hnow, startOfDayUTC_of_nonneg _ htime]
    exact Day_utcMidnight_lt _ _ hfuture
  unfold createNutritionLog
  simp only [hdate]
  rw [if_pos hlt]

theorem createNutritionLog_future_date_witness :
    createNutritionLog 1704067200000 7 1
        { date := some (.text 1704153600000), meals := none, waterIntake := none, notes := none }
        []
      = (Response.failure 400 .FUTURE_DATE, []) :=
  createNutritionLog_future_date 1704067200000 7 1 _ [] (.text 1704153600000) rfl (by decide)

theorem createNutritionLog_OnePerDay (now : Nat) (newId user : ObjectId) (body : LogBody)
    (s : Store) (h : OnePerDay s) : OnePerDay (createNutritionLog now newId user body s).2 := by
  unfold createNutritionLog
  cases hdate : body.date with
  | none => exact h
  | some date =>
    simp only
    split_ifs with hfut
    · exact h
    · cases hfind : findOne s user (startOfDayUTC date.time)
          (startOfDayUTC date.time + 24 * 60 * 60 * 1000) with
      | some existing => exact h
      | none =>
        simp only
        intro u day
        unfold findOne at hfind
        rw [List.find?_eq_none] at hfind
        unfold logsOn
        rw [List.filter_append, List.length_append]
        by_cases hnew : user = u ∧ Day (startOfDayUTC date.time) = day
        · have hempty : s.filter (fun l => l.userId = u ∧ Day l.date = day) = [] := by
            rw [List.filter_eq_nil_iff]
            intro l hl hmatch
            simp only [decide_eq_true_eq] at hmatch
            apply hfind l hl
            simp only [decide_eq_true_eq]
            refine ⟨hmatch.1.trans hnew.1.symm, ?_⟩
            exact mem_window_of_Day_eq _ _ (utcMidnight_startOfDayUTC _)
              (hmatch.2.trans hnew.2.symm)
          rw [hempty]
          simp only [List.length_nil, zero_add]
          exact (List.length_filter_le _ _).trans (by simp)
        · have hs := h u day
          unfold logsOn at hs
          rw [List.filter_cons_of_neg (by simpa using hnew)]
          simpa using hs

/-- C2: for every user and every sequence of `createNutritionLog` calls applied
to the empty store, the resulting store holds at most one log of that user on
any UTC calendar day. -/
theorem runCreates_one_log_per_day (calls : List CreateCall) (user : ObjectId) (day : Int) :
    (logsOn (runCreates calls []) user day).length ≤ 1 := by
  have key : ∀ (cs : List CreateCall) (s : Store), OnePerDay s → OnePerDay (runCreates cs s) := by
    intro cs
    induction cs with
    | nil => intro s hs; exact hs
    | cons c cs ih =>
      intro s hs
      unfold runCreates
      rw [List.foldl_cons]
      exact ih _ (createNutritionLog_OnePerDay c.now c.newId c.user c.body s hs)
  exact key calls [] (fun _ _ => by simp [logsOn]) user day

theorem createNutritionLog_not_future (now : Nat) (t : Int)
    (hyear : ¬ (0 ≤ getUTCFullYear t ∧ getUTCFullYear t ≤ 99)) (h : Day t ≤ Day now) :
    ¬ startOfDayUTC t > startOfDayUTC now := by
  rw [startOfDayUTC_eq_utcMidnight _ hyear, startOfDayUTC_of_nonneg _ (Int.natCast_nonneg now)]
  unfold utcMidnight msPerDay
  omega

/-- Outside the years 0 to 99: a non-future date on whose UTC day the requester
already has a log is answered 400 LOG_EXISTS with the id of such a log, and the
store is unchanged. -/
theorem createNutritionLog_log_exists (now : Nat) (newId user : ObjectId) (body : LogBody)
    (s : Store) (date : DateArg) (hdate : body.date = some date)
    (hyear : ¬ (0 ≤ getUTCFullYear date.time ∧ getUTCFullYear date.time ≤ 99))
    (hpast : Day date.time ≤ Day now)
    (hex : ∃ l ∈ s, l.userId = user ∧ utcMidnight date.time ≤ l.date
      ∧ l.date < utcMidnight date.time + 24 * 60 * 60 * 1000) :
    ∃ l ∈ s, l.userId = user ∧ utcMidnight date.time ≤ l.date
      ∧ l.date < utcMidnight date.time + 24 * 60 * 60 * 1000
      ∧ createNutritionLog now newId user body s
        = ({ Response.failure 400 .LOG_EXISTS with existingLogId := some l._id }, s) := by
  have hnf := createNutritionLog_not_future now date.time hyear hpast
  have hlo := startOfDayUTC_eq_utcMidnight _ hyear
  cases hfind : findOne s user (startOfDayUTC date.time)
      (startOfDayUTC date.time + 24 * 60 * 60 * 1000) with
  | none =>
    exfalso
    unfold findOne at hfind
    rw [List.find?_eq_none] at hfind
    obtain ⟨l, hl, hu, h1, h2⟩ := hex
    apply hfind l hl
    rw [hlo]
    simp only [decide_eq_true_eq]
    exact ⟨hu, h1, h2⟩
  | some existing =>
    have hmem : existing ∈ s := by
      unfold findOne at hfind
      exact List.mem_of_find?_eq_some hfind
    have hp := List.find?_some (by unfold findOne at hfind; exact hfind)
    simp only [decide_eq_true_eq] at hp
    rw [hlo] at hp
    refine ⟨existing, hmem, hp.1, hp.2.1, hp.2.2, ?_⟩
    unfold createNutritionLog
    simp only [hdate, if_neg hnf, hfind]

/-- Outside the years 0 to 99: a non-future date on whose UTC day the requester
has no log is answered 201, and exactly one log is appended: the requester's,
dated UTC midnight of the requested day, with the supplied or default fields. -/
theorem createNutritionLog_created (now : Nat) (newId user : ObjectId) (body : LogBody)
    (s : Store) (date : DateArg) (hdate : body.date = some date)
    (hyear : ¬ (0 ≤ getUTCFullYear date.time ∧ getUTCFullYear date.time ≤ 99))
    (hpast : Day date.time ≤ Day now)
    (hfree : ∀ l ∈ s, l.userId = user → Day l.date ≠ Day date.time) :
    createNutritionLog now newId user body s
      = (Response.ok 201 (some (.log
            { _id := newId, userId := user, date := utcMidnight date.time,
              meals := body.meals.getD [], waterIntake := body.waterIntake.getD 0,
              notes := body.notes.getD "" })) none,
          s ++ [{ _id := newId, userId := user, date := utcMidnight date.time,
                  meals := body.meals.getD [], waterIntake := body.waterIntake.getD 0,
                  notes := body.notes.getD "" }]) := by
  have hnf := createNutritionLog_not_future now date.time hyear hpast
  have hlo := startOfDayUTC_eq_utcMidnight _ hyear
  have hfind : findOne s user (startOfDayUTC date.time)
      (startOfDayUTC date.time + 24 * 60 * 60 * 1000) = none := by
    unfold findOne
    rw [List.find?_eq_none]
    intro l hl hp
    simp only [decide_eq_true_eq] at hp
    exact hfree l hl hp.1
      ((Day_eq_of_mem_window _ _ (utcMidnight_startOfDayUTC _) hp.2).trans (by rw [hlo]; unfold utcMidnight Day msPerDay; omega))
  have hmeals : arrayOr body.meals [] = body.meals.getD [] := by
    unfold arrayOr; cases body.meals <;> rfl
  have hwater : numberOr body.waterIntake 0 = body.waterIntake.getD 0 := by
    unfold numberOr
    cases body.waterIntake with
    | none => rfl
    | some w => by_cases hw : w = 0 <;> simp [hw]
  have hnotes : stringOr body.notes "" = body.notes.getD "" := by
    unfold stringOr
    cases body.notes with
    | none => rfl
    | some w => by_cases hw : w = "" <;> simp [hw]
  rw [hlo] at hnf hfind
  unfold createNutritionLog
  simp only [hdate, hlo, if_neg hnf, hfind, hmeals, hwater, hnotes]

/-- C3: two operations break the one-log-per-day property. `updateNutritionLog`
stores the body date as it is: moving the second of two logs of user 1 to noon
of the first log's day leaves two logs on that day. `updateWaterIntake`, on a
server 5 h 30 min ahead of UTC, looks for a log in the local day and misses the
log stored at UTC midnight of the same UTC day, so it creates a second one. -/
theorem update_operations_break_one_per_day :
    (OnePerDay
        [emptyLog 1 1 1704067200000,
         emptyLog 2 1 1704153600000]
      ∧ (logsOn (updateNutritionLog 1 2
          { date := some (.text 1704110400000), meals := none, waterIntake := none, notes := none }
          [emptyLog 1 1 1704067200000,
           emptyLog 2 1 1704153600000]).2
          1 19723).length = 2)
    ∧ (OnePerDay
        [emptyLog 1 1 1704067200000]
      ∧ (logsOn (updateWaterIntake 19800000 1704200000000 3 1
          { date := some (.text 1704133800000), amount := some 500 }
          [emptyLog 1 1 1704067200000]).2
          1 19723).length = 2) := by
  refine ⟨⟨?_, by decide⟩, ⟨?_, by decide⟩⟩
  · intro u d
    unfold logsOn emptyLog
    simp only [List.filter_cons, List.filter_nil]
    split_ifs with h1 h2 h2
    · exfalso
      simp only [decide_eq_true_eq] at h1 h2
      have e1 : Day 1704067200000 = 19723 := by decide
      have e2 : Day 1704153600000 = 19724 := by decide
      omega
    all_goals simp
  · intro u d
    unfold logsOn emptyLog
    simp only [List.filter_cons, List.filter_nil]
    split_ifs <;> simp

/-- C4: a request dated 0050-06-01T10:00Z, by a user who already has a log
dated 0050-06-01T00:00Z (stored by `updateWaterIntake` on a UTC server), is not
answered LOG_EXISTS: `Date.UTC` reads the year 50 as 1950, the existence check
looks at 1950-06-01, and a second log is stored. -/
theorem createNutritionLog_year_50_misses_existing_log :
    (updateWaterIntake 0 1704067200000 1 1
        { date := some (.text (-60576249600000)), amount := some 0 } []).2
      = [emptyLog 1 1 (-60576249600000)]
    ∧ Day (-60576213600000) ≤ Day 1704067200000
    ∧ utcMidnight (-60576213600000) = -60576249600000
    ∧ createNutritionLog 1704067200000 2 1
        { date := some (.text (-60576213600000)), meals := none, waterIntake := none, notes := none }
        [emptyLog 1 1 (-60576249600000)]
      = (Response.ok 201 (some (.log (emptyLog 2 1 (-618105600000)))) none,
          [emptyLog 1 1 (-60576249600000), emptyLog 2 1 (-618105600000)]) := by
  decide

/-- C5: a request dated 0050-06-01T10:00Z on an empty store is answered 201, but
the stored date is 1950-06-01T00:00Z and not UTC midnight of the requested day,
0050-06-01T00:00Z. -/
theorem createNutritionLog_year_50_stores_1950 :
    (createNutritionLog 1704067200000 2 1
        { date := some (.text (-60576213600000)), meals := none, waterIntake := none, notes := none }
        []).2
      = [emptyLog 2 1 (-618105600000)]
    ∧ utcMidnight (-60576213600000) = -60576249600000
    ∧ getUTCFullYear (-60576213600000) = 50
    ∧ getUTCFullYear (-618105600000) = 1950 := by
  decide

/-! ## Ownership -/

theorem lookupOwned_of_denied (s : Store) (user id : ObjectId)
    (hdenied : ∀ l, findById s id = some l → l.userId ≠ user) :
    lookupOwned s user id
      = .error (if findById s id = none then Response.failure 404 .LOG_NOT_FOUND
          else Response.failure 403 .FORBIDDEN) := by
  unfold lookupOwned
  cases h : findById s id with
  | none => simp
  | some l => simp [hdenied l h]

/-- C6: when no log has the given id, or the log with that id belongs to another
user, each of `getNutritionLog`, `updateNutritionLog`, `deleteNutritionLog`,
`updateMeal` and `deleteMeal` answers 404 LOG_NOT_FOUND in the first case and
403 FORBIDDEN in the second, leaves the store unchanged, and the response
carries no log. -/
theorem ownership_guard (user id mealId : ObjectId) (logBody : LogBody)
    (mealBody : MealUpdateBody) (s : Store)
    (hdenied : ∀ l, findById s id = some l → l.userId ≠ user) :
    (getNutritionLog user id s
        = (if findById s id = none then Response.failure 404 .LOG_NOT_FOUND
            else Response.failure 403 .FORBIDDEN, s))
    ∧ (updateNutritionLog user id logBody s
        = (if findById s id = none then Response.failure 404 .LOG_NOT_FOUND
            else Response.failure 403 .FORBIDDEN, s))
    ∧ (deleteNutritionLog user id s
        = (if findById s id = none then Response.failure 404 .LOG_NOT_FOUND
            else Response.failure 403 .FORBIDDEN, s))
    ∧ (updateMeal user id mealId mealBody s
        = (if findById s id = none then Response.failure 404 .LOG_NOT_FOUND
            else Response.failure 403 .FORBIDDEN, s))
    ∧ (deleteMeal user id mealId s
        = (if findById s id = none then Response.failure 404 .LOG_NOT_FOUND
            else Response.failure 403 .FORBIDDEN, s))
    ∧ (Response.failure 404 .LOG_NOT_FOUND).carriesLog = false
    ∧ (Response.failure 403 .FORBIDDEN).carriesLog = false := by
  have h := lookupOwned_of_denied s user id hdenied
  refine ⟨?_, ?_, ?_, ?_, ?_, rfl, rfl⟩
  · unfold getNutritionLog; rw [h]
  · unfold updateNutritionLog; rw [h]
  · unfold deleteNutritionLog; rw [h]
  · unfold updateMeal; rw [h]
  · unfold deleteMeal; rw [h]

theorem ownership_guard_witness :
    (getNutritionLog 2 1 [emptyLog 1 1 0]).1
        = Response.failure 403 .FORBIDDEN
    ∧ (deleteNutritionLog 2 5 [emptyLog 1 1 0])
        = (Response.failure 404 .LOG_NOT_FOUND,
            [emptyLog 1 1 0]) :=
  ⟨congrArg Prod.fst (ownership_guard 2 1 0 ⟨none, none, none, none⟩ ⟨none, none, none, none⟩
      [emptyLog 1 1 0]
      (by decide)).1,
    (ownership_guard 2 5 0 ⟨none, none, none, none⟩ ⟨none, none, none, none⟩
      [emptyLog 1 1 0]
      (by decide)).2.2.1⟩

/-! ## updateNutritionLog -/

theorem applyLogUpdate_id (body : LogBody) (l : NutritionLog) :
    (applyLogUpdate body l)._id = l._id ∧ (applyLogUpdate body l).userId = l.userId := by
  unfold applyLogUpdate
  cases body.date <;> cases body.meals <;> cases body.waterIntake <;> cases body.notes <;>
    (try simp only) <;> (try split_ifs) <;> first | exact ⟨rfl, rfl⟩ | exact ⟨trivial, trivial⟩

/-- C7 (as stated, refuted): a body that supplies the date as the number 0 (the
instant 1970-01-01T00:00Z) is answered 200 and leaves the date of the log as it
was: `if (date)` skips a falsy date. -/
theorem updateNutritionLog_date_zero_not_stored :
    updateNutritionLog 1 1
        { date := some (.number 0), meals := none, waterIntake := none, notes := none }
        [emptyLog 1 1 1704067200000]
      = (Response.ok 200 (some (.log (emptyLog 1 1 1704067200000))) none,
          [emptyLog 1 1 1704067200000])
    ∧ (DateArg.number 0).time ≠ (emptyLog 1 1 1704067200000).date := by
  decide

/-- C7 (amended): for a log owned by the requester, `updateNutritionLog`
answers 200 and the log stored under that id afterwards has the same `_id` and
`userId`; each of date, meals, waterIntake and notes that is absent from the
body keeps its value, and so does the date when the supplied date is falsy (the
number 0); a supplied truthy date, supplied meals, a supplied waterIntake
(0 included) and supplied notes (the empty string included) are stored as
given; and the logs with other ids are unchanged. -/
theorem updateNutritionLog_overwrites_only_supplied (user id : ObjectId) (body : LogBody)
    (s : Store) (l : NutritionLog) (hfind : findById s id = some l) (hown : l.userId = user) :
    ∃ l', findById (updateNutritionLog user id body s).2 id = some l'
      ∧ (updateNutritionLog user id body s).1 = Response.ok 200 (some (.log l')) none
      ∧ l'._id = l._id ∧ l'.userId = l.userId
      ∧ (body.date = none → l'.date = l.date)
      ∧ (body.meals = none → l'.meals = l.meals)
      ∧ (body.waterIntake = none → l'.waterIntake = l.waterIntake)
      ∧ (body.notes = none → l'.notes = l.notes)
      ∧ (∀ d, body.date = some d → d.truthy = true → l'.date = d.time)
      ∧ (∀ d, body.date = some d → d.truthy = false → l'.date = l.date)
      ∧ (∀ ms, body.meals = some ms → l'.meals = ms)
      ∧ (∀ w, body.waterIntake = some w → l'.waterIntake = w)
      ∧ (∀ n, body.notes = some n → l'.notes = n)
      ∧ (∀ other, other ≠ id →
          findById (updateNutritionLog user id body s).2 other = findById s other) := by
  have hid := findById_id s id l hfind
  have hl' := applyLogUpdate_id body l
  have hrun : updateNutritionLog user id body s
      = (Response.ok 200 (some (.log (applyLogUpdate body l))) none,
          save s (applyLogUpdate body l)) := by
    unfold updateNutritionLog
    rw [lookupOwned_of_owner s user id l hfind hown]
  have hstore : (updateNutritionLog user id body s).2 = save s (applyLogUpdate body l) := by
    rw [hrun]
  refine ⟨applyLogUpdate body l, ?_, by rw [hrun], hl'.1, hl'.2, ?_, ?_, ?_, ?_, ?_, ?_, ?_,
    ?_, ?_, ?_⟩
  · rw [hstore]
    have := findById_save s l (applyLogUpdate body l) (by rw [hl'.1, hid]; exact hfind)
    rwa [hl'.1, hid] at this
  · intro h
    unfold applyLogUpdate
    rw [h]
    cases body.meals <;> cases body.waterIntake <;> cases body.notes <;> rfl
  · intro h
    unfold applyLogUpdate
    rw [h]
    cases body.date <;> cases body.waterIntake <;> cases body.notes <;>
      (try simp only) <;> (try split_ifs) <;> rfl
  · intro h
    unfold applyLogUpdate
    rw [h]
    cases body.date <;> cases body.meals <;> cases body.notes <;>
      (try simp only) <;> (try split_ifs) <;> rfl
  · intro h
    unfold applyLogUpdate
    rw [h]
    cases body.date <;> cases body.meals <;> cases body.waterIntake <;>
      (try simp only) <;> (try split_ifs) <;> rfl
  · intro d h htruthy
    unfold applyLogUpdate
    rw [h]
    simp only [htruthy, if_true]
    cases body.meals <;> cases body.waterIntake <;> cases body.notes <;> rfl
  · intro d h hfalsy
    unfold applyLogUpdate
    rw [h]
    simp only [hfalsy, Bool.false_eq_true, if_false]
    cases body.meals <;> cases body.waterIntake <;> cases body.notes <;> rfl
  · intro ms h
    unfold applyLogUpdate
    rw [h]
    cases body.waterIntake <;> cases body.notes <;> rfl
  · intro w h
    unfold applyLogUpdate
    rw [h]
    cases body.notes <;> rfl
  · intro n h
    unfold applyLogUpdate
    rw [h]
  · intro other hne
    rw [hstore]
    exact findById_save_of_ne s _ other (by rw [hl'.1, hid]; exact hne)

theorem updateNutritionLog_overwrites_only_supplied_witness :
    ∃ l', findById (updateNutritionLog 1 1
        { date := some (.text 1704196800000), meals := none, waterIntake := some 0,
          notes := some "" }
        [{ _id := 1, userId := 1, date := 1704067200000, meals := [], waterIntake := 250,
           notes := "x" }]).2 1 = some l'
      ∧ l'.date = 1704196800000 ∧ l'.meals = [] ∧ l'.waterIntake = 0 ∧ l'.notes = "" := by
  obtain ⟨l', h1, _, _, _, _, h2, _, _, h3, _, _, h4, h5, _⟩ :=
    updateNutritionLog_overwrites_only_supplied 1 1
      { date := some (.text 1704196800000), meals := none, waterIntake := some 0,
        notes := some "" }
      [{ _id := 1, userId := 1, date := 1704067200000, meals := [], waterIntake := 250,
         notes := "x" }]
      { _id := 1, userId := 1, date := 1704067200000, meals := [], waterIntake := 250,
        notes := "x" } (by decide) rfl
  exact ⟨l', h1, h3 _ rfl rfl, h2 rfl, h4 0 rfl, h5 "" rfl⟩

/-! ## Meals -/

theorem addMeal_guard_iff (body : MealBody) :
    (!truthyString body.type || !truthyFoods body.foods || !isArray body.foods
        || decide ((foodsOf body.foods).length = 0)) = true
      ↔ (body.type = none ∨ body.type = some "" ∨ body.foods = none
          ∨ (∃ b, body.foods = some (.other b)) ∨ body.foods = some (.array [])) := by
  cases ht : body.type with
  | none => simp [truthyString]
  | some t =>
    by_cases hte : t = ""
    · simp [truthyString, hte]
    · cases hf : body.foods with
      | none => simp [truthyString, truthyFoods]
      | some f =>
        cases f with
        | other b => simp [truthyString, isArray]
        | array fs =>
          cases fs with
          | nil => simp [truthyString, foodsOf]
          | cons a as => simp [truthyString, truthyFoods, isArray, foodsOf, hte]

/-- C8 (as stated, refuted): a body whose type is present but empty and whose
foods is a non-empty array, addressed to a log owned by the requester, is
answered 400 INVALID_DATA and nothing is appended. -/
theorem addMeal_empty_type_rejected :
    (some "" : Option String) ≠ none
    ∧ findById [emptyLog 1 1 1704067200000] 1
        = some (emptyLog 1 1 1704067200000)
    ∧ addMeal 1704067200000 10 1 1
        { type := some "", time := none,
          foods := some (.array [rice]),
          notes := none }
        [emptyLog 1 1 1704067200000]
      = (Response.failure 400 .INVALID_DATA,
          [emptyLog 1 1 1704067200000]) := by
  decide

/-- A body with a non-empty type and a non-empty foods array, addressed to a
log owned by the requester: the log gains one meal at the end of its meals. -/
theorem addMeal_of_valid (now : Nat) (newId user id : ObjectId) (body : MealBody)
    (s : Store) (type : String) (foods : List Food) (l : NutritionLog)
    (htype : body.type = some type) (hne : type ≠ "")
    (hfoods : body.foods = some (.array foods)) (hfne : foods ≠ [])
    (hfind : findById s id = some l) (hown : l.userId = user) :
    ∃ meal, meal._id = newId ∧ meal.type = type ∧ meal.foods = foods
      ∧ (addMeal now newId user id body s).1.status = 201
      ∧ findById (addMeal now newId user id body s).2 id
          = some { l with meals := l.meals ++ [meal] }
      ∧ ∀ other, other ≠ id →
          findById (addMeal now newId user id body s).2 other = findById s other := by
  have hguard : ¬ ((!truthyString body.type || !truthyFoods body.foods || !isArray body.foods
      || decide ((foodsOf body.foods).length = 0)) = true) := by
    rw [addMeal_guard_iff, htype, hfoods]
    simp [hne, hfne]
  have hid := findById_id s id l hfind
  have hrun : addMeal now newId user id body s
      = (Response.ok 201
          (some (.newMeal
            { type := stringOr body.type ""
              time := match body.time with
                | some time => if time.truthy then time.time else now
                | none => now
              foods := foodsOf body.foods
              notes := stringOr body.notes "" }))
          (some { l with meals := l.meals ++
            [{ _id := newId, type := stringOr body.type ""
               time := match body.time with
                | some time => if time.truthy then time.time else now
                | none => now
               foods := foodsOf body.foods, notes := stringOr body.notes "" }] }),
        save s { l with meals := l.meals ++
            [{ _id := newId, type := stringOr body.type ""
               time := match body.time with
                | some time => if time.truthy then time.time else now
                | none => now
               foods := foodsOf body.foods, notes := stringOr body.notes "" }] }) := by
    unfold addMeal
    rw [if_neg hguard, lookupOwned_of_owner s user id l hfind hown]
  refine ⟨{ _id := newId, type := stringOr body.type ""
            time := match body.time with
              | some time => if time.truthy then time.time else now
              | none => now
            foods := foodsOf body.foods, notes := stringOr body.notes "" }, rfl, ?_, ?_, ?_, ?_, ?_⟩
  · simp [htype, stringOr, hne]
  · simp [hfoods, foodsOf]
  · rw [hrun]; rfl
  · rw [hrun]
    have := findById_save s l { l with meals := l.meals ++
            [{ _id := newId, type := stringOr body.type ""
               time := match body.time with
                | some time => if time.truthy then time.time else now
                | none => now
               foods := foodsOf body.foods, notes := stringOr body.notes "" }] }
      (by simpa [hid] using hfind)
    simpa [hid] using this
  · intro other hother
    rw [hrun]
    exact findById_save_of_ne s _ other (by simpa [hid] using hother)

/-- C8 (amended): when type is missing or the empty string, or foods is
missing, not an array, or an empty array, `addMeal` answers 400 INVALID_DATA and
leaves the store unchanged, whatever log is addressed; for a non-empty type and
a non-empty foods array, addressed to a log owned by the requester, it answers
201 and the log gains exactly one meal, with that type and those foods, at
the end of its meal sequence, the earlier meals and the other logs being unchanged. -/
theorem addMeal_validates_then_appends (now : Nat) (newId user id : ObjectId) (body : MealBody)
    (s : Store) :
    ((body.type = none ∨ body.type = some "" ∨ body.foods = none
        ∨ (∃ b, body.foods = some (.other b)) ∨ body.foods = some (.array [])) →
      addMeal now newId user id body s = (Response.failure 400 .INVALID_DATA, s))
    ∧ (∀ type foods l, body.type = some type → type ≠ "" →
        body.foods = some (.array foods) → foods ≠ [] →
        findById s id = some l → l.userId = user →
        ∃ meal, meal._id = newId ∧ meal.type = type ∧ meal.foods = foods
          ∧ (addMeal now newId user id body s).1.status = 201
          ∧ findById (addMeal now newId user id body s).2 id
              = some { l with meals := l.meals ++ [meal] }
          ∧ ∀ other, other ≠ id →
              findById (addMeal now newId user id body s).2 other = findById s other) := by
  constructor
  · intro h
    unfold addMeal
    rw [if_pos ((addMeal_guard_iff body).mpr h)]
  · intro type foods l htype hne hfoods hfne hfind hown
    exact addMeal_of_valid now newId user id body s type foods l htype hne hfoods hfne hfind hown

theorem addMeal_validates_then_appends_witness :
    addMeal 1704067200000 10 1 1
        { type := none, time := none, foods := some (.other true), notes := none } []
      = (Response.failure 400 .INVALID_DATA, [])
    ∧ ∃ meal : Meal, meal._id = 10 ∧ meal.type = "lunch"
        ∧ findById (addMeal 1704067200000 10 1 1
            { type := some "lunch", time := none,
              foods := some (.array [rice]),
              notes := none }
            [emptyLog 1 1 1704067200000]).2 1
          = some { _id := 1, userId := 1, date := 1704067200000, meals := [] ++ [meal],
                   waterIntake := 0, notes := "" } := by
  refine ⟨(addMeal_validates_then_appends 1704067200000 10 1 1 _ []).1 (Or.inl rfl), ?_⟩
  obtain ⟨meal, h1, h2, _, _, h5, _⟩ :=
    (addMeal_validates_then_appends 1704067200000 10 1 1
      { type := some "lunch", time := none,
        foods := some (.array [rice]),
        notes := none }
      [emptyLog 1 1 1704067200000]).2 "lunch" _
      (emptyLog 1 1 1704067200000)
      rfl (by decide) rfl (by decide) (by decide) rfl
  exact ⟨meal, h1, h2, h5⟩

theorem findIdx?_split {α : Type} (p : α → Bool) (xs : List α) :
    ∀ i, xs.findIdx? p = some i →
      ∃ pre m post, xs = pre ++ m :: post ∧ pre.length = i ∧ p m = true
        ∧ ∀ x ∈ pre, p x = false := by
  induction xs with
  | nil => intro i h; simp at h
  | cons x xs ih =>
    intro i h
    rw [List.findIdx?_cons] at h
    by_cases hx : p x = true
    · rw [if_pos hx] at h
      refine ⟨[], x, xs, rfl, ?_, hx, ?_⟩
      · simpa using h
      · intro y hy; simp at hy
    · rw [if_neg hx, List.findIdx?_succ] at h
      cases hrec : xs.findIdx? p 0 with
      | none => rw [hrec] at h; simp at h
      | some j =>
        rw [hrec] at h
        obtain ⟨pre, m, post, hxs, hlen, hm, hpre⟩ := ih j hrec
        refine ⟨x :: pre, m, post, by rw [hxs]; rfl, ?_, hm, ?_⟩
        · simpa [hlen] using h
        · intro y hy
          rcases List.mem_cons.mp hy with rfl | hy
          · simpa using hx
          · exact hpre y hy

theorem modify_append_cons {α : Type} (f : α → α) (pre : List α) (m : α) (post : List α) :
    (pre ++ m :: post).modify f pre.length = pre ++ f m :: post := by
  induction pre with
  | nil => rfl
  | cons x xs ih => simp only [List.cons_append, List.length_cons, List.modify_succ_cons, ih]

theorem eraseIdx_append_cons {α : Type} (pre : List α) (m : α) (post : List α) :
    (pre ++ m :: post).eraseIdx pre.length = pre ++ post := by
  induction pre with
  | nil => rfl
  | cons x xs ih => simp only [List.cons_append, List.length_cons, List.eraseIdx_cons_succ, ih]

theorem applyMealUpdate_fields (u : MealUpdateBody) (m : Meal) :
    (applyMealUpdate u m)._id = m._id
    ∧ (∀ t, u.type = some t → t ≠ "" → (applyMealUpdate u m).type = t)
    ∧ (u.type = none ∨ u.type = some "" → (applyMealUpdate u m).type = m.type)
    ∧ (∀ d, u.time = some d → d.truthy = true → (applyMealUpdate u m).time = d.time)
    ∧ (u.time = none ∨ (∃ d, u.time = some d ∧ d.truthy = false) →
        (applyMealUpdate u m).time = m.time)
    ∧ (∀ fs, u.foods = some fs → (applyMealUpdate u m).foods = fs)
    ∧ (u.foods = none → (applyMealUpdate u m).foods = m.foods)
    ∧ (∀ n, u.notes = some n → (applyMealUpdate u m).notes = n)
    ∧ (u.notes = none → (applyMealUpdate u m).notes = m.notes) := by
  unfold applyMealUpdate
  refine ⟨?_, ?_, ?_, ?_, ?_, ?_, ?_, ?_, ?_⟩
  · cases u.type <;> cases u.time <;> cases u.foods <;> cases u.notes <;>
      (try simp only) <;> (try split_ifs) <;> rfl
  · intro t ht hne
    rw [ht]
    cases u.time <;> cases u.foods <;> cases u.notes <;>
      simp only [hne, ne_eq, not_false_eq_true, if_true] <;> (try split_ifs) <;> rfl
  · intro h
    rcases h with h | h <;> rw [h] <;>
      cases u.time <;> cases u.foods <;> cases u.notes <;>
      (try simp only [ne_eq, not_true_eq_false, if_false]) <;> (try split_ifs) <;> rfl
  · intro d hd htr
    rw [hd]
    cases u.type <;> cases u.foods <;> cases u.notes <;> simp only [htr, if_true]
  · intro h
    rcases h with h | ⟨d, h, hf⟩
    · rw [h]
      cases u.type <;> cases u.foods <;> cases u.notes <;>
        (try simp only) <;> (try split_ifs) <;> rfl
    · rw [h]
      cases u.type <;> cases u.foods <;> cases u.notes <;>
        simp only [hf, Bool.false_eq_true, if_false] <;> (try split_ifs) <;> rfl
  · intro fs h
    rw [h]
    cases u.notes <;> rfl
  · intro h
    rw [h]
    cases u.type <;> cases u.time <;> cases u.notes <;>
      (try simp only) <;> (try split_ifs) <;> rfl
  · intro n h
    rw [h]
  · intro h
    rw [h]
    cases u.type <;> cases u.time <;> cases u.foods <;>
      (try simp only) <;> (try split_ifs) <;> rfl

/-- C9 (as stated, refuted): after `addMeal` with type "lunch", an `updateMeal`
addressed to the added meal and giving the empty string as type leaves the
meal's type "lunch": the field given in the update is not carried. -/
theorem updateMeal_empty_type_not_carried :
    findById (updateMeal 1 1 10
        { type := some "", time := none, foods := none, notes := none }
        (addMeal 1704067200000 10 1 1
          { type := some "lunch", time := none, foods := some (.array [rice]), notes := none }
          [emptyLog 1 1 1704067200000]).2).2 1
      = some { emptyLog 1 1 1704067200000 with
          meals := [{ _id := 10, type := "lunch", time := 1704067200000, foods := [rice],
                      notes := "" }] }
    ∧ "lunch" ≠ "" := by
  decide

/-- C9 (amended): for a log owned by the requester to which `addMeal` (with a
non-empty type and a non-empty foods array) adds a meal under an id new to the
log, `updateMeal` addressed to that id leaves the log with the earlier meals
unchanged followed by the updated meal, so with the meal count it had after
`addMeal` and exactly one meal of that id. The updated meal carries each field
of the update that is truthy (a non-empty type, a time that is not the number
0), any foods array and any notes given; a field that is absent, or a type or
time that is falsy, keeps the value `addMeal` stored. -/
theorem addMeal_then_updateMeal (now : Nat) (newId user id : ObjectId) (body : MealBody)
    (u : MealUpdateBody) (s : Store) (l : NutritionLog) (type : String) (foods : List Food)
    (hfind : findById s id = some l) (hown : l.userId = user)
    (htype : body.type = some type) (hne : type ≠ "")
    (hfoods : body.foods = some (.array foods)) (hfne : foods ≠ [])
    (hfresh : ∀ m ∈ l.meals, m._id ≠ newId) :
    ∃ added updated : Meal,
      findById (addMeal now newId user id body s).2 id
        = some { l with meals := l.meals ++ [added] }
      ∧ findById (updateMeal user id newId u (addMeal now newId user id body s).2).2 id
        = some { l with meals := l.meals ++ [updated] }
      ∧ (updateMeal user id newId u (addMeal now newId user id body s).2).1.status = 200
      ∧ ((l.meals ++ [updated]).filter (fun m => m._id = newId)).length = 1
      ∧ (l.meals ++ [updated]).length = (l.meals ++ [added]).length
      ∧ updated._id = newId
      ∧ (∀ t, u.type = some t → t ≠ "" → updated.type = t)
      ∧ (u.type = none ∨ u.type = some "" → updated.type = added.type)
      ∧ (∀ d, u.time = some d → d.truthy = true → updated.time = d.time)
      ∧ (u.time = none ∨ (∃ d, u.time = some d ∧ d.truthy = false) →
          updated.time = added.time)
      ∧ (∀ fs, u.foods = some fs → updated.foods = fs)
      ∧ (u.foods = none → updated.foods = added.foods)
      ∧ (∀ n, u.notes = some n → updated.notes = n)
      ∧ (u.notes = none → updated.notes = added.notes) := by
  obtain ⟨added, hidA, -, -, -, hfindA, -⟩ :=
    addMeal_of_valid now newId user id body s type foods l htype hne hfoods hfne hfind hown
  have hid := findById_id s id l hfind
  have hidx : (l.meals ++ [added]).findIdx? (fun meal => meal._id = newId)
      = some l.meals.length := by
    have hnone : l.meals.findIdx? (fun meal => decide (meal._id = newId)) = none := by
      rw [List.findIdx?_eq_none_iff]
      intro x hx
      simpa using hfresh x hx
    rw [List.findIdx?_append, hnone]
    simp [hidA]
  have hrun : updateMeal user id newId u (addMeal now newId user id body s).2
      = (Response.ok 200
          (((l.meals ++ [applyMealUpdate u added]).get? l.meals.length).map Data.meal)
          (some { l with meals := l.meals ++ [applyMealUpdate u added] }),
        save (addMeal now newId user id body s).2
          { l with meals := l.meals ++ [applyMealUpdate u added] }) := by
    unfold updateMeal
    rw [lookupOwned_of_owner _ user id _ hfindA hown]
    simp only [hidx, modify_append_cons]
  have hf := applyMealUpdate_fields u added
  refine ⟨added, applyMealUpdate u added, hfindA, ?_, ?_, ?_, ?_, ?_, hf.2.1, hf.2.2.1,
    hf.2.2.2.1, hf.2.2.2.2.1, hf.2.2.2.2.2.1, hf.2.2.2.2.2.2.1, hf.2.2.2.2.2.2.2.1,
    hf.2.2.2.2.2.2.2.2⟩
  · rw [hrun]
    have := findById_save (addMeal now newId user id body s).2
      { l with meals := l.meals ++ [added] }
      { l with meals := l.meals ++ [applyMealUpdate u added] }
      (by simpa [hid] using hfindA)
    simpa [hid] using this
  · rw [hrun]; rfl
  · rw [List.filter_append]
    have hempty : l.meals.filter (fun m => decide (m._id = newId)) = [] := by
      rw [List.filter_eq_nil_iff]
      intro x hx
      simpa using hfresh x hx
    rw [hempty]
    simp [hf.1, hidA]
  · simp
  · rw [hf.1, hidA]

theorem addMeal_then_updateMeal_witness :
    ∃ added updated : Meal,
      findById (addMeal 1704067200000 10 1 1
          { type := some "lunch", time := none, foods := some (.array [rice]), notes := none }
          [emptyLog 1 1 1704067200000]).2 1
        = some { emptyLog 1 1 1704067200000 with meals := [] ++ [added] }
      ∧ findById (updateMeal 1 1 10
          { type := some "dinner", time := none, foods := none, notes := some "late" }
          (addMeal 1704067200000 10 1 1
            { type := some "lunch", time := none, foods := some (.array [rice]), notes := none }
            [emptyLog 1 1 1704067200000]).2).2 1
        = some { emptyLog 1 1 1704067200000 with meals := [] ++ [updated] }
      ∧ updated.type = "dinner" ∧ updated.notes = "late" ∧ updated.foods = added.foods := by
  obtain ⟨added, updated, h1, h2, _, _, _, _, h7, _, _, _, _, h12, h13, _⟩ :=
    addMeal_then_updateMeal 1704067200000 10 1 1
      { type := some "lunch", time := none, foods := some (.array [rice]), notes := none }
      { type := some "dinner", time := none, foods := none, notes := some "late" }
      [emptyLog 1 1 1704067200000] (emptyLog 1 1 1704067200000) "lunch" [rice]
      (by decide) rfl rfl (by decide) rfl (by decide) (by decide)
  exact ⟨added, updated, h1, h2, h7 "dinner" rfl (by decide), h13 "late" rfl, h12 rfl⟩

/-- C10: for a log owned by the requester whose meal ids are pairwise distinct
and a meal id present in it, `deleteMeal` answers 200 and removes exactly that
meal: the meals before and after it remain, in order, and the count drops by
one. A second `deleteMeal` with the same id is answered 404 MEAL_NOT_FOUND and
leaves the store as the first call left it. -/
theorem deleteMeal_removes_exactly_one (user id mealId : ObjectId) (s : Store)
    (l : NutritionLog) (hfind : findById s id = some l) (hown : l.userId = user)
    (hnodup : (l.meals.map (fun m => m._id)).Nodup)
    (hmem : mealId ∈ l.meals.map (fun m => m._id)) :
    ∃ pre meal post,
      l.meals = pre ++ meal :: post ∧ meal._id = mealId
      ∧ (deleteMeal user id mealId s).1.status = 200
      ∧ findById (deleteMeal user id mealId s).2 id = some { l with meals := pre ++ post }
      ∧ (pre ++ post).length + 1 = l.meals.length
      ∧ (∀ other, other ≠ id →
          findById (deleteMeal user id mealId s).2 other = findById s other)
      ∧ deleteMeal user id mealId (deleteMeal user id mealId s).2
        = (Response.failure 404 .MEAL_NOT_FOUND, (deleteMeal user id mealId s).2) := by
  have hid := findById_id s id l hfind
  have hsome : (l.meals.findIdx? (fun meal => decide (meal._id = mealId))).isSome = true := by
    rw [List.findIdx?_isSome, List.any_eq_true]
    obtain ⟨m, hm, hmid⟩ := List.mem_map.mp hmem
    exact ⟨m, hm, by simpa using hmid⟩
  obtain ⟨i, hi⟩ := Option.isSome_iff_exists.mp hsome
  obtain ⟨pre, meal, post, hsplit, hlen, hp, hpre⟩ := findIdx?_split _ _ i hi
  have hmeal : meal._id = mealId := by simpa using hp
  have hrun : deleteMeal user id mealId s
      = (Response.ok 200 none (some { l with meals := pre ++ post }),
          save s { l with meals := pre ++ post }) := by
    unfold deleteMeal
    rw [lookupOwned_of_owner s user id l hfind hown]
    simp only [hi]
    rw [hsplit, ← hlen, eraseIdx_append_cons]
  have hfind1 : findById (save s { l with meals := pre ++ post }) id
      = some { l with meals := pre ++ post } := by
    have := findById_save s l { l with meals := pre ++ post } (by simpa [hid] using hfind)
    simpa [hid] using this
  have hgone : (pre ++ post).findIdx? (fun meal => decide (meal._id = mealId)) = none := by
    rw [List.findIdx?_eq_none_iff]
    intro x hx
    rcases List.mem_append.mp hx with hx | hx
    · exact hpre x hx
    · rw [hsplit, List.map_append, List.map_cons, List.nodup_append] at hnodup
      have hnot := (List.nodup_cons.mp hnodup.2.1).1
      have : x._id ≠ mealId := by
        intro hxid
        apply hnot
        rw [hmeal, ← hxid]
        exact List.mem_map_of_mem _ hx
      simpa using this
  refine ⟨pre, meal, post, hsplit, hmeal, ?_, ?_, ?_, ?_, ?_⟩
  · rw [hrun]; rfl
  · rw [hrun]; exact hfind1
  · rw [hsplit]; simp only [List.length_append, List.length_cons]; omega
  · intro other hother
    rw [hrun]
    exact findById_save_of_ne s _ other (by simpa [hid] using hother)
  · rw [hrun]
    simp only
    unfold deleteMeal
    rw [lookupOwned_of_owner _ user id _ hfind1 hown]
    simp only [hgone]

theorem deleteMeal_removes_exactly_one_witness :
    ∃ pre meal post,
      [({ _id := 10, type := "lunch", time := 0, foods := [rice], notes := "" } : Meal),
       { _id := 11, type := "dinner", time := 0, foods := [rice], notes := "" }]
        = pre ++ meal :: post ∧ meal._id = 10
      ∧ findById (deleteMeal 1 1 10
          [{ emptyLog 1 1 1704067200000 with
              meals := [{ _id := 10, type := "lunch", time := 0, foods := [rice], notes := "" },
                        { _id := 11, type := "dinner", time := 0, foods := [rice],
                          notes := "" }] }]).2 1
        = some { emptyLog 1 1 1704067200000 with meals := pre ++ post } := by
  obtain ⟨pre, meal, post, h1, h2, _, h4, _⟩ :=
    deleteMeal_removes_exactly_one 1 1 10
      [{ emptyLog 1 1 1704067200000 with
          meals := [{ _id := 10, type := "lunch", time := 0, foods := [rice], notes := "" },
                    { _id := 11, type := "dinner", time := 0, foods := [rice],
                      notes := "" }] }]
      { emptyLog 1 1 1704067200000 with
          meals := [{ _id := 10, type := "lunch", time := 0, foods := [rice], notes := "" },
                    { _id := 11, type := "dinner", time := 0, foods := [rice],
                      notes := "" }] }
      (by decide) rfl (by decide) (by decide)
  exact ⟨pre, meal, post, h1, h2, h4⟩

/-! ## updateWaterIntake -/

theorem findById_isSome_of_mem (s : Store) (l : NutritionLog) (h : l ∈ s) :
    ∃ l0, findById s l._id = some l0 := by
  cases hf : findById s l._id with
  | some l0 => exact ⟨l0, rfl⟩
  | none =>
    unfold findById at hf
    rw [List.find?_eq_none] at hf
    exact absurd (by simp) (hf l h)

theorem setHoursZero_spec (tz t : Int) :
    setHoursZero tz t ≤ t ∧ t < setHoursZero tz t + msPerDay
      ∧ (setHoursZero tz t + tz) % msPerDay = 0 := by
  unfold setHoursZero Day msPerDay
  omega

/-- C11 (as stated, refuted): a body whose date is the number 0 (the instant
1970-01-01T00:00Z) is treated as having no date: on a UTC server at
2024-01-01T12:00Z the log is created for 2024-01-01, not for local midnight of
the given date. -/
theorem updateWaterIntake_date_zero_uses_now :
    (updateWaterIntake 0 1704110400000 1 1
        { date := some (.number 0), amount := some 500 } []).2
      = [{ _id := 1, userId := 1, date := 1704067200000, meals := [], waterIntake := 500,
           notes := "" }]
    ∧ setHoursZero 0 (DateArg.number 0).time = 0 := by
  decide

/-- C11 (amended): `updateWaterIntake` answers 400 INVALID_DATA and changes
nothing when amount is absent. When amount is present (0 included), with
`given` the body date when that is truthy, and the clock reading when the date
is absent or falsy (the number 0), the target date is local midnight of
`given`. When the target date or the instant 24 hours after it is outside the
range of `Date` values, the call answers 500 SERVER_ERROR and changes nothing.
Otherwise it answers 200: if the requester has a log dated within 24 hours from
the target date, such a log gets the amount as waterIntake, its other fields
and the other logs stay, and no log is created; if not, exactly one log is
appended: the requester's, dated the target date, with the amount and no meals. -/
theorem updateWaterIntake_upsert (tz : Int) (now : Nat) (newId user : ObjectId)
    (body : WaterBody) (s : Store) :
    (body.amount = none →
      updateWaterIntake tz now newId user body s = (Response.failure 400 .INVALID_DATA, s))
    ∧ (∀ amount given : Int, body.amount = some amount →
        ((∃ d, body.date = some d ∧ d.truthy = true ∧ given = d.time)
          ∨ ((body.date = none ∨ ∃ d, body.date = some d ∧ d.truthy = false)
              ∧ given = (now : Int))) →
        ∃ targetDate : Int,
          targetDate ≤ given ∧ given < targetDate + msPerDay
          ∧ (targetDate + tz) % msPerDay = 0
          ∧ (¬ (-maxTime ≤ targetDate ∧ targetDate + msPerDay ≤ maxTime) →
              updateWaterIntake tz now newId user body s
                = (Response.failure 500 .SERVER_ERROR, s))
          ∧ (-maxTime ≤ targetDate ∧ targetDate + msPerDay ≤ maxTime →
              (updateWaterIntake tz now newId user body s).1.status = 200
              ∧ ((∃ l ∈ s, l.userId = user ∧ targetDate ≤ l.date
                    ∧ l.date < targetDate + 24 * 60 * 60 * 1000) →
                  ∃ l ∈ s, l.userId = user ∧ targetDate ≤ l.date
                    ∧ l.date < targetDate + 24 * 60 * 60 * 1000
                    ∧ (updateWaterIntake tz now newId user body s).2.length = s.length
                    ∧ findById (updateWaterIntake tz now newId user body s).2 l._id
                        = some { l with waterIntake := amount }
                    ∧ ∀ other, other ≠ l._id →
                        findById (updateWaterIntake tz now newId user body s).2 other
                          = findById s other)
              ∧ ((∀ l ∈ s, l.userId = user →
                    ¬ (targetDate ≤ l.date ∧ l.date < targetDate + 24 * 60 * 60 * 1000)) →
                  (updateWaterIntake tz now newId user body s).2
                    = s ++ [{ _id := newId, userId := user, date := targetDate, meals := [],
                              waterIntake := amount, notes := "" }]))) := by
  constructor
  · intro h
    unfold updateWaterIntake
    rw [h]
  · intro amount given hamount hgiven
    have hsel : (match body.date with
        | some date => if date.truthy then date.time else (now : Int)
        | none => (now : Int)) = given := by
      rcases hgiven with ⟨d, hd, htr, hg⟩ | ⟨hnone | ⟨d, hd, hfalse⟩, hg⟩
      · rw [hd, hg]; simp [htr]
      · rw [hnone, hg]
      · rw [hd, hg]; simp [hfalse]
    have hspec := setHoursZero_spec tz given
    have hvalid : (!validTime (setHoursZero tz given)
          || !validTime (setHoursZero tz given + 24 * 60 * 60 * 1000)) = true
        ↔ ¬ (-maxTime ≤ setHoursZero tz given ∧ setHoursZero tz given + msPerDay ≤ maxTime) := by
      unfold validTime maxTime msPerDay
      simp only [Bool.or_eq_true, Bool.not_eq_true', Bool.and_eq_false_iff, decide_eq_false_iff_not]
      omega
    refine ⟨setHoursZero tz given, hspec.1, hspec.2.1, hspec.2.2, ?_, ?_⟩
    · intro hout
      unfold updateWaterIntake
      simp only [hamount, hsel]
      rw [if_pos (hvalid.mpr hout)]
    intro hin
    have hcheck : ¬ ((!validTime (setHoursZero tz given)
          || !validTime (setHoursZero tz given + 24 * 60 * 60 * 1000)) = true) :=
      fun h => hvalid.mp h hin
    refine ⟨?_, ?_, ?_⟩
    · unfold updateWaterIntake
      simp only [hamount, hsel]
      rw [if_neg hcheck]
      cases findOne s user (setHoursZero tz given)
        (setHoursZero tz given + 24 * 60 * 60 * 1000) <;> rfl
    · intro hex
      cases hfind : findOne s user (setHoursZero tz given)
          (setHoursZero tz given + 24 * 60 * 60 * 1000) with
      | none =>
        exfalso
        unfold findOne at hfind
        rw [List.find?_eq_none] at hfind
        obtain ⟨l, hl, hu, h1, h2⟩ := hex
        exact hfind l hl (by simp only [decide_eq_true_eq]; exact ⟨hu, h1, h2⟩)
      | some l =>
        have hmem : l ∈ s := by
          unfold findOne at hfind
          exact List.mem_of_find?_eq_some hfind
        have hp := List.find?_some (by unfold findOne at hfind; exact hfind)
        simp only [decide_eq_true_eq] at hp
        have hrun : (updateWaterIntake tz now newId user body s).2
            = save s { l with waterIntake := amount } := by
          unfold updateWaterIntake
          simp only [hamount, hsel]
          rw [if_neg hcheck]
          simp only [hfind]
        obtain ⟨l0, hl0⟩ := findById_isSome_of_mem s l hmem
        refine ⟨l, hmem, hp.1, hp.2.1, hp.2.2, ?_, ?_, ?_⟩
        · rw [hrun]; unfold save; simp
        · rw [hrun]
          exact findById_save s l0 { l with waterIntake := amount } hl0
        · intro other hother
          rw [hrun]
          exact findById_save_of_ne s _ other hother
    · intro hfree
      have hfind : findOne s user (setHoursZero tz given)
          (setHoursZero tz given + 24 * 60 * 60 * 1000) = none := by
        unfold findOne
        rw [List.find?_eq_none]
        intro l hl hp
        simp only [decide_eq_true_eq] at hp
        exact hfree l hl hp.1 hp.2
      unfold updateWaterIntake
      simp only [hamount, hsel]
      rw [if_neg hcheck]
      simp only [hfind]

theorem updateWaterIntake_upsert_witness :
    updateWaterIntake 19800000 1704110400000 2 1 { date := none, amount := none }
        [emptyLog 1 1 1704067200000]
      = (Response.failure 400 .INVALID_DATA, [emptyLog 1 1 1704067200000])
    ∧ (∃ targetDate : Int, targetDate ≤ 1704110400000
        ∧ (updateWaterIntake 0 1704110400000 2 1
            { date := some (.text 1704110400000), amount := some 0 }
            [emptyLog 1 1 1704067200000]).1.status = 200)
    ∧ updateWaterIntake 0 1704110400000 2 1
        { date := some (.number 8640000000000000), amount := some 2 }
        [emptyLog 1 1 1704067200000]
      = (Response.failure 500 .SERVER_ERROR, [emptyLog 1 1 1704067200000]) := by
  refine ⟨(updateWaterIntake_upsert 19800000 1704110400000 2 1 _ _).1 rfl, ?_, ?_⟩
  · obtain ⟨targetDate, h1, h2, _, _, h5⟩ :=
      (updateWaterIntake_upsert 0 1704110400000 2 1
        { date := some (.text 1704110400000), amount := some 0 }
        [emptyLog 1 1 1704067200000]).2 0 1704110400000 rfl
        (Or.inl ⟨.text 1704110400000, rfl, rfl, rfl⟩)
    have hin : -maxTime ≤ targetDate ∧ targetDate + msPerDay ≤ maxTime := by
      unfold maxTime msPerDay at *
      omega
    exact ⟨targetDate, h1, (h5 hin).1⟩
  · obtain ⟨targetDate, h1, h2, h3, h4, _⟩ :=
      (updateWaterIntake_upsert 0 1704110400000 2 1
        { date := some (.number 8640000000000000), amount := some 2 }
        [emptyLog 1 1 1704067200000]).2 2 8640000000000000 rfl
        (Or.inl ⟨.number 8640000000000000, rfl, rfl, rfl⟩)
    apply h4
    unfold maxTime msPerDay at *
    omega

/-! ## The two date normalisations -/

/-- On a UTC server `setHours(0, 0, 0, 0)` gives UTC midnight. -/
theorem setHoursZero_zero (t : Int) : setHoursZero 0 t = utcMidnight t := by
  unfold setHoursZero utcMidnight
  simp

/-- Outside the years 0 to 99 the two normalisations agree on a UTC server. -/
theorem normalisations_agree_at_offset_zero (t : Int)
    (hyear : ¬ (0 ≤ getUTCFullYear t ∧ getUTCFullYear t ≤ 99)) :
    startOfDayUTC t = setHoursZero 0 t := by
  rw [setHoursZero_zero, startOfDayUTC_eq_utcMidnight t hyear]

/-- For an offset that is not a whole number of days the two normalisations
differ on the date 1970-01-01T00:00Z. -/
theorem normalisations_differ_at_epoch (tz : Int) (h : tz % msPerDay ≠ 0) :
    startOfDayUTC 0 ≠ setHoursZero tz 0 := by
  rw [startOfDayUTC_of_nonneg 0 (le_refl 0)]
  unfold utcMidnight setHoursZero Day msPerDay at *
  omega

/-- C12: on a UTC server (offset zero) the two normalisations differ on the
date 0050-06-01T10:00Z: `createNutritionLog` gives 1950-06-01T00:00Z, because
`Date.UTC` reads the year 50 as 1950, and `updateWaterIntake` gives
0050-06-01T00:00Z. -/
theorem normalisations_differ_at_offset_zero_in_year_50 :
    startOfDayUTC (-60576213600000) = -618105600000
    ∧ setHoursZero 0 (-60576213600000) = -60576249600000
    ∧ getUTCFullYear (-60576213600000) = 50 := by
  decide

/-! ## getNutritionLogs -/

/-- The filter keeps the requester's logs whose date is within the bounds that
are given, both bounds inclusive. -/
theorem matchesQuery_iff (user : ObjectId) (r : DateRange) (l : NutritionLog) :
    matchesQuery user r l = true
      ↔ l.userId = user ∧ (∀ a, r.startDate = some a → a ≤ l.date)
          ∧ (∀ b, r.endDate = some b → l.date ≤ b) := by
  unfold matchesQuery
  cases r.startDate <;> cases r.endDate <;> simp [and_assoc]

/-- C13: for positive `page` and `limit`, `getNutritionLogs` answers 200 and
reports `pages = ceil(total / limit)`, which is the least number of pages of
`limit` logs that hold `total` logs, where `total` counts the requester's logs
in the date range; it includes `next` exactly when `page * limit < total` and
`prev` exactly when `page > 1`. -/
theorem getNutritionLogs_pagination (user : ObjectId) (q : ListQuery) (s : Store)
    (hpage : 1 ≤ q.page.value 1) (hlimit : 1 ≤ q.limit.value 10) :
    ∃ p : Pagination,
      (getNutritionLogs user q s).status = 200
      ∧ (getNutritionLogs user q s).pagination = some p
      ∧ p.total = (s.filter (matchesQuery user q.range)).length
      ∧ p.pages = some ⌈(((s.filter (matchesQuery user q.range)).length : ℚ))
            / ((q.limit.value 10 : ℕ) : ℚ)⌉
      ∧ (∃ pages : Int, p.pages = some pages
          ∧ ((s.filter (matchesQuery user q.range)).length : Int)
              ≤ pages * (q.limit.value 10 : ℕ)
          ∧ ∀ k : Int, ((s.filter (matchesQuery user q.range)).length : Int)
              ≤ k * (q.limit.value 10 : ℕ) → pages ≤ k)
      ∧ (p.next.isSome = true
          ↔ q.page.value 1 * q.limit.value 10 < (s.filter (matchesQuery user q.range)).length)
      ∧ (p.prev.isSome = true ↔ 1 < q.page.value 1) := by
  have hl0 : q.limit.value 10 ≠ 0 := by omega
  have hlq : (0 : ℚ) < ((q.limit.value 10 : ℕ) : ℚ) := by exact_mod_cast hlimit
  have hstart : ¬ (((q.page.value 1 : ℕ) : Int) - 1) * ((q.limit.value 10 : ℕ) : Int) < 0 := by
    have h1 : (0 : Int) ≤ ((q.page.value 1 : ℕ) : Int) - 1 := by omega
    have h2 : (0 : Int) ≤ ((q.limit.value 10 : ℕ) : Int) := by omega
    exact not_lt.mpr (mul_nonneg h1 h2)
  have hrun : getNutritionLogs user q s
      = { status := 200
          success := true
          error := none
          count := (if q.limit.value 10 = 0 then
              ((s.filter (matchesQuery user q.range)).insertionSort
                (fun a b => b.date ≤ a.date)).drop
                ((((q.page.value 1 : ℕ) : Int) - 1) * ((q.limit.value 10 : ℕ) : Int)).toNat
            else
              (((s.filter (matchesQuery user q.range)).insertionSort
                (fun a b => b.date ≤ a.date)).drop
                ((((q.page.value 1 : ℕ) : Int) - 1) * ((q.limit.value 10 : ℕ) : Int)).toNat).take
                (q.limit.value 10)).length
          pagination := some
            { next := if ((q.page.value 1 : ℕ) : Int) * ((q.limit.value 10 : ℕ) : Int)
                  < ((s.filter (matchesQuery user q.range)).length : Int) then
                  some { page := q.page.plusOne 1, limit := q.limit.raw 10 }
                else none
              prev := if (((q.page.value 1 : ℕ) : Int) - 1) * ((q.limit.value 10 : ℕ) : Int) > 0
                then some { page := .number (((q.page.value 1 : ℕ) : Int) - 1),
                            limit := q.limit.raw 10 }
                else none
              total := (s.filter (matchesQuery user q.range)).length
              pages := if q.limit.value 10 = 0 then none
                else some ⌈(((s.filter (matchesQuery user q.range)).length : ℚ))
                  / ((q.limit.value 10 : ℕ) : ℚ)⌉
              page := q.page.value 1
              limit := q.limit.value 10 }
          data := if q.limit.value 10 = 0 then
              ((s.filter (matchesQuery user q.range)).insertionSort
                (fun a b => b.date ≤ a.date)).drop
                ((((q.page.value 1 : ℕ) : Int) - 1) * ((q.limit.value 10 : ℕ) : Int)).toNat
            else
              (((s.filter (matchesQuery user q.range)).insertionSort
                (fun a b => b.date ≤ a.date)).drop
                ((((q.page.value 1 : ℕ) : Int) - 1) * ((q.limit.value 10 : ℕ) : Int)).toNat).take
                (q.limit.value 10) } := by
    unfold getNutritionLogs
    simp only [if_neg hstart]
  rw [hrun]
  refine ⟨_, rfl, rfl, rfl, ?_, ⟨⌈(((s.filter (matchesQuery user q.range)).length : ℚ))
      / ((q.limit.value 10 : ℕ) : ℚ)⌉, ?_, ?_, ?_⟩, ?_, ?_⟩
  · simp only [hl0, if_false]
  · simp only [hl0, if_false]
  · have h := Int.le_ceil ((((s.filter (matchesQuery user q.range)).length : ℚ))
        / ((q.limit.value 10 : ℕ) : ℚ))
    rw [div_le_iff₀ hlq] at h
    exact_mod_cast h
  · intro k hk
    rw [Int.ceil_le, div_le_iff₀ hlq]
    exact_mod_cast hk
  · simp only
    split_ifs with h
    · simp only [Option.isSome_some, true_iff]
      exact_mod_cast h
    · simp only [Option.isSome_none, Bool.false_eq_true, false_iff]
      intro hlt
      apply h
      exact_mod_cast hlt
  · simp only
    split_ifs with h
    · simp only [Option.isSome_some, true_iff]
      by_contra hle
      have h1 : q.page.value 1 = 1 := by omega
      rw [h1] at h
      simp at h
    · simp only [Option.isSome_none, Bool.false_eq_true, false_iff]
      intro hlt
      apply h
      have h1 : (0 : Int) < ((q.page.value 1 : ℕ) : Int) - 1 := by omega
      have h2 : (0 : Int) < ((q.limit.value 10 : ℕ) : Int) := by omega
      exact mul_pos h1 h2

theorem getNutritionLogs_pagination_witness :
    ∃ p : Pagination,
      (getNutritionLogs 1 { range := ⟨none, none⟩, page := .text 2, limit := .text 1 }
          [emptyLog 1 1 5, emptyLog 2 1 7, emptyLog 3 1 6]).pagination = some p
      ∧ p.total = 3 ∧ p.prev.isSome = true := by
  obtain ⟨p, _, h2, h3, _, _, _, h7⟩ :=
    getNutritionLogs_pagination 1
      { range := ⟨none, none⟩, page := .text 2, limit := .text 1 }
      [emptyLog 1 1 5, emptyLog 2 1 7, emptyLog 3 1 6] (by decide) (by decide)
  exact ⟨p, h2, h3, h7.mpr (by decide)⟩

/-! ## getNutritionStats -/

theorem getNutritionStats_of_printable (totals : NutritionLog → Totals) (user : ObjectId)
    (r : DateRange) (s : Store)
    (hyears : ∀ l ∈ s.filter (matchesQuery user r),
      0 ≤ getUTCFullYear l.date ∧ getUTCFullYear l.date ≤ 9999) :
    getNutritionStats totals user r s
      = { status := 200
          success := true
          error := none
          data := some
            { dailyAverages :=
                (dailyAveragesPipeline totals (s.filter (matchesQuery user r))).head?
              caloriesTrend := caloriesTrendPipeline totals (s.filter (matchesQuery user r))
              macroDistribution :=
                (macroDistributionPipeline totals (s.filter (matchesQuery user r))).head?
              mealTypeDistribution :=
                mealTypeDistributionPipeline (s.filter (matchesQuery user r)) } } := by
  have hall : (s.filter (matchesQuery user r)).all (fun l => printableYear l.date) = true := by
    rw [List.all_eq_true]
    intro l hl
    unfold printableYear
    simp [(hyears l hl).1, (hyears l hl).2]
  unfold getNutritionStats
  simp only [hall, if_true]

/-- C14: when no log of the requester lies in the date range,
`getNutritionStats` answers 200 with `dailyAverages` and `macroDistribution`
null and with `caloriesTrend` and `mealTypeDistribution` empty. -/
theorem getNutritionStats_no_match (totals : NutritionLog → Totals) (user : ObjectId)
    (r : DateRange) (s : Store)
    (hnone : ∀ l ∈ s, ¬ (l.userId = user ∧ (∀ a, r.startDate = some a → a ≤ l.date)
      ∧ (∀ b, r.endDate = some b → l.date ≤ b))) :
    getNutritionStats totals user r s
      = { status := 200
          success := true
          error := none
          data := some
            { dailyAverages := none
              caloriesTrend := []
              macroDistribution := none
              mealTypeDistribution := [] } } := by
  have hempty : s.filter (matchesQuery user r) = [] := by
    rw [List.filter_eq_nil_iff]
    intro l hl hm
    exact hnone l hl ((matchesQuery_iff user r l).mp hm)
  rw [getNutritionStats_of_printable totals user r s (by rw [hempty]; intro l hl; simp at hl),
    hempty]
  rfl

theorem getNutritionStats_no_match_witness :
    getNutritionStats (fun _ => ⟨0, 0, 0, 0⟩) 1 ⟨some 10, none⟩
        [emptyLog 1 2 20, emptyLog 2 1 5]
      = { status := 200
          success := true
          error := none
          data := some
            { dailyAverages := none
              caloriesTrend := []
              macroDistribution := none
              mealTypeDistribution := [] } } :=
  getNutritionStats_no_match (fun _ => ⟨0, 0, 0, 0⟩) 1 ⟨some 10, none⟩
    [emptyLog 1 2 20, emptyLog 2 1 5] (by decide)

/-- C15 (as stated, refuted): the requester's only log is dated
10000-01-01T00:00Z (stored by `updateWaterIntake`, which accepts any date).
`$dateToString` cannot print the year 10000, the request is answered 500 and no
`dailyAverages` is returned for this non-empty set of matching logs. -/
theorem getNutritionStats_year_10000_no_averages :
    (updateWaterIntake 0 1704067200000 1 1
        { date := some (.text 253402300800000), amount := some 0 } []).2
      = [emptyLog 1 1 253402300800000]
    ∧ [emptyLog 1 1 253402300800000].filter (matchesQuery 1 ⟨none, none⟩)
      = [emptyLog 1 1 253402300800000]
    ∧ getUTCFullYear 253402300800000 = 10000
    ∧ getNutritionStats (fun _ => ⟨2000, 0, 0, 0⟩) 1 ⟨none, none⟩
        [emptyLog 1 1 253402300800000]
      = { status := 500, success := false, error := some .SERVER_ERROR, data := none } := by
  decide

/-- C15 (amended): for a non-empty set of logs of the requester in the date
range (bounds inclusive), all dated in the years 0000 to 9999,
`getNutritionStats` answers 200 with `dailyAverages` whose five averages are
the sums of `totalCalories`, `totalProtein`, `totalCarbs`, `totalFat` and
`waterIntake` over those logs divided by their number; with a single such log
`avgCalories` is its `totalCalories`. -/
theorem getNutritionStats_dailyAverages (totals : NutritionLog → Totals) (user : ObjectId)
    (r : DateRange) (s : Store)
    (hne : s.filter (matchesQuery user r) ≠ [])
    (hyears : ∀ l ∈ s.filter (matchesQuery user r),
      0 ≤ getUTCFullYear l.date ∧ getUTCFullYear l.date ≤ 9999) :
    ∃ data averages,
      getNutritionStats totals user r s
        = { status := 200, success := true, error := none, data := some data }
      ∧ data.dailyAverages = some averages
      ∧ averages.avgCalories
          = ((((s.filter (matchesQuery user r)).map fun l => (totals l).totalCalories).sum : Int) : ℚ)
            / ((s.filter (matchesQuery user r)).length : ℚ)
      ∧ averages.avgProtein
          = ((((s.filter (matchesQuery user r)).map fun l => (totals l).totalProtein).sum : Int) : ℚ)
            / ((s.filter (matchesQuery user r)).length : ℚ)
      ∧ averages.avgCarbs
          = ((((s.filter (matchesQuery user r)).map fun l => (totals l).totalCarbs).sum : Int) : ℚ)
            / ((s.filter (matchesQuery user r)).length : ℚ)
      ∧ averages.avgFat
          = ((((s.filter (matchesQuery user r)).map fun l => (totals l).totalFat).sum : Int) : ℚ)
            / ((s.filter (matchesQuery user r)).length : ℚ)
      ∧ averages.avgWaterIntake
          = ((((s.filter (matchesQuery user r)).map fun l => l.waterIntake).sum : Int) : ℚ)
            / ((s.filter (matchesQuery user r)).length : ℚ)
      ∧ (∀ l, s.filter (matchesQuery user r) = [l] →
          averages.avgCalories = (totals l).totalCalories) := by
  have hpipe : dailyAveragesPipeline totals (s.filter (matchesQuery user r))
      = [{ avgCalories := avg ((s.filter (matchesQuery user r)).map
              fun l => (totals l).totalCalories)
           avgProtein := avg ((s.filter (matchesQuery user r)).map
              fun l => (totals l).totalProtein)
           avgCarbs := avg ((s.filter (matchesQuery user r)).map fun l => (totals l).totalCarbs)
           avgFat := avg ((s.filter (matchesQuery user r)).map fun l => (totals l).totalFat)
           avgWaterIntake := avg ((s.filter (matchesQuery user r)).map
              fun l => l.waterIntake) }] := by
    unfold dailyAveragesPipeline
    rw [if_neg (by simpa using hne)]
  refine ⟨_,
    { avgCalories := avg ((s.filter (matchesQuery user r)).map
        fun l => (totals l).totalCalories)
      avgProtein := avg ((s.filter (matchesQuery user r)).map
        fun l => (totals l).totalProtein)
      avgCarbs := avg ((s.filter (matchesQuery user r)).map fun l => (totals l).totalCarbs)
      avgFat := avg ((s.filter (matchesQuery user r)).map fun l => (totals l).totalFat)
      avgWaterIntake := avg ((s.filter (matchesQuery user r)).map fun l => l.waterIntake) },
    getNutritionStats_of_printable totals user r s hyears, ?_, ?_, ?_, ?_, ?_, ?_, ?_⟩
  · simp only [hpipe, List.head?_cons]
  · simp [avg]
  · simp [avg]
  · simp [avg]
  · simp [avg]
  · simp [avg]
  · intro l hl
    simp [avg, hl]

theorem getNutritionStats_dailyAverages_witness :
    ∃ data averages,
      getNutritionStats (fun _ => ⟨2000, 0, 0, 0⟩) 1 ⟨some 0, some 1704067200000⟩
          [emptyLog 1 1 1704067200000]
        = { status := 200, success := true, error := none, data := some data }
      ∧ data.dailyAverages = some averages
      ∧ averages.avgCalories = 2000 := by
  obtain ⟨data, averages, h1, h2, _, _, _, _, _, h8⟩ :=
    getNutritionStats_dailyAverages (fun _ => ⟨2000, 0, 0, 0⟩) 1 ⟨some 0, some 1704067200000⟩
      [emptyLog 1 1 1704067200000] (by decide) (by decide)
  refine ⟨data, averages, h1, h2, ?_⟩
  have := h8 (emptyLog 1 1 1704067200000) (by decide)
  simpa using this

theorem count_map_type (meals : List Meal) (t : String) :
    (meals.map fun m => m.type).count t = (meals.filter fun m => m.type = t).length := by
  induction meals with
  | nil => rfl
  | cons m ms ih =>
    by_cases h : m.type = t
    · simp [List.count_cons, List.filter_cons, h, ih]
    · simp [List.count_cons, List.filter_cons, h, ih]

theorem groupByMealType_ids (meals : List Meal) :
    (groupByMealType meals).map (fun e => e._id) = (meals.map fun m => m.type).dedup := by
  unfold groupByMealType
  rw [List.map_map]
  exact List.map_id _

theorem groupByMealType_counts (meals : List Meal) :
    ((groupByMealType meals).map fun e => e.count).sum = meals.length := by
  unfold groupByMealType
  rw [List.map_map]
  have h := List.sum_map_count_dedup_eq_length (meals.map fun m => m.type)
  rw [List.length_map] at h
  rw [← h]
  congr 1
  apply List.map_congr_left
  intro t _
  simp only [Function.comp]
  exact (count_map_type meals t).symm

/-- C16 (as stated, refuted): the requester's only log, with one meal, is dated
10000-01-01T00:00Z; the request is answered 500 and no `mealTypeDistribution`
is returned, although the meal type "lunch" occurs in the matching logs. -/
theorem getNutritionStats_year_10000_no_distribution :
    getNutritionStats (fun _ => ⟨500, 10, 100, 2⟩) 1 ⟨none, none⟩
        [{ emptyLog 1 1 253402300800000 with
            meals := [{ _id := 10, type := "lunch", time := 0, foods := [rice], notes := "" }] }]
      = { status := 500, success := false, error := some .SERVER_ERROR, data := none }
    ∧ matchesQuery 1 ⟨none, none⟩
        { emptyLog 1 1 253402300800000 with
            meals := [{ _id := 10, type := "lunch", time := 0, foods := [rice], notes := "" }] }
      = true := by
  decide

/-- C16 (amended): when the requester's logs in the date range are all dated
in the years 0000 to 9999, `getNutritionStats` answers 200 with a
`mealTypeDistribution` that has exactly one entry per distinct meal type among
the meals of those logs; an entry's count is the number of those meals with its
type and its `avgCalories` is the sum, over those meals, of the calories of the
meal's foods, divided by the count; the entries are in order of non-increasing
count and the counts add up to the number of meals. -/
theorem getNutritionStats_mealTypeDistribution (totals : NutritionLog → Totals)
    (user : ObjectId) (r : DateRange) (s : Store)
    (hyears : ∀ l ∈ s.filter (matchesQuery user r),
      0 ≤ getUTCFullYear l.date ∧ getUTCFullYear l.date ≤ 9999) :
    ∃ data,
      getNutritionStats totals user r s
        = { status := 200, success := true, error := none, data := some data }
      ∧ (data.mealTypeDistribution.map fun e => e._id).Nodup
      ∧ (∀ t, t ∈ (data.mealTypeDistribution.map fun e => e._id)
          ↔ ∃ m ∈ (s.filter (matchesQuery user r)).flatMap (fun l => l.meals), m.type = t)
      ∧ (∀ e ∈ data.mealTypeDistribution,
          e.count = (((s.filter (matchesQuery user r)).flatMap fun l => l.meals).filter
              fun m => m.type = e._id).length
          ∧ e.avgCalories
            = ((((((s.filter (matchesQuery user r)).flatMap fun l => l.meals).filter
                  fun m => m.type = e._id).map
                  fun m => (m.foods.map fun f => f.calories).sum).sum : Int) : ℚ)
              / (e.count : ℚ))
      ∧ data.mealTypeDistribution.Sorted (fun a b => b.count ≤ a.count)
      ∧ (data.mealTypeDistribution.map fun e => e.count).sum
          = ((s.filter (matchesQuery user r)).flatMap fun l => l.meals).length := by
  have hperm : List.Perm (mealTypeDistributionPipeline (s.filter (matchesQuery user r)))
      (groupByMealType (unwindMeals (s.filter (matchesQuery user r)))) :=
    List.perm_insertionSort _ _
  refine ⟨_, getNutritionStats_of_printable totals user r s hyears, ?_, ?_, ?_, ?_, ?_⟩
  · rw [(hperm.map _).nodup_iff, groupByMealType_ids]
    exact List.nodup_dedup _
  · intro t
    rw [(hperm.map _).mem_iff, groupByMealType_ids, List.mem_dedup, List.mem_map]
    rfl
  · intro e he
    have he' : e ∈ groupByMealType (unwindMeals (s.filter (matchesQuery user r))) :=
      hperm.mem_iff.mp he
    unfold groupByMealType at he'
    obtain ⟨t, _, rfl⟩ := List.mem_map.mp he'
    refine ⟨rfl, ?_⟩
    simp only [avg, List.length_map]
    rfl
  · haveI : IsTotal MealTypeCount (fun a b => b.count ≤ a.count) :=
      ⟨fun a b => le_total b.count a.count⟩
    haveI : IsTrans MealTypeCount (fun a b => b.count ≤ a.count) :=
      ⟨fun _ _ _ h1 h2 => le_trans h2 h1⟩
    exact List.sorted_insertionSort _ _
  · rw [(hperm.map _).sum_eq]
    exact groupByMealType_counts _

theorem getNutritionStats_mealTypeDistribution_witness :
    ∃ data,
      getNutritionStats (fun _ => ⟨500, 10, 100, 2⟩) 1 ⟨none, none⟩
          [{ emptyLog 1 1 1704067200000 with
              meals := [{ _id := 10, type := "lunch", time := 0, foods := [rice],
                          notes := "" }] }]
        = { status := 200, success := true, error := none, data := some data }
      ∧ (data.mealTypeDistribution.map fun e => e.count).sum = 1 := by
  obtain ⟨data, h1, _, _, _, _, h6⟩ :=
    getNutritionStats_mealTypeDistribution (fun _ => ⟨500, 10, 100, 2⟩) 1 ⟨none, none⟩
      [{ emptyLog 1 1 1704067200000 with
          meals := [{ _id := 10, type := "lunch", time := 0, foods := [rice],
                      notes := "" }] }]
      (by decide)
  exact ⟨data, h1, h6⟩

/-- C17 (as stated, refuted): of the requester's two logs one is dated
2024-01-01 and one 10000-01-01T00:00Z; the request is answered 500 and no
`caloriesTrend` is returned. -/
theorem getNutritionStats_year_10000_no_trend :
    getNutritionStats (fun _ => ⟨2000, 0, 0, 0⟩) 1 ⟨some 0, none⟩
        [emptyLog 1 1 1704067200000, emptyLog 2 1 253402300800000]
      = { status := 500, success := false, error := some .SERVER_ERROR, data := none }
    ∧ [emptyLog 1 1 1704067200000, emptyLog 2 1 253402300800000].filter
        (matchesQuery 1 ⟨some 0, none⟩)
      = [emptyLog 1 1 1704067200000, emptyLog 2 1 253402300800000] := by
  decide

theorem getNutritionStats_of_unprintable (totals : NutritionLog → Totals) (user : ObjectId)
    (r : DateRange) (s : Store)
    (hyear : ∃ l ∈ s.filter (matchesQuery user r),
      ¬ (0 ≤ getUTCFullYear l.date ∧ getUTCFullYear l.date ≤ 9999)) :
    getNutritionStats totals user r s
      = { status := 500, success := false, error := some .SERVER_ERROR, data := none } := by
  have hall : ¬ (s.filter (matchesQuery user r)).all (fun l => printableYear l.date) = true := by
    rw [List.all_eq_true]
    intro h
    obtain ⟨l, hl, hno⟩ := hyear
    apply hno
    have := h l hl
    unfold printableYear at this
    simpa using this
  unfold getNutritionStats
  simp only
  rw [if_neg hall]

/-- C17 (amended): when the requester's logs in the date range are all dated
in the years 0000 to 9999, `getNutritionStats` answers 200 with a
`caloriesTrend` that lists those logs in ascending order of date, one entry per
log: the date as four digits of the year, two of the month and two of the day
(in UTC) joined by hyphens, and the log's `totalCalories`. When one of those
logs is dated outside the years 0000 to 9999 the request is answered 500
SERVER_ERROR without data. -/
theorem getNutritionStats_caloriesTrend (totals : NutritionLog → Totals)
    (user : ObjectId) (r : DateRange) (s : Store) :
    ((∀ l ∈ s.filter (matchesQuery user r),
        0 ≤ getUTCFullYear l.date ∧ getUTCFullYear l.date ≤ 9999) →
      ∃ data sorted,
        getNutritionStats totals user r s
          = { status := 200, success := true, error := none, data := some data }
        ∧ List.Perm sorted (s.filter (matchesQuery user r))
        ∧ sorted.Sorted (fun a b => a.date ≤ b.date)
        ∧ data.caloriesTrend
            = sorted.map (fun l =>
                ({ date := pad4 (getUTCFullYear l.date).toNat ++ "-"
                      ++ pad2 (getUTCMonth l.date + 1).toNat ++ "-"
                      ++ pad2 (getUTCDate l.date).toNat
                   calories := (totals l).totalCalories } : TrendPoint))
        ∧ data.caloriesTrend.length = (s.filter (matchesQuery user r)).length)
    ∧ ((∃ l ∈ s.filter (matchesQuery user r),
          ¬ (0 ≤ getUTCFullYear l.date ∧ getUTCFullYear l.date ≤ 9999)) →
        getNutritionStats totals user r s
          = { status := 500, success := false, error := some .SERVER_ERROR, data := none }) := by
  refine ⟨fun hyears => ?_, getNutritionStats_of_unprintable totals user r s⟩
  refine ⟨_, (s.filter (matchesQuery user r)).insertionSort (fun a b => a.date ≤ b.date),
    getNutritionStats_of_printable totals user r s hyears, List.perm_insertionSort _ _, ?_, rfl,
    ?_⟩
  · haveI : IsTotal NutritionLog (fun a b => a.date ≤ b.date) :=
      ⟨fun a b => le_total a.date b.date⟩
    haveI : IsTrans NutritionLog (fun a b => a.date ≤ b.date) :=
      ⟨fun _ _ _ h1 h2 => le_trans h1 h2⟩
    exact List.sorted_insertionSort _ _
  · simp only [caloriesTrendPipeline, List.length_map, List.length_insertionSort]

theorem getNutritionStats_caloriesTrend_witness :
    (∃ data,
      getNutritionStats (fun _ => ⟨2000, 0, 0, 0⟩) 1 ⟨none, none⟩
          [emptyLog 1 1 1704153600000, emptyLog 2 1 1704067200000]
        = { status := 200, success := true, error := none, data := some data }
      ∧ data.caloriesTrend.length = 2)
    ∧ getNutritionStats (fun _ => ⟨2000, 0, 0, 0⟩) 1 ⟨none, none⟩
          [emptyLog 1 1 1704153600000, emptyLog 2 1 253402300800000]
        = { status := 500, success := false, error := some .SERVER_ERROR, data := none } := by
  constructor
  · obtain ⟨data, sorted, h1, _, _, _, h5⟩ :=
      (getNutritionStats_caloriesTrend (fun _ => ⟨2000, 0, 0, 0⟩) 1 ⟨none, none⟩
        [emptyLog 1 1 1704153600000, emptyLog 2 1 1704067200000]).1 (by decide)
    exact ⟨data, h1, h5⟩
  · exact (getNutritionStats_caloriesTrend (fun _ => ⟨2000, 0, 0, 0⟩) 1 ⟨none, none⟩
      [emptyLog 1 1 1704153600000, emptyLog 2 1 253402300800000]).2
      ⟨emptyLog 2 1 253402300800000, by decide, by decide⟩

/-! ## Goal wizard -/

theorem toList_ne_nil_iff (s : String) : s.toList ≠ [] ↔ s ≠ "" := by
  constructor
  · intro h hs
    apply h
    rw [hs]
    rfl
  · intro h hl
    apply h
    cases s with
    | mk data =>
      have : data = [] := hl
      rw [this]

/-! ### Numbers -/

theorem JsNumber.le_of_not_lt (x y : JsNumber) (hx : x ≠ .nan) (hy : y ≠ .nan)
    (h : x.lt y = false) : y.le x = true := by
  cases x <;> cases y <;> simp_all [JsNumber.lt, JsNumber.le]

theorem JsNumber.not_lt_of_le (x y : JsNumber) (h : y.le x = true) : x.lt y = false := by
  cases x <;> cases y <;> simp_all [JsNumber.lt, JsNumber.le]

theorem JsNumber.lt_of_lt_of_le (x y z : JsNumber) (h1 : x.lt y = true) (h2 : y.le z = true) :
    x.lt z = true := by
  cases x <;> cases y <;> cases z <;> simp_all [JsNumber.lt, JsNumber.le]
  exact h1.trans_le h2

theorem JsNumber.le_of_lt (x y : JsNumber) (h : x.lt y = true) : x.le y = true := by
  cases x <;> cases y <;> simp_all [JsNumber.lt, JsNumber.le]
  exact h.le

theorem JsNumber.ne_nan_of_le (x y : JsNumber) (h : x.le y = true) : x ≠ .nan ∧ y ≠ .nan := by
  cases x <;> cases y <;> simp_all [JsNumber.le]

theorem twoPow_pos (e : Int) : 0 < twoPow e := by
  unfold twoPow
  split_ifs <;> positivity

theorem tenPow_pos (e : Int) : 0 < tenPow e := by
  unfold tenPow
  split_ifs <;> positivity

theorem roundHalfEven_nonneg (q : ℚ) (h : 0 ≤ q) : 0 ≤ roundHalfEven q := by
  have hf : 0 ≤ ⌊q⌋ := Int.floor_nonneg.mpr h
  unfold roundHalfEven
  simp only
  split_ifs <;> omega

/-- A non-negative rational rounds to a non-negative double or to Infinity. -/
theorem toDouble_nonneg (q : ℚ) (h : 0 ≤ q) :
    toDouble q = .posInf ∨ ∃ r : ℚ, 0 ≤ r ∧ toDouble q = .finite r := by
  unfold toDouble
  rw [if_neg (not_lt.mpr h)]
  cases hr : roundMagnitude q with
  | none => exact Or.inl rfl
  | some r =>
    refine Or.inr ⟨r, ?_, rfl⟩
    unfold roundMagnitude at hr
    simp only at hr
    split_ifs at hr with h0
    · injection hr with hr
      rw [← hr]
    · injection hr with hr
      rw [← hr]
      have hu := twoPow_pos (max (floorLog2 q) (-1022) - 52)
      have hq : 0 ≤ q / twoPow (max (floorLog2 q) (-1022) - 52) := div_nonneg h (le_of_lt hu)
      have hi := roundHalfEven_nonneg _ hq
      have hc : (0 : ℚ) ≤ (roundHalfEven (q / twoPow (max (floorLog2 q) (-1022) - 52)) : ℚ) := by
        exact_mod_cast hi
      exact mul_nonneg hc (le_of_lt hu)

theorem toDouble_ne_nan (q : ℚ) : toDouble q ≠ .nan := by
  unfold toDouble
  split_ifs <;> split <;> simp

theorem mantissa_nonneg (a b : List Char) : 0 ≤ mantissa a b := by
  unfold mantissa
  positivity

/-! ### Numerals of digits and a point -/

theorem isDigit_toNat (c : Char) (h : c.isDigit = true) : 48 ≤ c.toNat ∧ c.toNat ≤ 57 := by
  unfold Char.isDigit at h
  simp only [Bool.and_eq_true, decide_eq_true_eq, ge_iff_le] at h
  exact ⟨h.1, h.2⟩

/-- A digit or a point is no white space, sign or letter `I`. -/
theorem plain_char (c : Char) (h : c.isDigit = true ∨ c = '.') :
    isStrWhiteSpaceChar c = false ∧ c ≠ '+' ∧ c ≠ '-' ∧ c ≠ 'I' := by
  rcases h with h | h
  · have hc := isDigit_toNat c h
    refine ⟨?_, ?_, ?_, ?_⟩
    · unfold isStrWhiteSpaceChar
      simp only [decide_eq_false_iff_not]
      omega
    · intro e; rw [e] at hc; exact absurd hc.1 (by decide)
    · intro e; rw [e] at hc; exact absurd hc.1 (by decide)
    · intro e; rw [e] at hc; exact absurd hc.2 (by decide)
  · rw [h]
    decide

theorem scaled_nil (a b : List Char) : scaled a b [] = (toDouble (mantissa a b), []) := by
  unfold scaled exponentPart
  rfl

/-- The shape the patterns admit: digits, then nothing or a point and digits. -/
theorem plain_of_pattern (s : String) (h : currentPattern s = true) :
    ∀ c ∈ s.toList, c.isDigit = true ∨ c = '.' := by
  unfold currentPattern at h
  have happ := List.takeWhile_append_dropWhile Char.isDigit s.toList
  intro c hc
  rw [← happ] at hc
  rcases List.mem_append.mp hc with hc | hc
  · exact Or.inl (List.mem_takeWhile_imp hc)
  · cases hrest : s.toList.dropWhile Char.isDigit with
    | nil => rw [hrest] at hc; simp at hc
    | cons d b =>
      rw [hrest] at h hc
      simp only [Bool.and_eq_true, decide_eq_true_eq, List.all_eq_true] at h
      rcases List.mem_cons.mp hc with hc | hc
      · exact Or.inr (hc.trans h.1)
      · exact Or.inl (h.2 c hc)

theorem dropWhile_eq_self {α : Type} (p : α → Bool) (l : List α) (h : ∀ x ∈ l, p x = false) :
    l.dropWhile p = l := by
  cases l with
  | nil => rfl
  | cons x xs => simp [List.dropWhile, h x (List.mem_cons_self _ _)]

/-- On a non-empty string of digits and points both readings go through the
unsigned literal: `Number` reads the value when the literal is the whole
string, `parseFloat` the value of the literal at its head. -/
theorem plain_readings (s : String) (hplain : ∀ c ∈ s.toList, c.isDigit = true ∨ c = '.')
    (hne : s ≠ "") :
    parseFloat s = (match strUnsignedDecimalLiteral s.toList with
      | some (v, _) => v
      | none => .nan)
    ∧ toNumber s = (match strUnsignedDecimalLiteral s.toList with
      | some (v, []) => v
      | _ => nonDecimalIntegerLiteral s.toList) := by
  have hws : ∀ c ∈ s.toList, isStrWhiteSpaceChar c = false := fun c hc =>
    (plain_char c (hplain c hc)).1
  have hd1 : s.toList.dropWhile isStrWhiteSpaceChar = s.toList := dropWhile_eq_self _ _ hws
  have hd2 : s.toList.reverse.dropWhile isStrWhiteSpaceChar = s.toList.reverse :=
    dropWhile_eq_self _ _ (fun c hc => hws c (List.mem_reverse.mp hc))
  have hnil : s.toList ≠ [] := (toList_ne_nil_iff s).mpr hne
  have hsign : strDecimalLiteral s.toList = strUnsignedDecimalLiteral s.toList := by
    cases hl : s.toList with
    | nil => exact absurd hl hnil
    | cons c r =>
      have hc := plain_char c (hplain c (by rw [hl]; exact List.mem_cons_self _ _))
      unfold strDecimalLiteral
      simp only
      rw [if_neg hc.2.1, if_neg hc.2.2.1]
  constructor
  · unfold parseFloat
    rw [hd1, hsign]
  · unfold toNumber
    simp only [hd1, hd2, List.reverse_reverse]
    rw [hsign]
    have : s.toList.isEmpty = false := by
      cases hl : s.toList with
      | nil => exact absurd hl hnil
      | cons _ _ => rfl
    rw [this]
    rfl

theorem not_infinity (cs : List Char) (hplain : ∀ c ∈ cs, c.isDigit = true ∨ c = '.') :
    cs.take 8 ≠ "Infinity".toList := by
  cases cs with
  | nil => decide
  | cons c r =>
    have hc := plain_char c (hplain c (List.mem_cons_self _ _))
    intro h
    have : c = 'I' := by
      have h0 := congrArg List.head? h
      simpa using h0
    exact hc.2.2.2 this

/-- The unsigned literal at the head of a string the pattern of `currentValue`
admits is the whole string, with a non-negative value, unless the string is a
lone point. -/
theorem unsigned_of_pattern (s : String) (h : currentPattern s = true) (hne : s ≠ "") :
    (s.toList = ['.'] ∧ strUnsignedDecimalLiteral s.toList = none)
    ∨ ∃ q : ℚ, 0 ≤ q ∧ strUnsignedDecimalLiteral s.toList = some (toDouble q, []) := by
  have hplain := plain_of_pattern s h
  have hinf := not_infinity s.toList hplain
  have hnil : s.toList ≠ [] := (toList_ne_nil_iff s).mpr hne
  have happ := List.takeWhile_append_dropWhile Char.isDigit s.toList
  unfold currentPattern at h
  unfold strUnsignedDecimalLiteral
  rw [if_neg hinf]
  cases hrest : s.toList.dropWhile Char.isDigit with
  | nil =>
    rw [hrest] at happ
    have ha : s.toList.takeWhile Char.isDigit = s.toList := by simpa using happ
    refine Or.inr ⟨mantissa s.toList [], mantissa_nonneg _ _, ?_⟩
    simp only [ha]
    rw [if_neg (by simpa using hnil), scaled_nil]
  | cons c b =>
    rw [hrest] at h happ
    simp only [Bool.and_eq_true, decide_eq_true_eq, List.all_eq_true] at h
    obtain ⟨hc, hall⟩ := h
    have htake : b.takeWhile Char.isDigit = b := by
      rw [List.takeWhile_eq_self_iff]
      exact hall
    have hdrop : b.dropWhile Char.isDigit = [] := by
      rw [List.dropWhile_eq_nil_iff]
      exact hall
    simp only [hc, if_true, htake, hdrop]
    by_cases hab : ((s.toList.takeWhile Char.isDigit).isEmpty && b.isEmpty) = true
    · rw [if_pos hab]
      refine Or.inl ⟨?_, rfl⟩
      simp only [Bool.and_eq_true, List.isEmpty_iff] at hab
      rw [← happ, hab.1, hab.2, hc]
      rfl
    · rw [if_neg hab, scaled_nil]
      exact Or.inr ⟨_, mantissa_nonneg _ _, rfl⟩

/-- On a non-empty string the pattern of `currentValue` admits, `parseFloat`
and `Number` give the same value: `NaN` for a lone point, and otherwise the
double nearest to a non-negative rational. -/
theorem pattern_readings (s : String) (h : currentPattern s = true) (hne : s ≠ "") :
    (s.toList = ['.'] ∧ parseFloat s = .nan ∧ toNumber s = .nan)
    ∨ ∃ q : ℚ, 0 ≤ q ∧ parseFloat s = toDouble q ∧ toNumber s = toDouble q := by
  obtain ⟨hp, hn⟩ := plain_readings s (plain_of_pattern s h) hne
  rcases unsigned_of_pattern s h hne with ⟨hdot, hnone⟩ | ⟨q, hq, hsome⟩
  · refine Or.inl ⟨hdot, ?_, ?_⟩
    · rw [hp, hnone]
    · rw [hn, hnone, hdot]
      rfl
  · refine Or.inr ⟨q, hq, ?_, ?_⟩
    · rw [hp, hsome]
    · rw [hn, hsome]

theorem targetPattern_imp (s : String) (h : targetPattern s = true) :
    s ≠ "" ∧ currentPattern s = true
      ∧ ∃ q : ℚ, 0 ≤ q ∧ parseFloat s = toDouble q ∧ toNumber s = toDouble q := by
  have hcur : s ≠ "" ∧ currentPattern s = true ∧ s.toList ≠ ['.'] := by
    unfold targetPattern at h
    unfold currentPattern
    cases hrest : s.toList.dropWhile Char.isDigit with
    | nil =>
      rw [hrest] at h
      have hnil : s.toList ≠ [] := by simpa using h
      refine ⟨(toList_ne_nil_iff s).mp hnil, rfl, ?_⟩
      intro hdot
      rw [hdot] at hrest
      exact absurd hrest (by decide)
    | cons c b =>
      rw [hrest] at h
      simp only [Bool.and_eq_true, decide_eq_true_eq, Bool.not_eq_true', List.isEmpty_eq_false,
        List.all_eq_true] at h
      obtain ⟨⟨hc, hb⟩, hall⟩ := h
      have hnil : s.toList ≠ [] := by
        intro hnil
        rw [hnil] at hrest
        simp at hrest
      refine ⟨(toList_ne_nil_iff s).mp hnil, ?_, ?_⟩
      · simp only [hc, decide_True, Bool.true_and, List.all_eq_true]
        exact hall
      · intro hdot
        rw [hdot] at hrest
        have : b = [] := by
          have h2 : ['.'].dropWhile Char.isDigit = ['.'] := by decide
          rw [h2] at hrest
          injection hrest with _ h3
          exact h3.symm
        exact hb this
  obtain ⟨hne, hc, hdot⟩ := hcur
  refine ⟨hne, hc, ?_⟩
  rcases pattern_readings s hc hne with ⟨h1, _⟩ | hq
  · exact absurd h1 hdot
  · exact hq

theorem toDouble_not_lt_zero (q : ℚ) (h : 0 ≤ q) : (toDouble q).lt (.finite 0) = false := by
  rcases toDouble_nonneg q h with hinf | ⟨r, hr, hfin⟩
  · rw [hinf]; rfl
  · rw [hfin]
    simp only [JsNumber.lt, decide_eq_false_iff_not, not_lt]
    exact hr

/-- The number literal `0.1` of the `min` rule: the double nearest to 1/10. -/
theorem toDouble_tenth :
    toDouble (1 / 10) = .finite (3602879701896397 / 36028797018963968) := by
  decide!

theorem zero_lt_tenth : (JsNumber.finite 0).lt (toDouble (1 / 10)) = true := by
  rw [toDouble_tenth]
  simp only [JsNumber.lt, decide_eq_true_eq]
  norm_num

theorem targetValueRule_iff (f : GoalForm) :
    targetValueRule f = true
      ↔ targetPattern f.targetValue = true
          ∧ (toDouble (1 / 10)).le (parseFloat f.targetValue) = true := by
  unfold targetValueRule minRule
  constructor
  · intro h
    simp only [Bool.and_eq_true, decide_eq_true_eq, Bool.or_eq_true, Bool.not_eq_true'] at h
    obtain ⟨⟨hne, hmin⟩, hpat⟩ := h
    have hp : targetPattern f.targetValue = true := hpat.resolve_left hne
    obtain ⟨_, _, q, _, hpf, htn⟩ := targetPattern_imp _ hp
    refine ⟨hp, ?_⟩
    have hlt := hmin.resolve_left hne
    rw [htn] at hlt
    rw [hpf]
    exact JsNumber.le_of_not_lt _ _ (toDouble_ne_nan q) (toDouble_ne_nan _) hlt
  · rintro ⟨hp, hle⟩
    obtain ⟨hne, _, q, _, hpf, htn⟩ := targetPattern_imp _ hp
    simp only [Bool.and_eq_true, decide_eq_true_eq, Bool.or_eq_true, Bool.not_eq_true']
    refine ⟨⟨hne, Or.inr ?_⟩, Or.inr hp⟩
    rw [htn, ← hpf]
    exact JsNumber.not_lt_of_le _ _ hle

theorem currentValueRule_iff (f : GoalForm) (hp : targetPattern f.targetValue = true) :
    currentValueRule f = true
      ↔ f.currentValue = ""
          ∨ (currentPattern f.currentValue = true
              ∧ (parseFloat f.currentValue).le (parseFloat f.targetValue) = true) := by
  obtain ⟨htne, _, _⟩ := targetPattern_imp _ hp
  unfold currentValueRule minRule validateCurrentValue
  by_cases hc : f.currentValue = ""
  · simp [hc]
  · constructor
    · intro h
      simp only [Bool.and_eq_true, decide_eq_true_eq, Bool.or_eq_true] at h
      obtain ⟨⟨_, hpat⟩, hval⟩ := h
      rw [if_pos ⟨hc, htne⟩] at hval
      exact Or.inr ⟨hpat.resolve_left hc, hval⟩
    · rintro (h | ⟨hcp, hle⟩)
      · exact absurd h hc
      · simp only [Bool.and_eq_true, decide_eq_true_eq, Bool.or_eq_true, Bool.not_eq_true']
        refine ⟨⟨Or.inr ?_, Or.inr hcp⟩, ?_⟩
        · rcases pattern_readings _ hcp hc with ⟨_, _, hnan⟩ | ⟨q, hq, _, htn⟩
          · rw [hnan]; rfl
          · rw [htn]; exact toDouble_not_lt_zero q hq
        · rw [if_pos ⟨hc, htne⟩]
          exact hle

/-- The rules checked by `nextStep` in step 2 hold exactly when `targetValue`
is a numeral of digits with an optional point before its last digits whose
double is at least the double 0.1, `unit` is not empty, and `currentValue` is
empty or a numeral of digits with at most one point whose double is at most
that of `targetValue`. -/
theorem details_valid_iff (f : GoalForm) :
    trigger [targetValueRule, unitRule, currentValueRule] f = true
      ↔ targetPattern f.targetValue = true
          ∧ (toDouble (1 / 10)).le (parseFloat f.targetValue) = true
          ∧ f.unit ≠ ""
          ∧ (f.currentValue = ""
              ∨ (currentPattern f.currentValue = true
                  ∧ (parseFloat f.currentValue).le (parseFloat f.targetValue) = true)) := by
  unfold trigger
  simp only [List.all_cons, List.all_nil, Bool.and_true, Bool.and_eq_true]
  rw [targetValueRule_iff]
  constructor
  · rintro ⟨⟨hp, hle⟩, hu, hc⟩
    exact ⟨hp, hle, by simpa [unitRule] using hu, (currentValueRule_iff f hp).mp hc⟩
  · rintro ⟨hp, hle, hu, hc⟩
    exact ⟨⟨hp, hle⟩, by simpa [unitRule] using hu, (currentValueRule_iff f hp).mpr hc⟩

/-! ### The rounding -/

theorem twoPow_eq (e : Int) : twoPow e = (2 : ℚ) ^ e := by
  unfold twoPow
  split_ifs with h
  · obtain ⟨n, rfl⟩ := Int.eq_ofNat_of_zero_le h
    simp
  · obtain ⟨n, hn⟩ := Int.eq_ofNat_of_zero_le (by omega : 0 ≤ -e)
    have he : e = -(n : Int) := by omega
    rw [he]
    simp

theorem bitLength_spec (fuel n : Nat) (hfuel : n < 2 ^ fuel) (hn : 0 < n) :
    2 ^ (bitLength fuel n - 1) ≤ n ∧ n < 2 ^ bitLength fuel n ∧ 0 < bitLength fuel n := by
  induction fuel generalizing n with
  | zero => simp at hfuel; omega
  | succ k ih =>
    unfold bitLength
    rw [if_neg (by omega)]
    by_cases h1 : n / 2 = 0
    · have hn1 : n = 1 := by omega
      subst hn1
      cases k <;> simp [bitLength]
    · have hk : n / 2 < 2 ^ k := by
        rw [pow_succ] at hfuel
        omega
      obtain ⟨h2, h3, h4⟩ := ih (n / 2) hk (by omega)
      refine ⟨?_, ?_, by omega⟩
      · have : bitLength k (n / 2) + 1 - 1 = (bitLength k (n / 2) - 1) + 1 := by omega
        rw [this, pow_succ]
        omega
      · rw [pow_succ]
        omega

theorem roundHalfEven_spec (q : ℚ) : |(roundHalfEven q : ℚ) - q| ≤ 1 / 2 := by
  have h1 := Int.floor_le q
  have h2 := Int.lt_floor_add_one q
  unfold roundHalfEven
  simp only
  split_ifs with ha hb hc
  · rw [abs_le]; constructor <;> linarith
  · rw [abs_le]; push_cast; constructor <;> linarith
  · have : q - ⌊q⌋ = 1 / 2 := le_antisymm (not_lt.mp hb) (not_lt.mp ha)
    rw [abs_le]; constructor <;> linarith
  · have : q - ⌊q⌋ = 1 / 2 := le_antisymm (not_lt.mp hb) (not_lt.mp ha)
    rw [abs_le]; push_cast; constructor <;> linarith


theorem floorLog2_spec (q : ℚ) (hq : 0 < q) :
    twoPow (floorLog2 q) ≤ q ∧ q < twoPow (floorLog2 q + 1) := by
  have hnum : 0 < q.num := Rat.num_pos.mpr hq
  have hden : 0 < q.den := q.den_pos
  have hnat : 0 < q.num.natAbs := Int.natAbs_pos.mpr (ne_of_gt hnum)
  obtain ⟨ha1, ha2, ha3⟩ := bitLength_spec q.num.natAbs q.num.natAbs (Nat.lt_two_pow _) hnat
  obtain ⟨hb1, hb2, hb3⟩ := bitLength_spec q.den q.den (Nat.lt_two_pow _) hden
  have hqd : q = (q.num.natAbs : ℚ) / (q.den : ℚ) := by
    have h2 : ((q.num.natAbs : ℕ) : ℚ) = (q.num : ℚ) := by
      rw [Nat.cast_natAbs, abs_of_pos hnum]
    rw [h2]
    exact (Rat.num_div_den q).symm
  have hdq : (0 : ℚ) < (q.den : ℚ) := by exact_mod_cast hden
  have hA1 : ((2 : ℚ) ^ (bitLength q.num.natAbs q.num.natAbs - 1)) ≤ (q.num.natAbs : ℚ) := by
    exact_mod_cast ha1
  have hA2 : (q.num.natAbs : ℚ) < (2 : ℚ) ^ (bitLength q.num.natAbs q.num.natAbs) := by
    exact_mod_cast ha2
  have hB1 : ((2 : ℚ) ^ (bitLength q.den q.den - 1)) ≤ (q.den : ℚ) := by
    exact_mod_cast hb1
  have hB2 : (q.den : ℚ) < (2 : ℚ) ^ (bitLength q.den q.den) := by
    exact_mod_cast hb2
  unfold floorLog2
  simp only
  generalize bitLength q.num.natAbs q.num.natAbs = a at *
  generalize bitLength q.den q.den = b at *
  have hlow : (2 : ℚ) ^ ((a : Int) - (b : Int) - 1) ≤ q := by
    have he : ((a : Int) - (b : Int) - 1) = ((a - 1 : ℕ) : Int) - ((b : ℕ) : Int) := by omega
    rw [he, zpow_sub₀ (by norm_num), zpow_natCast, zpow_natCast, hqd]
    exact div_le_div₀ (by positivity) hA1 hdq (le_of_lt hB2)
  have hhigh : q < (2 : ℚ) ^ ((a : Int) - (b : Int) + 1) := by
    have he : ((a : Int) - (b : Int) + 1) = ((a : ℕ) : Int) - ((b - 1 : ℕ) : Int) := by omega
    rw [he, zpow_sub₀ (by norm_num), zpow_natCast, zpow_natCast]
    nth_rewrite 1 [hqd]
    exact div_lt_div₀ hA2 hB1 (by positivity) (by positivity)
  split_ifs with h
  · exact ⟨h, by rw [twoPow_eq]; exact hhigh⟩
  · refine ⟨by rw [twoPow_eq]; exact hlow, ?_⟩
    have : (a : Int) - (b : Int) - 1 + 1 = (a : Int) - (b : Int) := by omega
    rw [this]
    exact not_le.mp h

/-- The double of a positive rational `q` with `2 ^ e ≤ q < 2 ^ (e + 1)` is a
whole multiple of the spacing `2 ^ (max e (-1022) - 52)` of the doubles there,
at most half a spacing from `q`. -/
theorem toDouble_nearest (q r : ℚ) (hq : 0 < q) (h : toDouble q = .finite r) :
    twoPow (floorLog2 q) ≤ q ∧ q < twoPow (floorLog2 q + 1)
    ∧ (∃ m : Int, r = (m : ℚ) * twoPow (max (floorLog2 q) (-1022) - 52))
    ∧ |r - q| ≤ twoPow (max (floorLog2 q) (-1022) - 52) / 2 := by
  obtain ⟨hl1, hl2⟩ := floorLog2_spec q hq
  refine ⟨hl1, hl2, ?_⟩
  unfold toDouble at h
  rw [if_neg (not_lt.mpr (le_of_lt hq))] at h
  unfold roundMagnitude at h
  rw [if_neg (ne_of_gt hq)] at h
  simp only at h
  have hu := twoPow_pos (max (floorLog2 q) (-1022) - 52)
  split_ifs at h with hlt
  simp only [JsNumber.finite.injEq] at h
  refine ⟨⟨_, h.symm⟩, ?_⟩
  rw [← h]
  have hs := roundHalfEven_spec (q / twoPow (max (floorLog2 q) (-1022) - 52))
  have hmul : (roundHalfEven (q / twoPow (max (floorLog2 q) (-1022) - 52)) : ℚ)
        * twoPow (max (floorLog2 q) (-1022) - 52) - q
      = ((roundHalfEven (q / twoPow (max (floorLog2 q) (-1022) - 52)) : ℚ)
          - q / twoPow (max (floorLog2 q) (-1022) - 52))
        * twoPow (max (floorLog2 q) (-1022) - 52) := by
    field_simp
  rw [hmul, abs_mul, abs_of_pos hu]
  calc |(roundHalfEven (q / twoPow (max (floorLog2 q) (-1022) - 52)) : ℚ)
          - q / twoPow (max (floorLog2 q) (-1022) - 52)|
        * twoPow (max (floorLog2 q) (-1022) - 52)
      ≤ 1 / 2 * twoPow (max (floorLog2 q) (-1022) - 52) :=
        mul_le_mul_of_nonneg_right hs (le_of_lt hu)
    _ = twoPow (max (floorLog2 q) (-1022) - 52) / 2 := by ring

/-- Readings of some strings: the double nearest to 1/10, a tie rounded to the
even significand, the largest double and the overflow to Infinity, the smallest
double and the underflow to 0, and the grammar of `parseFloat` and of `+value`. -/
theorem number_readings :
    toDouble (1 / 10) = .finite (3602879701896397 / 36028797018963968)
    ∧ parseFloat "9007199254740993" = .finite 9007199254740992
    ∧ parseFloat "9007199254740995" = .finite 9007199254740996
    ∧ parseFloat "1.7976931348623158e308" = .finite (9007199254740991 * twoPow 971)
    ∧ parseFloat "1.7976931348623159e308" = .posInf
    ∧ parseFloat "5e-324" = .finite (twoPow (-1074))
    ∧ parseFloat "2e-324" = .finite 0
    ∧ parseFloat "  -1.5e3px" = .finite (-1500)
    ∧ parseFloat "-5" = .finite (-5)
    ∧ parseFloat "1e3" = .finite 1000
    ∧ parseFloat ".5" = .finite (1 / 2)
    ∧ parseFloat "5." = .finite 5
    ∧ parseFloat "-Infinity" = .negInf
    ∧ parseFloat "." = .nan
    ∧ parseFloat "" = .nan
    ∧ toNumber "0x1F" = .finite 31
    ∧ toNumber " 12 " = .finite 12
    ∧ toNumber "12px" = .nan
    ∧ toNumber "" = .finite 0 := by
  decide!

/-- In step 3 `nextStep` checks no rule: it advances whatever the form holds. -/
theorem nextStep_of_step_three (w : Wizard) (h : w.step = 3) :
    nextStep w = ({ w with step := 4 }, none) := by
  unfold nextStep
  rw [if_neg (by omega), if_neg (by omega), h]
  rfl

/-- C18: in step 3 `nextStep` advances to step 4 with a missing target date
and with the past target date 2000-01-01; the claim says the step stays at 3. -/
theorem nextStep_date_step_advances_without_date :
    (nextStep
        { step := 3, loading := false
          form := { type := "weight", targetValue := "70", currentValue := "", unit := "kg",
                    targetDate := "", status := "active" } }).1.step = 4
    ∧ (nextStep
        { step := 3, loading := false
          form := { type := "weight", targetValue := "70", currentValue := "", unit := "kg",
                    targetDate := "2000-01-01", status := "active" } }).1.step = 4 := by
  decide

/-- C19: with target value 0.05, a number greater than 0, unit "kg" and no
current value, `nextStep` in step 2 stays at step 2: the rule `min` of
`targetValue` has the value 0.1, while its message reads "Target value must be
greater than 0". The smallest target value that passes is the double 0.1. -/
theorem nextStep_small_target_blocked :
    parseFloat "0.05" = .finite (3602879701896397 / 72057594037927936)
    ∧ (JsNumber.finite 0).lt (parseFloat "0.05") = true
    ∧ targetPattern "0.05" = true
    ∧ (nextStep
        { step := 2, loading := false
          form := { type := "weight", targetValue := "0.05", currentValue := "", unit := "kg",
                    targetDate := "", status := "active" } }).1.step = 2
    ∧ (nextStep
        { step := 2, loading := false
          form := { type := "weight", targetValue := "0.1", currentValue := "", unit := "kg",
                    targetDate := "", status := "active" } }).1.step = 3 := by
  decide!

/-- In step 2 `nextStep` advances to step 3 exactly when `targetValue` is a
numeral of digits with an optional point before its last digits whose double
is at least the double 0.1, `unit` is not empty, and `currentValue` is empty or
is a numeral of digits with at most one point whose double is at most that of
`targetValue`; otherwise the state, step 2 included, is unchanged. -/
theorem nextStep_details (w : Wizard) (h : w.step = 2) :
    ((nextStep w).1.step = 3
      ↔ targetPattern w.form.targetValue = true
          ∧ (toDouble (1 / 10)).le (parseFloat w.form.targetValue) = true
          ∧ w.form.unit ≠ ""
          ∧ (w.form.currentValue = ""
              ∨ (currentPattern w.form.currentValue = true
                  ∧ (parseFloat w.form.currentValue).le (parseFloat w.form.targetValue)
                      = true)))
    ∧ ((nextStep w).1.step = 3 → (nextStep w).1 = { w with step := 3 })
    ∧ ((nextStep w).1.step ≠ 3 → (nextStep w).1 = w) := by
  rw [← details_valid_iff]
  unfold nextStep
  rw [if_neg (by omega), if_pos h]
  cases hv : trigger [targetValueRule, unitRule, currentValueRule] w.form with
  | false =>
    simp only [Bool.not_false, if_true, Bool.false_eq_true, iff_false]
    refine ⟨by omega, fun h3 => absurd h3 (by omega), fun _ => trivial⟩
  | true =>
    simp only [Bool.not_true, Bool.false_eq_true, if_false, iff_true]
    refine ⟨by omega, fun _ => by rw [h]; rfl, fun h3 => absurd (by omega) h3⟩

/-- Doubles, not decimal values, are compared: the target value
0.09999999999999999999 reads as the double 0.1 and passes `min`, and the current
value 10.00000000000000000001 reads as 10 and does not exceed the target 10. -/
theorem nextStep_details_rounding :
    parseFloat "0.09999999999999999999" = toDouble (1 / 10)
    ∧ (nextStep
        { step := 2, loading := false
          form := { type := "weight", targetValue := "0.09999999999999999999",
                    currentValue := "", unit := "kg", targetDate := "",
                    status := "active" } }).1.step = 3
    ∧ parseFloat "10.00000000000000000001" = .finite 10
    ∧ (nextStep
        { step := 2, loading := false
          form := { type := "weight", targetValue := "10",
                    currentValue := "10.00000000000000000001", unit := "kg",
                    targetDate := "", status := "active" } }).1.step = 3 := by
  decide!

/-- C20: when the form data pass the rules of `targetValue` and
`currentValue`, the goal `onFormSubmit` posts has as `targetValue` a number (not
`NaN`) greater than 0, in fact at least the double 0.1, and as `currentValue` a
number between 0 and the `targetValue`, in the comparisons of doubles. -/
theorem posted_goal_values (postSucceeds : Bool) (data : GoalForm) (w : Wizard)
    (htarget : targetValueRule data = true) (hcurrent : currentValueRule data = true) :
    ∃ t c : JsNumber,
      (onFormSubmit postSucceeds data w).2.1.targetValue = t
      ∧ (onFormSubmit postSucceeds data w).2.1.currentValue = c
      ∧ t ≠ .nan ∧ c ≠ .nan
      ∧ (JsNumber.finite 0).lt t = true
      ∧ (toDouble (1 / 10)).le t = true
      ∧ (JsNumber.finite 0).le c = true
      ∧ c.le t = true := by
  obtain ⟨hp, hle⟩ := (targetValueRule_iff data).mp htarget
  obtain ⟨_, _, q, _, hpf, _⟩ := targetPattern_imp _ hp
  have ht0 : (JsNumber.finite 0).lt (parseFloat data.targetValue) = true :=
    JsNumber.lt_of_lt_of_le _ _ _ zero_lt_tenth hle
  have htnan : parseFloat data.targetValue ≠ .nan := by
    rw [hpf]; exact toDouble_ne_nan q
  unfold onFormSubmit goalDataOf
  rcases (currentValueRule_iff data hp).mp hcurrent with hc | ⟨hcp, hct⟩
  · refine ⟨_, .finite 0, rfl, ?_, htnan, by simp, ht0, hle, by simp [JsNumber.le],
      JsNumber.le_of_lt _ _ ht0⟩
    simp [hc]
  · have hne : data.currentValue ≠ "" := by
      intro hc
      rw [hc] at hct
      have hnan : parseFloat "" = .nan := by decide
      rw [hnan] at hct
      simp [JsNumber.le] at hct
    refine ⟨_, parseFloat data.currentValue, rfl, ?_, htnan,
      (JsNumber.ne_nan_of_le _ _ hct).1, ht0, hle, ?_, hct⟩
    · simp [hne]
    · rcases pattern_readings _ hcp hne with ⟨_, hnan, _⟩ | ⟨q2, hq2, hpf2, _⟩
      · rw [hnan] at hct
        simp [JsNumber.le] at hct
      · rw [hpf2]
        exact JsNumber.le_of_not_lt _ _ (toDouble_ne_nan q2) (by simp)
          (toDouble_not_lt_zero q2 hq2)

theorem posted_goal_values_witness :
    ∃ t c : JsNumber,
      (onFormSubmit true
          { type := "weight", targetValue := "0.09999999999999999999",
            currentValue := "0.1", unit := "kg", targetDate := "2030-01-01",
            status := "active" }
          { initialWizard with step := 4 }).2.1.targetValue = t
      ∧ (onFormSubmit true
          { type := "weight", targetValue := "0.09999999999999999999",
            currentValue := "0.1", unit := "kg", targetDate := "2030-01-01",
            status := "active" }
          { initialWizard with step := 4 }).2.1.currentValue = c
      ∧ (JsNumber.finite 0).lt t = true ∧ c.le t = true := by
  obtain ⟨t, c, h1, h2, _, _, h5, _, _, h8⟩ :=
    posted_goal_values true
      { type := "weight", targetValue := "0.09999999999999999999",
        currentValue := "0.1", unit := "kg", targetDate := "2030-01-01",
        status := "active" }
      { initialWizard with step := 4 } (by decide!) (by decide!)
  exact ⟨t, c, h1, h2, h5, h8⟩

/-! ## The default unit of the wizard -/

theorem selectType_of_change (t : String) (w : Wizard) (hne : t ≠ "")
    (hchange : t ≠ w.form.type) :
    selectType t w = { w with form := { w.form with type := t, unit := defaultUnit t } } := by
  unfold selectType unitEffect unitEffectBody
  simp only
  rw [if_neg hchange, if_pos hne]

theorem selectType_same (w : Wizard) : selectType w.form.type w = w := by
  unfold selectType unitEffect
  simp

/-- C21: when a type card sets the selected type to a non-empty value that
differs from the current one, the unit becomes the default of that type: "kg"
for weight, "lbs" for strength, "min" for endurance, "sessions" for habit,
"calories" for nutrition, and the empty string for custom and for every other
value. The step, the loading flag and the other fields stay as they are. -/
theorem selectType_sets_default_unit (t : String) (w : Wizard) (hne : t ≠ "")
    (hchange : t ≠ w.form.type) :
    (selectType t w).form.unit = defaultUnit t
    ∧ (selectType t w).form.type = t
    ∧ selectType t w = { w with form := { w.form with type := t, unit := defaultUnit t } }
    ∧ defaultUnit "weight" = "kg" ∧ defaultUnit "strength" = "lbs"
    ∧ defaultUnit "endurance" = "min" ∧ defaultUnit "habit" = "sessions"
    ∧ defaultUnit "nutrition" = "calories" ∧ defaultUnit "custom" = ""
    ∧ (t ≠ "weight" → t ≠ "strength" → t ≠ "endurance" → t ≠ "habit" → t ≠ "nutrition" →
        defaultUnit t = "") := by
  rw [selectType_of_change t w hne hchange]
  refine ⟨rfl, rfl, rfl, by decide, by decide, by decide, by decide, by decide, by decide, ?_⟩
  intro h1 h2 h3 h4 h5
  unfold defaultUnit
  simp [h1, h2, h3, h4, h5]

theorem selectType_sets_default_unit_witness :
    (selectType "strength" (inputUnit "stone" (selectType "weight" initialWizard))).form.unit
      = "lbs"
    ∧ defaultUnit "strength" = "lbs" := by
  have h := selectType_sets_default_unit "strength"
    (inputUnit "stone" (selectType "weight" initialWizard)) (by decide) (by decide)
  exact ⟨h.1.trans h.2.2.2.2.1, h.2.2.2.2.1⟩

/-! ## onFormSubmit -/

/-- C23: the goal `onFormSubmit` posts has as `targetValue` the number
`parseFloat` reads from the `targetValue` string, as `currentValue` the number
read from the `currentValue` string when that string is not empty and 0 when it
is empty, and the form's `type`, `unit`, `targetDate` and `status`; whether the
post succeeds or fails the step and the form values are as before and `loading`
is false afterwards, and `onGoalCreated` is called exactly when the post
succeeds. -/
theorem onFormSubmit_posts_parsed_goal (postSucceeds : Bool) (data : GoalForm) (w : Wizard) :
    (onFormSubmit postSucceeds data w).2.1.targetValue = parseFloat data.targetValue
    ∧ (data.currentValue ≠ "" →
        (onFormSubmit postSucceeds data w).2.1.currentValue = parseFloat data.currentValue)
    ∧ (data.currentValue = "" → (onFormSubmit postSucceeds data w).2.1.currentValue = .finite 0)
    ∧ (onFormSubmit postSucceeds data w).2.1.type = data.type
    ∧ (onFormSubmit postSucceeds data w).2.1.unit = data.unit
    ∧ (onFormSubmit postSucceeds data w).2.1.targetDate = data.targetDate
    ∧ (onFormSubmit postSucceeds data w).2.1.status = data.status
    ∧ (onFormSubmit postSucceeds data w).1.step = w.step
    ∧ (onFormSubmit postSucceeds data w).1.form = w.form
    ∧ (onFormSubmit postSucceeds data w).1.loading = false
    ∧ ((onFormSubmit postSucceeds data w).2.2 = true ↔ postSucceeds = true) := by
  unfold onFormSubmit goalDataOf
  refine ⟨rfl, ?_, ?_, rfl, rfl, rfl, rfl, rfl, rfl, rfl, Iff.rfl⟩
  · intro h
    simp [h]
  · intro h
    simp [h]

theorem onFormSubmit_posts_parsed_goal_witness :
    (onFormSubmit false
        { type := "weight", targetValue := "70.5", currentValue := "", unit := "kg",
          targetDate := "2030-01-01", status := "active" }
        { initialWizard with step := 4 }).2.1.currentValue = .finite 0
    ∧ (onFormSubmit false
        { type := "weight", targetValue := "70.5", currentValue := "", unit := "kg",
          targetDate := "2030-01-01", status := "active" }
        { initialWizard with step := 4 }).1.step = 4
    ∧ (onFormSubmit false
        { type := "weight", targetValue := "70.5", currentValue := "", unit := "kg",
          targetDate := "2030-01-01", status := "active" }
        { initialWizard with step := 4 }).2.2 = false := by
  have h := onFormSubmit_posts_parsed_goal false
    { type := "weight", targetValue := "70.5", currentValue := "", unit := "kg",
      targetDate := "2030-01-01", status := "active" }
    { initialWizard with step := 4 }
  exact ⟨h.2.2.1 rfl, h.2.2.2.2.2.2.2.1, rfl⟩

/-! ## The page of the next and prev descriptors -/

theorem getNutritionLogs_descriptor_pages (user : ObjectId) (q : ListQuery) (s : Store)
    (p : Pagination) (h : (getNutritionLogs user q s).pagination = some p) :
    (∀ next, p.next = some next → next.page = q.page.plusOne 1)
    ∧ (∀ prev, p.prev = some prev → prev.page = .number ((q.page.value 1 : Int) - 1)) := by
  unfold getNutritionLogs at h
  simp only at h
  by_cases h0 : (((q.page.value 1 : ℕ) : Int) - 1) * ((q.limit.value 10 : ℕ) : Int) < 0
  · rw [if_pos h0] at h
    simp at h
  · rw [if_neg h0] at h
    simp only [Option.some.injEq] at h
    subst h
    constructor
    · intro next hnext
      simp only at hnext
      split_ifs at hnext
      simp only [Option.some.injEq] at hnext
      rw [← hnext]
    · intro prev hprev
      simp only at hprev
      split_ifs at hprev
      simp only [Option.some.injEq] at hprev
      rw [← hprev]

/-- C26: a request for page 2 with limit 1, both supplied in the query string,
over three logs of the requester is answered with a `next` descriptor whose page
is the string "21", not 3, because `page + 1` on a string appends the digit;
its `prev` descriptor has page 1, and without a `page` in the query the `next`
descriptor has page 2. -/
theorem getNutritionLogs_next_page_appends_digit :
    (∃ p next prev,
      (getNutritionLogs 1 { range := ⟨none, none⟩, page := .text 2, limit := .text 1 }
          [emptyLog 1 1 5, emptyLog 2 1 7, emptyLog 3 1 6]).pagination = some p
      ∧ p.page = 2
      ∧ p.next = some next ∧ next.page = .text "21" ∧ next.page ≠ .number 3
      ∧ next.page ≠ .text "3"
      ∧ p.prev = some prev ∧ prev.page = .number 1)
    ∧ (∃ p next,
      (getNutritionLogs 1 { range := ⟨none, none⟩, page := .absent, limit := .text 1 }
          [emptyLog 1 1 5, emptyLog 2 1 7, emptyLog 3 1 6]).pagination = some p
      ∧ p.next = some next ∧ next.page = .number 2) := by
  refine ⟨⟨_, _, _, rfl, ?_, rfl, ?_, ?_, ?_, rfl, ?_⟩, ⟨_, _, rfl, rfl, ?_⟩⟩ <;> decide

/-! ## The meals of a log under the meal operations -/

theorem mealsComplete_iff (l : NutritionLog) :
    mealsComplete l = true ↔ ∀ m ∈ l.meals, m.type ≠ "" ∧ m.foods ≠ [] := by
  unfold mealsComplete
  simp [List.all_eq_true]

theorem findById_save_same (s : Store) (id : ObjectId) (l l2 : NutritionLog)
    (hfind : findById s id = some l) (hid : l2._id = l._id) :
    findById (save s l2) id = some l2 := by
  have h := findById_id s id l hfind
  have h2 : l2._id = id := hid.trans h
  have := findById_save s l l2 (by rw [h2]; exact hfind)
  rw [h2] at this
  exact this

theorem addMeal_keeps_mealsComplete (now : Nat) (newId user id : ObjectId) (body : MealBody)
    (s : Store) (l : NutritionLog) (hfind : findById s id = some l)
    (hcomplete : mealsComplete l = true) :
    ∃ l2, findById (addMeal now newId user id body s).2 id = some l2
      ∧ mealsComplete l2 = true := by
  unfold addMeal
  split_ifs with hguard
  · exact ⟨l, hfind, hcomplete⟩
  · unfold lookupOwned
    rw [hfind]
    simp only
    split_ifs with hown
    · exact ⟨l, hfind, hcomplete⟩
    · refine ⟨_, findById_save_same s id l _ hfind rfl, ?_⟩
      rw [mealsComplete_iff] at hcomplete ⊢
      intro m hm
      rcases List.mem_append.mp hm with hm | hm
      · exact hcomplete m hm
      · have hmeq := List.mem_singleton.mp hm
        subst hmeq
        simp only [Bool.or_eq_true, Bool.not_eq_true', decide_eq_true_eq, not_or,
          Bool.not_eq_false] at hguard
        obtain ⟨⟨⟨htype, _⟩, harr⟩, hlen⟩ := hguard
        constructor
        · cases hb : body.type with
          | none => rw [hb] at htype; simp [truthyString] at htype
          | some t =>
            rw [hb] at htype
            simp only [truthyString, decide_eq_true_eq] at htype
            simp [stringOr, htype]
        · intro hnil
          apply hlen
          simp only at hnil
          rw [hnil]
          rfl

theorem deleteMeal_keeps_mealsComplete (user id mealId : ObjectId) (s : Store)
    (l : NutritionLog) (hfind : findById s id = some l)
    (hcomplete : mealsComplete l = true) :
    ∃ l2, findById (deleteMeal user id mealId s).2 id = some l2
      ∧ mealsComplete l2 = true := by
  unfold deleteMeal lookupOwned
  rw [hfind]
  simp only
  split_ifs with hown
  · exact ⟨l, hfind, hcomplete⟩
  · cases hidx : l.meals.findIdx? (fun meal => decide (meal._id = mealId)) with
    | none =>
      simp only [hidx]
      exact ⟨l, hfind, hcomplete⟩
    | some i =>
      simp only [hidx]
      refine ⟨_, findById_save_same s id l _ hfind rfl, ?_⟩
      rw [mealsComplete_iff] at hcomplete ⊢
      intro m hm
      exact hcomplete m (List.mem_of_mem_eraseIdx hm)

theorem updateMeal_keeps_mealsComplete (user id mealId : ObjectId) (body : MealUpdateBody)
    (s : Store) (l : NutritionLog) (hfind : findById s id = some l)
    (hcomplete : mealsComplete l = true) (hfoods : body.foods ≠ some []) :
    ∃ l2, findById (updateMeal user id mealId body s).2 id = some l2
      ∧ mealsComplete l2 = true := by
  unfold updateMeal lookupOwned
  rw [hfind]
  simp only
  split_ifs with hown
  · exact ⟨l, hfind, hcomplete⟩
  · cases hidx : l.meals.findIdx? (fun meal => decide (meal._id = mealId)) with
    | none =>
      simp only [hidx]
      exact ⟨l, hfind, hcomplete⟩
    | some i =>
      simp only [hidx]
      obtain ⟨pre, meal, post, hsplit, hlen, _, _⟩ := findIdx?_split _ _ i hidx
      refine ⟨_, findById_save_same s id l _ hfind rfl, ?_⟩
      rw [mealsComplete_iff] at hcomplete ⊢
      intro m hm
      simp only at hm
      rw [hsplit, ← hlen, modify_append_cons] at hm
      rw [hsplit] at hcomplete
      rcases List.mem_append.mp hm with hm | hm
      · exact hcomplete m (List.mem_append_left _ hm)
      · rcases List.mem_cons.mp hm with hm | hm
        · have hmeal := hcomplete meal (List.mem_append_right _ (List.mem_cons_self _ _))
          obtain ⟨_, h2, h3, _, _, h6, h7, _, _⟩ := applyMealUpdate_fields body meal
          subst hm
          constructor
          · cases hb : body.type with
            | none => rw [h3 (Or.inl hb)]; exact hmeal.1
            | some t =>
              by_cases ht : t = ""
              · rw [h3 (Or.inr (by rw [hb, ht]))]; exact hmeal.1
              · rw [h2 t hb ht]; exact ht
          · cases hb : body.foods with
            | none => rw [h7 hb]; exact hmeal.2
            | some fs =>
              rw [h6 fs hb]
              intro hnil
              exact hfoods (by rw [hb, hnil])
        · exact hcomplete m (List.mem_append_right _ (List.mem_cons_of_mem _ hm))

/-- C27: on a log whose only meal has the type "lunch" and one food,
`updateMeal` with the body `{ foods: [] }` answers 200 and stores the meal with
an empty foods list, which `addMeal` rejects on entry with 400 INVALID_DATA. -/
theorem updateMeal_stores_empty_foods :
    mealsComplete
        { emptyLog 1 1 1704067200000 with
          meals := [{ _id := 10, type := "lunch", time := 0, foods := [rice], notes := "" }] }
      = true
    ∧ (updateMeal 1 1 10 { type := none, time := none, foods := some [], notes := none }
        [{ emptyLog 1 1 1704067200000 with
            meals := [{ _id := 10, type := "lunch", time := 0, foods := [rice],
                        notes := "" }] }]).1.status = 200
    ∧ findById
        (updateMeal 1 1 10 { type := none, time := none, foods := some [], notes := none }
          [{ emptyLog 1 1 1704067200000 with
              meals := [{ _id := 10, type := "lunch", time := 0, foods := [rice],
                          notes := "" }] }]).2 1
      = some { emptyLog 1 1 1704067200000 with
          meals := [{ _id := 10, type := "lunch", time := 0, foods := [], notes := "" }] }
    ∧ mealsComplete
        { emptyLog 1 1 1704067200000 with
          meals := [{ _id := 10, type := "lunch", time := 0, foods := [], notes := "" }] }
      = false
    ∧ (addMeal 1704067200000 11 1 1
        { type := some "lunch", time := none, foods := some (.array []), notes := none }
        [{ emptyLog 1 1 1704067200000 with
            meals := [{ _id := 10, type := "lunch", time := 0, foods := [rice],
                        notes := "" }] }]).1.status = 400 := by
  decide

/-! ## The steps of the wizard -/

theorem nextStep_step (w : Wizard) :
    (nextStep w).1.step = w.step ∨ (nextStep w).1.step = w.step + 1 := by
  unfold nextStep
  split_ifs <;> simp

theorem nextStep_form (w : Wizard) :
    (nextStep w).1.form = w.form ∧ (nextStep w).1.loading = w.loading := by
  unfold nextStep
  split_ifs <;> exact ⟨rfl, rfl⟩

theorem selectType_step (t : String) (w : Wizard) : (selectType t w).step = w.step := by
  unfold selectType unitEffect unitEffectBody
  simp only
  split_ifs <;> rfl

theorem perform_step (a : Action) (w : Wizard) :
    (perform a w).step = w.step
    ∨ ((perform a w).step = w.step + 1 ∧ w.step < 4)
    ∨ ((perform a w).step = w.step - 1 ∧ w.step > 1) := by
  unfold perform
  by_cases ho : offered a w = true
  · rw [if_pos ho]
    cases a with
    | selectType t => exact Or.inl (selectType_step t w)
    | inputTargetValue v => exact Or.inl rfl
    | inputUnit v => exact Or.inl rfl
    | inputCurrentValue v => exact Or.inl rfl
    | inputTargetDate v => exact Or.inl rfl
    | next =>
      have hlt : w.step < 4 := by simpa [offered] using ho
      rcases nextStep_step w with h | h
      · exact Or.inl h
      · exact Or.inr (Or.inl ⟨h, hlt⟩)
    | back =>
      have hgt : w.step > 1 := by simpa [offered] using ho
      exact Or.inr (Or.inr ⟨rfl, hgt⟩)
    | submit valid postSucceeds =>
      simp only
      split_ifs
      · exact Or.inl rfl
      · exact Or.inl rfl
  · rw [if_neg ho]
    exact Or.inl rfl

theorem run_step_range (actions : List Action) (w : Wizard) (h : 1 ≤ w.step ∧ w.step ≤ 4) :
    1 ≤ (run actions w).step ∧ (run actions w).step ≤ 4 := by
  induction actions generalizing w with
  | nil => exact h
  | cons a rest ih =>
    have hrun : run (a :: rest) w = run rest (perform a w) := rfl
    rw [hrun]
    apply ih
    rcases perform_step a w with h1 | ⟨h1, h2⟩ | ⟨h1, h2⟩ <;> omega

/-- C24: after every sequence of actions on the wizard opened at step 1, with
"Next" usable only while `step < 4` and "Back" only while `step > 1`, the step
is 1, 2, 3 or 4; every further action leaves the step as it is or moves it by
exactly one; `nextStep` leaves the step or adds one to it and `prevStep` takes
one from it, so no step is skipped. -/
theorem wizard_step_stays_in_range (actions : List Action) :
    initialWizard.step = 1
    ∧ 1 ≤ (run actions initialWizard).step ∧ (run actions initialWizard).step ≤ 4
    ∧ (∀ a, (perform a (run actions initialWizard)).step = (run actions initialWizard).step
        ∨ (perform a (run actions initialWizard)).step = (run actions initialWizard).step + 1
        ∨ (perform a (run actions initialWizard)).step = (run actions initialWizard).step - 1)
    ∧ (∀ w : Wizard, (nextStep w).1.step = w.step ∨ (nextStep w).1.step = w.step + 1)
    ∧ (∀ w : Wizard, (prevStep w).step = w.step - 1) := by
  have hrange := run_step_range actions initialWizard ⟨by decide, by decide⟩
  refine ⟨rfl, hrange.1, hrange.2, ?_, nextStep_step, fun w => rfl⟩
  intro a
  rcases perform_step a (run actions initialWizard) with h | ⟨h, _⟩ | ⟨h, _⟩
  · exact Or.inl h
  · exact Or.inr (Or.inl h)
  · exact Or.inr (Or.inr h)

theorem wizard_step_stays_in_range_witness :
    (run [.selectType "weight", .next, .back, .back, .next, .inputTargetValue "70", .next, .next,
        .next, .next] initialWizard).step ≤ 4
    ∧ 1 ≤ (run [.back, .back] initialWizard).step := by
  exact ⟨(wizard_step_stays_in_range [.selectType "weight", .next, .back, .back, .next,
      .inputTargetValue "70", .next, .next, .next, .next]).2.2.1,
    (wizard_step_stays_in_range [.back, .back]).2.1⟩

/-! ## The unit across the steps -/

theorem perform_keeps_unit (type : String) (a : Action) (w : Wizard)
    (htype : w.form.type = type) (hkeeps : keepsUnit type a = true) :
    (perform a w).form.unit = w.form.unit ∧ (perform a w).form.type = type := by
  unfold perform
  by_cases ho : offered a w = true
  · rw [if_pos ho]
    cases a with
    | selectType t =>
      have ht : t = w.form.type := by
        have : t = type := by simpa [keepsUnit] using hkeeps
        rw [this, htype]
      simp only
      rw [ht, selectType_same]
      exact ⟨rfl, htype⟩
    | inputTargetValue v => exact ⟨rfl, htype⟩
    | inputUnit v => simp [keepsUnit] at hkeeps
    | inputCurrentValue v => exact ⟨rfl, htype⟩
    | inputTargetDate v => exact ⟨rfl, htype⟩
    | next =>
      simp only
      rw [(nextStep_form w).1]
      exact ⟨rfl, htype⟩
    | back => exact ⟨rfl, htype⟩
    | submit valid postSucceeds =>
      simp only
      split_ifs
      · exact ⟨rfl, htype⟩
      · exact ⟨rfl, htype⟩
  · rw [if_neg ho]
    exact ⟨rfl, htype⟩

theorem run_keeps_unit (type : String) (actions : List Action) (w : Wizard)
    (htype : w.form.type = type) (hkeeps : actions.all (keepsUnit type) = true) :
    (run actions w).form.unit = w.form.unit ∧ (run actions w).form.type = type := by
  induction actions generalizing w with
  | nil => exact ⟨rfl, htype⟩
  | cons a rest ih =>
    have hrun : run (a :: rest) w = run rest (perform a w) := rfl
    rw [List.all_cons, Bool.and_eq_true] at hkeeps
    obtain ⟨h1, h2⟩ := perform_keeps_unit type a w htype hkeeps.1
    rw [hrun, ← h1]
    exact ih (perform a w) h2 hkeeps.2

theorem perform_changes_unit (a : Action) (w : Wizard)
    (h : (perform a w).form.unit ≠ w.form.unit) :
    (∃ v, a = .inputUnit v) ∨ (∃ t, a = .selectType t ∧ t ≠ w.form.type) := by
  by_cases hk : keepsUnit w.form.type a = true
  · exact absurd (perform_keeps_unit w.form.type a w rfl hk).1 h
  · cases a with
    | selectType t =>
      refine Or.inr ⟨t, rfl, ?_⟩
      simpa [keepsUnit] using hk
    | inputUnit v => exact Or.inl ⟨v, rfl⟩
    | inputTargetValue v => simp [keepsUnit] at hk
    | inputCurrentValue v => simp [keepsUnit] at hk
    | inputTargetDate v => simp [keepsUnit] at hk
    | next => simp [keepsUnit] at hk
    | back => simp [keepsUnit] at hk
    | submit valid postSucceeds => simp [keepsUnit] at hk

/-- C22: in step 1, when a type card changes the selected type to "weight",
"Next" leads to step 2 with the unit "kg"; the unit is still "kg" after any
further actions that neither type into the unit field nor select another type,
and once the user has typed a unit it is that unit after any such actions.
`nextStep` and `prevStep` never change the unit, and an action changes the unit
only if it is an input in the unit field or a selection that changes the
type. -/
theorem unit_after_selecting_weight (w : Wizard) (before after : List Action) (u : String)
    (hstep : w.step = 1) (hchange : w.form.type ≠ "weight")
    (hbefore : before.all (keepsUnit "weight") = true)
    (hafter : after.all (keepsUnit "weight") = true) :
    (nextStep (selectType "weight" w)).1.step = 2
    ∧ (nextStep (selectType "weight" w)).1.form.unit = "kg"
    ∧ (run before (nextStep (selectType "weight" w)).1).form.unit = "kg"
    ∧ (run after (inputUnit u (run before (nextStep (selectType "weight" w)).1))).form.unit = u
    ∧ (∀ x : Wizard,
        (nextStep x).1.form.unit = x.form.unit ∧ (prevStep x).form.unit = x.form.unit)
    ∧ (∀ a x, (perform a x).form.unit ≠ x.form.unit →
        (∃ v, a = .inputUnit v) ∨ (∃ t, a = .selectType t ∧ t ≠ x.form.type)) := by
  have hsel := selectType_of_change "weight" w (by decide) (fun e => hchange e.symm)
  have hnext : nextStep (selectType "weight" w)
      = ({ selectType "weight" w with step := 2 }, none) := by
    rw [hsel]
    unfold nextStep
    simp [hstep, trigger, typeRule]
  have hunit : (nextStep (selectType "weight" w)).1.form.unit = "kg" := by
    rw [(nextStep_form _).1, hsel]
    rfl
  have htype : (nextStep (selectType "weight" w)).1.form.type = "weight" := by
    rw [(nextStep_form _).1, hsel]
  have hb := run_keeps_unit "weight" before _ htype hbefore
  have ha := run_keeps_unit "weight" after
    (inputUnit u (run before (nextStep (selectType "weight" w)).1)) hb.2 hafter
  refine ⟨?_, hunit, hb.1.trans hunit, ha.1, ?_, perform_changes_unit⟩
  · rw [hnext]
  · intro x
    exact ⟨by rw [(nextStep_form x).1], rfl⟩

theorem unit_after_selecting_weight_witness :
    (run [.inputTargetValue "70", .next, .back]
        (nextStep (selectType "weight" initialWizard)).1).form.unit = "kg"
    ∧ (run [.next, .back, .back, .selectType "weight", .next]
        (inputUnit "stone" (run [.inputTargetValue "70", .next, .back]
          (nextStep (selectType "weight" initialWizard)).1))).form.unit = "stone" := by
  have h := unit_after_selecting_weight initialWizard [.inputTargetValue "70", .next, .back]
    [.next, .back, .back, .selectType "weight", .next] "stone" rfl (by decide) (by decide) (by decide)
  exact ⟨h.2.2.1, h.2.2.2.1⟩

/-! ## The rule of the target date -/

theorem parseDateInput_midnight (value : String) (t : Int)
    (h : parseDateInput value = some t) : ∃ day : Int, t = day * msPerDay := by
  unfold parseDateInput at h
  split at h
  · simp only at h
    split_ifs at h
    simp only [Option.some.injEq] at h
    exact ⟨_, h.symm⟩
  · simp at h

theorem validateTargetDate_none_iff (tz : Int) (now : Nat) (value : String) :
    validateTargetDate tz now value = none
      ↔ ∃ t, parseDateInput value = some t ∧ setHoursZero tz now ≤ t := by
  unfold validateTargetDate
  simp only
  cases hp : parseDateInput value with
  | none => simp
  | some t =>
    simp only [ge_iff_le, Option.some.injEq, exists_eq_left']
    split_ifs with h
    · simp [h]
    · simp [h]

/-- East of UTC, and at UTC, the rule accepts exactly the dates from the local
date of today on. -/
theorem validateTargetDate_east (tz : Int) (now : Nat) (value : String)
    (h0 : 0 ≤ tz) (h1 : tz < msPerDay) :
    validateTargetDate tz now value = none
      ↔ ∃ day : Int, parseDateInput value = some (day * msPerDay)
          ∧ Day ((now : Int) + tz) ≤ day := by
  rw [validateTargetDate_none_iff]
  unfold setHoursZero
  unfold msPerDay at h1
  constructor
  · rintro ⟨t, hp, hle⟩
    obtain ⟨day, hday⟩ := parseDateInput_midnight value t hp
    refine ⟨day, by rw [← hday]; exact hp, ?_⟩
    rw [hday] at hle
    unfold msPerDay at hle
    omega
  · rintro ⟨day, hp, hle⟩
    refine ⟨_, hp, ?_⟩
    unfold msPerDay
    omega

/-- West of UTC the rule rejects the local date of today, at every time of the
day. -/
theorem validateTargetDate_west_rejects_today (tz : Int) (now : Nat) (value : String)
    (h0 : tz < 0) (htoday : parseDateInput value = some (Day ((now : Int) + tz) * msPerDay)) :
    validateTargetDate tz now value = some "Target date cannot be in the past" := by
  unfold validateTargetDate
  simp only [htoday]
  rw [if_neg]
  unfold setHoursZero
  omega

/-- C25: in a browser five hours behind UTC, at 2024-01-15T17:00Z (noon of
15 January 2024 local time), the rule of `targetDate` rejects the value
"2024-01-15", today's local date, with "Target date cannot be in the past":
the value is read as midnight UTC, which is before local midnight. -/
theorem targetDateRule_rejects_today_west_of_UTC :
    getUTCFullYear ((1705338000000 : Int) + (-18000000)) = 2024
    ∧ getUTCMonth ((1705338000000 : Int) + (-18000000)) = 0
    ∧ getUTCDate ((1705338000000 : Int) + (-18000000)) = 15
    ∧ parseDateInput "2024-01-15" = some 1705276800000
    ∧ setHoursZero (-18000000) 1705338000000 = 1705294800000
    ∧ targetDateRule (-18000000) 1705338000000
        { type := "weight", targetValue := "70", currentValue := "", unit := "kg",
          targetDate := "2024-01-15", status := "active" }
      = some "Target date cannot be in the past" := by
  decide

end FitTrack
